import Mathlib

/-!
# Pixisphere: filter builders and paginated listing endpoints

A shallow embedding of the Express route modules `routes/partners.js`,
`routes/clients.js` and `routes/orders.js`: the three filter builders, the
validator chains declared on the listing routes, the listing handlers with
their pagination block, and the partner search handler; of the authentication
code in `middleware/auth.js`, `middleware/firebaseAuth.js` and
`routes/auth.js`; and of the final error-handling middleware and the response
sites of `server.js`.

JavaScript numbers are identified with the integers they denote (doubles are
exact on integers below `2^53`); `Number.parseFloat` and `new Date` are kept
as unevaluated operands of the filter document.
-/

namespace Pixisphere

/-! ## Query-string values -/

/-- A value found in `req.query`: a string, a repeated parameter (the parser
never yields an empty array), or a bracketed parameter such as `a[b]=c`. -/
inductive QVal where
  | str (s : String)
  | arr (x : String) (xs : List String)
  | obj (kvs : List (String × String))
  deriving DecidableEq, Repr

/-- A plain object whose properties are query-string values, in insertion
order: `req.query` and the `filters` rest object. -/
abbrev Query := List (String × QVal)

/-- JavaScript truthiness of a defined query value: only the empty string is
falsy. -/
def QVal.truthy : QVal → Bool
  | .str s => s != ""
  | .arr _ _ => true
  | .obj _ => true

/-- Property read under an `if (filters.key)` guard: the value when it is
defined and truthy. -/
def truthyGet (filters : Query) (key : String) : Option QVal :=
  (filters.lookup key).filter QVal.truthy

/-- Comma-joined characters of an array, as `Array.prototype.toString`. -/
def joinComma : List String → List Char
  | [] => []
  | [x] => x.data
  | x :: y :: rest => x.data ++ ',' :: joinComma (y :: rest)

/-- Characters of `ToString(v)`. -/
def QVal.toJsChars : QVal → List Char
  | .str s => s.data
  | .arr x xs => joinComma (x :: xs)
  | .obj _ => "[object Object]".data

/-! ## Number parsing -/

/-- White space skipped by `parseInt` (the `WhiteSpace` and `LineTerminator`
productions). -/
def isJsWhitespace (c : Char) : Bool :=
  c.toNat ∈ [0x09, 0x0A, 0x0B, 0x0C, 0x0D, 0x20, 0xA0, 0x1680, 0x2028, 0x2029,
    0x202F, 0x205F, 0x3000, 0xFEFF] || (0x2000 ≤ c.toNat && c.toNat ≤ 0x200A)

/-- Optional sign: whether it is a minus, and the remaining characters. -/
def splitSign : List Char → Bool × List Char
  | '-' :: cs => (true, cs)
  | '+' :: cs => (false, cs)
  | cs => (false, cs)

/-- The characters `0` to `9`. -/
def isDecDigit (c : Char) : Bool :=
  decide (48 ≤ c.toNat ∧ c.toNat ≤ 57)

/-- Value of a run of decimal digits. -/
def digitsValue (cs : List Char) : Nat :=
  cs.foldl (fun acc c => 10 * acc + (c.toNat - 48)) 0

/-- Value of one hexadecimal digit, if the character is one. -/
def hexDigit (c : Char) : Option Nat :=
  if isDecDigit c then some (c.toNat - 48)
  else if 'a'.toNat ≤ c.toNat ∧ c.toNat ≤ 'f'.toNat then some (c.toNat - 87)
  else if 'A'.toNat ≤ c.toNat ∧ c.toNat ≤ 'F'.toNat then some (c.toNat - 55)
  else none

/-- Value of a run of hexadecimal digits. -/
def hexValue (cs : List Char) : Nat :=
  cs.foldl (fun acc c => 16 * acc + (hexDigit c).getD 0) 0

/-- Sign applied to a magnitude. -/
def signed (neg : Bool) (n : Nat) : Int :=
  if neg then -(n : Int) else (n : Int)

/-- The radix marker `0x` or `0X`: the characters after it, if present. -/
def hexMarker : List Char → Option (List Char)
  | '0' :: 'x' :: rest => some rest
  | '0' :: 'X' :: rest => some rest
  | _ => none

/-- The function `Number.parseInt` on a character sequence with no radix argument:
leading white space and a sign are skipped, a `0x` marker selects radix 16,
the longest run of digits is read and the rest ignored; `none` is `NaN`. -/
def parseIntChars (input : List Char) : Option Int :=
  let signedRest := splitSign (input.dropWhile isJsWhitespace)
  match hexMarker signedRest.2 with
  | some rest =>
    let ds := rest.takeWhile (fun c => (hexDigit c).isSome)
    if ds.isEmpty then none else some (signed signedRest.1 (hexValue ds))
  | none =>
    let ds := signedRest.2.takeWhile isDecDigit
    if ds.isEmpty then none else some (signed signedRest.1 (digitsValue ds))

/-- What may follow a validated numeral inside `ToString(v)`: nothing, or the
comma that joins array elements. -/
def StopsDigits (t : List Char) : Prop :=
  t = [] ∨ ∃ r, t = ',' :: r

/-- How many low-order bits of `n` do not fit into the 53 bits of a double's
significand. -/
def excessBits : Nat → Nat → Nat
  | 0, _ => 0
  | fuel + 1, n => if n < 9007199254740992 then 0 else excessBits fuel (n / 2) + 1

/-- The Number value of a natural number: `n` itself up to 2^53, beyond that
the nearest number with 53 significant bits, a tie going to the even
significand. The exponent range is taken as unbounded: numerals of more than
308 digits, which JavaScript reads as `Infinity`, are outside the model. -/
def roundDouble (n : Nat) : Nat :=
  let e := excessBits n n
  let q := n / 2 ^ e
  let r := n % 2 ^ e
  if 2 * r < 2 ^ e then q * 2 ^ e
  else if 2 ^ e < 2 * r then (q + 1) * 2 ^ e
  else (q + q % 2) * 2 ^ e

/-- The Number value of an integer: rounding is symmetric in the sign. -/
def toDouble : Int → Int
  | .ofNat n => Int.ofNat (roundDouble n)
  | .negSucc n => -Int.ofNat (roundDouble (n + 1))

/-- The call `Number.parseInt(v)` for a query value: the integer that is
read, as a Number. -/
def parseInt (v : QVal) : Option Int :=
  (parseIntChars v.toJsChars).map toDouble

/-! ## Filter documents -/

/-- Right-hand side of a comparison operator in a filter document. -/
inductive Operand where
  /-- The number `Number.parseFloat(v)`, unevaluated -/
  | float (v : QVal)
  /-- The number `Number.parseInt(v)`; `none` is `NaN` -/
  | int (n : Option Int)
  /-- The date `new Date(v)`, unevaluated -/
  | date (v : QVal)
  deriving DecidableEq, Repr

/-- Condition attached to one path of a filter document. -/
inductive Clause where
  /-- The object `{ $regex: pattern, $options: options }` -/
  | regex (pattern : QVal) (options : String)
  /-- The object `{ $in: vals }` -/
  | isIn (vals : List QVal)
  /-- The raw query value, matched by equality -/
  | eq (v : QVal)
  /-- A boolean, matched by equality -/
  | eqBool (b : Bool)
  /-- An object holding `$gte` and/or `$lte`; with neither it is the empty object -/
  | range (gte lte : Option Operand)
  deriving DecidableEq, Repr

/-- Field part of a filter document: path ↦ clause, in insertion order. -/
abbrev Fields := List (String × Clause)

/-- Property assignment `query[path] = c`: overwrite in place, else append. -/
def setPath (query : Fields) (path : String) (c : Clause) : Fields :=
  match query with
  | [] => [(path, c)]
  | (p, d) :: rest => if p = path then (p, c) :: rest else (p, d) :: setPath rest path c

/-- The `$gte` carried over by an object spread `{ ...old, $lte: _ }`. -/
def Clause.gteOf : Option Clause → Option Operand
  | some (.range g _) => g
  | _ => none

/-- The `$lte` carried over by an object spread `{ ...old, $gte: _ }`. -/
def Clause.lteOf : Option Clause → Option Operand
  | some (.range _ l) => l
  | _ => none

/-- One guarded assignment `if (filters.key) { query[path] = mk(...) }`; the
new clause may spread the clause already stored at `path`. -/
def ifTruthy (filters : Query) (key path : String)
    (mk : QVal → Option Clause → Clause) (query : Fields) : Fields :=
  match truthyGet filters key with
  | some v => setPath query path (mk v (query.lookup path))
  | none => query

/-- One guarded assignment `if (filters.key !== undefined) { query[path] =
filters.key === "true" }`. -/
def ifDefined (filters : Query) (key path : String) (query : Fields) : Fields :=
  match filters.lookup key with
  | some v => setPath query path (.eqBool (v == .str "true"))
  | none => query

/-- The date block: `if (filters.lo || filters.hi) { query[path] = {}; if
(filters.lo) query[path].$gte = new Date(filters.lo); if (filters.hi)
query[path].$lte = new Date(filters.hi) }`. -/
def dateRange (filters : Query) (lo hi path : String) (query : Fields) : Fields :=
  if (truthyGet filters lo).isSome || (truthyGet filters hi).isSome then
    setPath query path
      (.range ((truthyGet filters lo).map Operand.date) ((truthyGet filters hi).map Operand.date))
  else query

/-- The expression `Array.isArray(v) ? v : [v]`. -/
def asArray : QVal → List QVal
  | .arr x xs => (x :: xs).map QVal.str
  | v => [v]

/-- The case-insensitive pattern clause `{ $regex: v, $options: "i" }`. -/
def regexI (v : QVal) : Clause := .regex v "i"

/-- The function `buildPartnerFilterQuery` of `routes/partners.js`. -/
def buildPartnerFilterQuery (filters : Query) : Fields :=
  ([] : Fields)
  |> ifTruthy filters "username" "username" (fun v _ => regexI v)
  |> ifTruthy filters "companyName" "companyName" (fun v _ => regexI v)
  |> ifTruthy filters "email" "email" (fun v _ => regexI v)
  |> ifTruthy filters "city" "locations.city" (fun v _ => regexI v)
  |> ifTruthy filters "shootType" "shootType" (fun v _ => .isIn (asArray v))
  |> ifTruthy filters "planType" "currentPlan.planType" (fun v _ => .eq v)
  |> ifDefined filters "verified" "verified"
  |> ifDefined filters "isActive" "isActive"
  |> ifTruthy filters "partnerType" "partnerType" (fun v _ => .eq v)
  |> ifTruthy filters "minRating" "ratings.average" (fun v _ => .range (some (.float v)) none)
  |> ifTruthy filters "maxPrice" "pricePerDay" (fun v _ => .range none (some (.float v)))
  |> ifTruthy filters "minPrice" "pricePerDay"
      (fun v old => .range (some (.float v)) (Clause.lteOf old))
  |> ifTruthy filters "yearsOfExperience" "yearsOfExperience"
      (fun v _ => .range (some (.int (parseInt v))) none)
  |> dateRange filters "dateFrom" "dateTo" "createdAt"

/-- The function `buildFilterQuery` of `routes/clients.js`. -/
def buildFilterQuery (filters : Query) : Fields :=
  ([] : Fields)
  |> ifTruthy filters "username" "username" (fun v _ => regexI v)
  |> ifTruthy filters "email" "email" (fun v _ => regexI v)
  |> ifTruthy filters "city" "address.city" (fun v _ => regexI v)
  |> ifTruthy filters "state" "address.state" (fun v _ => regexI v)
  |> ifTruthy filters "planType" "currentPlan.planType" (fun v _ => .eq v)
  |> ifDefined filters "isActive" "isActive"
  |> ifDefined filters "isVerified" "isVerified"
  |> dateRange filters "dateFrom" "dateTo" "createdAt"

/-- The function `buildOrderFilterQuery` of `routes/orders.js`. -/
def buildOrderFilterQuery (filters : Query) : Fields :=
  ([] : Fields)
  |> ifTruthy filters "clientId" "clientId" (fun v _ => .eq v)
  |> ifTruthy filters "partnerId" "partnerId" (fun v _ => .eq v)
  |> ifTruthy filters "status" "status" (fun v _ => .isIn (asArray v))
  |> ifTruthy filters "orderName" "orderName" (fun v _ => regexI v)
  |> ifTruthy filters "location" "location.address.city" (fun v _ => regexI v)
  |> ifTruthy filters "eventType" "eventDetails.eventType" (fun v _ => regexI v)
  |> ifTruthy filters "minAmount" "pricing.totalAmount"
      (fun v _ => .range (some (.float v)) none)
  |> ifTruthy filters "maxAmount" "pricing.totalAmount"
      (fun v old => .range (Clause.gteOf old) (some (.float v)))
  |> ifTruthy filters "paymentStatus" "payment.status" (fun v _ => .eq v)
  |> dateRange filters "eventDateFrom" "eventDateTo" "eventDateTime"
  |> dateRange filters "bookingDateFrom" "bookingDateTo" "bookingDateTime"
  |> ifTruthy filters "progressMin" "progress.percentage"
      (fun v _ => .range (some (.int (parseInt v))) none)
  |> ifTruthy filters "progressMax" "progress.percentage"
      (fun v old => .range (Clause.gteOf old) (some (.int (parseInt v))))
  |> ifTruthy filters "currentStage" "progress.currentStage" (fun v _ => .eq v)

/-- Builder inputs the three listing routes differ in. -/
inductive Entity where
  | partner
  | client
  | order
  deriving DecidableEq, Repr

/-- The filter builder of each route module. -/
def Entity.build : Entity → Query → Fields
  | .partner => buildPartnerFilterQuery
  | .client => buildFilterQuery
  | .order => buildOrderFilterQuery

/-- Recognised keys of each builder, each with the path it writes. -/
def Entity.keyPaths : Entity → List (String × String)
  | .partner =>
    [("username", "username"), ("companyName", "companyName"), ("email", "email"),
     ("city", "locations.city"), ("shootType", "shootType"),
     ("planType", "currentPlan.planType"), ("verified", "verified"),
     ("isActive", "isActive"), ("partnerType", "partnerType"),
     ("minRating", "ratings.average"), ("maxPrice", "pricePerDay"),
     ("minPrice", "pricePerDay"), ("yearsOfExperience", "yearsOfExperience"),
     ("dateFrom", "createdAt"), ("dateTo", "createdAt")]
  | .client =>
    [("username", "username"), ("email", "email"), ("city", "address.city"),
     ("state", "address.state"), ("planType", "currentPlan.planType"),
     ("isActive", "isActive"), ("isVerified", "isVerified"),
     ("dateFrom", "createdAt"), ("dateTo", "createdAt")]
  | .order =>
    [("clientId", "clientId"), ("partnerId", "partnerId"), ("status", "status"),
     ("orderName", "orderName"), ("location", "location.address.city"),
     ("eventType", "eventDetails.eventType"), ("minAmount", "pricing.totalAmount"),
     ("maxAmount", "pricing.totalAmount"), ("paymentStatus", "payment.status"),
     ("eventDateFrom", "eventDateTime"), ("eventDateTo", "eventDateTime"),
     ("bookingDateFrom", "bookingDateTime"), ("bookingDateTo", "bookingDateTime"),
     ("progressMin", "progress.percentage"), ("progressMax", "progress.percentage"),
     ("currentStage", "progress.currentStage")]

/-- Keys guarded by `!== undefined` instead of truthiness. -/
def Entity.boolKeys : Entity → List String
  | .partner => ["verified", "isActive"]
  | .client => ["isActive", "isVerified"]
  | .order => []

/-- Whether the guard of a recognised key fires on `filters`. -/
def guardFires (e : Entity) (filters : Query) (key : String) : Bool :=
  if key ∈ e.boolKeys then (filters.lookup key).isSome else (truthyGet filters key).isSome

/-- Range pairs of each builder: lower-bound key, upper-bound key, the path
both write, and the conversion applied to a bound. -/
def Entity.rangePairs : Entity → List (String × String × String × (QVal → Operand))
  | .partner =>
    [("minPrice", "maxPrice", "pricePerDay", Operand.float),
     ("dateFrom", "dateTo", "createdAt", Operand.date)]
  | .client =>
    [("dateFrom", "dateTo", "createdAt", Operand.date)]
  | .order =>
    [("minAmount", "maxAmount", "pricing.totalAmount", Operand.float),
     ("progressMin", "progressMax", "progress.percentage", fun v => Operand.int (parseInt v)),
     ("eventDateFrom", "eventDateTo", "eventDateTime", Operand.date),
     ("bookingDateFrom", "bookingDateTo", "bookingDateTime", Operand.date)]

/-- No clause of the document is the empty object. -/
def NonVacuous (query : Fields) : Prop :=
  ∀ pc ∈ query, pc.2 ≠ Clause.range none none

instance (query : Fields) : Decidable (NonVacuous query) :=
  inferInstanceAs (Decidable (∀ pc ∈ query, pc.2 ≠ Clause.range none none))

/-- Paths of a filter document. -/
def paths (query : Fields) : List String :=
  query.map Prod.fst

/-! ## Validators -/

/-- The pattern `/^[-+]?[0-9]+$/` used by `isInt`. -/
def intLeadingZeroes (s : String) : Bool :=
  !(splitSign s.data).2.isEmpty && (splitSign s.data).2.all isDecDigit

/-- The number a string matching `intLeadingZeroes` coerces to. -/
def toNumberInt (s : String) : Int :=
  signed (splitSign s.data).1 (digitsValue (splitSign s.data).2)

/-- Validator `isInt({ min, max })`: the pattern, then the numeric bounds. -/
def isInt (min max : Option Int) (s : String) : Bool :=
  intLeadingZeroes s && min.all (fun m => decide (m ≤ toNumberInt s))
    && max.all (fun m => decide (toNumberInt s ≤ m))

/-- Validator `isIn(allowed)`. -/
def isIn (allowed : List String) (s : String) : Bool :=
  allowed.contains s

/-- Validator `isBoolean()` with its default strict option. -/
def isBoolean (s : String) : Bool :=
  ["true", "false", "1", "0"].contains s

/-- Validators whose result depends on floating-point or calendar parsing;
every theorem holds for any such library. -/
structure Lib where
  isFloat : Option Int → Option Int → String → Bool
  isISO8601 : String → Bool

/-- One `query(field).optional()...` chain with its validators. -/
structure Chain where
  field : String
  checks : List (String → Bool)

/-- One entry of `errors.array()`. -/
structure FieldError where
  path : String
  value : QVal
  deriving DecidableEq, Repr

/-- The string a validator receives for one value (an array, which is never
passed whole, would stringify to its first element). -/
def QVal.stringify : QVal → String
  | .str s => s
  | .arr x _ => x
  | .obj _ => "[object Object]"

/-- Running a chain: `optional()` skips an undefined field; otherwise every
validator is applied to the value, or to each element of an array value. -/
def Chain.run (c : Chain) (query : Query) : List FieldError :=
  match query.lookup c.field with
  | none => []
  | some v =>
    c.checks.flatMap fun chk =>
      (asArray v).filterMap fun e => if chk e.stringify then none else some ⟨c.field, e⟩

/-- The array `validationResult(req).array()` after the chains of a route have run. -/
def validationResult (chains : List Chain) (query : Query) : List FieldError :=
  chains.flatMap fun c => c.run query

/-- Chains shared by the three listing routes, given the `sortBy` allow-list. -/
def pagingChains (sortable : List String) : List Chain :=
  [⟨"page", [isInt (some 1) none]⟩,
   ⟨"limit", [isInt (some 1) (some 100)]⟩,
   ⟨"sortBy", [isIn sortable]⟩,
   ⟨"sortOrder", [isIn ["asc", "desc"]]⟩]

/-- Chains declared on each listing route. -/
def Entity.chains (lib : Lib) : Entity → List Chain
  | .partner =>
    pagingChains ["createdAt", "username", "companyName", "ratings.average", "pricePerDay"] ++
    [⟨"verified", [isBoolean]⟩,
     ⟨"isActive", [isBoolean]⟩,
     ⟨"planType", [isIn ["free", "basic", "premium", "enterprise"]]⟩,
     ⟨"partnerType", [isIn ["individual", "company", "agency"]]⟩,
     ⟨"minRating", [lib.isFloat (some 0) (some 5)]⟩,
     ⟨"minPrice", [lib.isFloat (some 0) none]⟩,
     ⟨"maxPrice", [lib.isFloat (some 0) none]⟩,
     ⟨"yearsOfExperience", [isInt (some 0) none]⟩]
  | .client =>
    pagingChains ["createdAt", "username", "email", "lastLogin"] ++
    [⟨"planType", [isIn ["free", "basic", "premium", "enterprise"]]⟩]
  | .order =>
    pagingChains ["createdAt", "eventDateTime", "bookingDateTime", "pricing.totalAmount",
      "progress.percentage"] ++
    [⟨"status", []⟩,
     ⟨"paymentStatus", [isIn ["pending", "partial", "completed", "refunded"]]⟩,
     ⟨"currentStage", [isIn ["booking_confirmed", "preparation", "shoot_day",
        "post_processing", "delivery", "completed"]]⟩,
     ⟨"minAmount", [lib.isFloat (some 0) none]⟩,
     ⟨"maxAmount", [lib.isFloat (some 0) none]⟩,
     ⟨"progressMin", [isInt (some 0) (some 100)]⟩,
     ⟨"progressMax", [isInt (some 0) (some 100)]⟩]

/-- Chains declared on `GET /partners/search`. -/
def searchChains (lib : Lib) : List Chain :=
  [⟨"location", []⟩,
   ⟨"date", [lib.isISO8601]⟩,
   ⟨"shootType", []⟩,
   ⟨"budget", [lib.isFloat (some 0) none]⟩,
   ⟨"radius", [isInt (some 1) (some 100)]⟩]

/-! ## The database -/

/-- A filter document: the clauses on field paths and the optional `$or`. -/
structure Filter where
  fields : Fields
  or : Option (List (String × Clause))
  deriving DecidableEq, Repr

/-- The argument of `.sort(...)`: keys with direction `1` or `-1`. -/
abbrev SortSpec := List (String × Int)

/-- A collection together with the query semantics of the database: which
documents a filter selects, how a sort specification orders two documents,
and which filters the driver rejects by throwing (with what message). A
collection holds at most 2^53 documents, so that every count and every
position in it is exact as a JavaScript number. -/
structure Db (α : Type) where
  docs : List α
  holds : Filter → α → Bool
  le : SortSpec → α → α → Bool
  rejects : Filter → Bool
  failure : String
  bounded : docs.length ≤ 9007199254740992 := by decide

/-- Insertion of one document into an ordered list. -/
def insertBy {α : Type} (le : α → α → Bool) (a : α) : List α → List α
  | [] => [a]
  | b :: bs => if le a b then a :: b :: bs else b :: insertBy le a bs

/-- Stable sort by a boolean order. -/
def sortDocs {α : Type} (le : α → α → Bool) (xs : List α) : List α :=
  xs.foldr (insertBy le) []

/-- All documents selected by `filter`, in the order `sort` asks for: what the
cursor `Model.find(filter).sort(sort)` iterates over. -/
def Db.sortedMatches {α : Type} (db : Db α) (filter : Filter) (sort : SortSpec) : List α :=
  sortDocs (db.le sort) (db.docs.filter (db.holds filter))

/-- Result of `Model.find(filter).sort(sort).skip(skip).limit(limit)`. -/
def Db.find {α : Type} (db : Db α) (filter : Filter) (sort : SortSpec) (skip limit : Nat) :
    List α :=
  ((db.sortedMatches filter sort).drop skip).take limit

/-- Result of `Model.countDocuments(filter)`. -/
def Db.countDocuments {α : Type} (db : Db α) (filter : Filter) : Nat :=
  (db.docs.filter (db.holds filter)).length

/-- A call reaching the query layer. -/
inductive DbCall where
  | find (filter : Filter) (sort : SortSpec) (skip limit : Nat)
  | countDocuments (filter : Filter)
  | aggregate (filter : Filter)
  deriving DecidableEq, Repr

/-! ## Responses -/

/-- The `pagination` block of a listing response. -/
structure Pagination where
  currentPage : Nat
  totalPages : Nat
  totalCount : Nat
  hasNextPage : Bool
  hasPrevPage : Bool
  limit : Nat
  deriving DecidableEq, Repr

/-- The JSON envelope with its HTTP status. -/
structure Response (α : Type) where
  status : Nat
  success : Bool
  message : String
  data : Option (List α) := none
  pagination : Option Pagination := none
  count : Option Nat := none
  filters : Option Query := none
  errors : Option (List FieldError) := none
  error : Option String := none

/-- What a handler run produces: the response sent and the calls it made to
the query layer, in order. -/
structure Outcome (α : Type) where
  response : Response α
  calls : List DbCall

/-! ## Listing handlers -/

/-- Search fields ORed together by the `search` parameter of each route. -/
def Entity.searchFields : Entity → List String
  | .partner => ["username", "companyName", "email", "locations.city", "shootType",
      "specialization"]
  | .client => ["username", "email", "address.city"]
  | .order => ["orderName", "orderId", "eventDetails.eventName", "location.venue",
      "location.address.city"]

/-- Plural noun used in the messages of each route. -/
def Entity.noun : Entity → String
  | .partner => "partners"
  | .client => "clients"
  | .order => "orders"

/-- The rest object `filters`: `req.query` without `page`, `limit`, `sortBy`,
`sortOrder` and `search`. -/
def restFilters (query : Query) : Query :=
  query.filter fun kv => !(["page", "limit", "sortBy", "sortOrder", "search"].contains kv.1)

/-- The number `Number.parseInt(page)` with the destructuring default `page = 1`. -/
def pageOf (query : Query) : Option Int :=
  match query.lookup "page" with
  | some v => parseInt v
  | none => some 1

/-- The number `Number.parseInt(limit)` with the destructuring default `limit = 10`. -/
def limitOf (query : Query) : Option Int :=
  match query.lookup "limit" with
  | some v => parseInt v
  | none => some 10

/-- The object `sortOptions`: the single key `sortBy` (default `createdAt`)
with `1` when `sortOrder === "asc"` and `-1` otherwise. -/
def sortOptions (query : Query) : SortSpec :=
  [(match query.lookup "sortBy" with
      | some v => String.mk v.toJsChars
      | none => "createdAt",
    if query.lookup "sortOrder" = some (.str "asc") then 1 else -1)]

/-- The filter handed to the query layer: the builder's clauses on the rest
object, plus `$or` over the search fields when `search` is truthy. -/
def Entity.filterOf (e : Entity) (query : Query) : Filter :=
  { fields := e.build (restFilters query)
    or := (truthyGet query "search").map fun s => e.searchFields.map fun f => (f, regexI s) }

/-- The number `Math.ceil(totalCount / limit)` for a positive limit. -/
def ceilDiv (totalCount limit : Nat) : Nat :=
  (totalCount + limit - 1) / limit

/-- The 400 response of a failed validation. -/
def badRequest {α : Type} (errors : List FieldError) : Response α :=
  { status := 400, success := false, message := "Validation errors", errors := some errors }

/-- The 500 response of a `catch` block. -/
def serverError {α : Type} (message detail : String) : Response α :=
  { status := 500, success := false, message := message, error := some detail }

/-- The number `(page - 1) * limit` for a page of at least 1, in double
arithmetic: the difference and the product are each rounded. -/
def skipNumber (page limit : Nat) : Nat :=
  roundDouble (roundDouble (page - 1) * limit)

/-- The handler of `GET /` in `routes/partners.js`, `routes/clients.js` and
`routes/orders.js` (which also runs a summary aggregation, not modelled in the
response). After validation `page` and `limit` parse to positive integers, so
the numbers are kept as naturals, the skip being rounded as a double; a parse
that is `NaN` or negative cannot occur there and is answered like a thrown
error. -/
def listHandler {α : Type} (e : Entity) (lib : Lib) (db : Db α) (query : Query) : Outcome α :=
  let errors := validationResult (e.chains lib) query
  if !errors.isEmpty then ⟨badRequest errors, []⟩
  else
    let filter := e.filterOf query
    let sort := sortOptions query
    match pageOf query, limitOf query with
    | some (Int.ofNat page), some (Int.ofNat limit) =>
      let skip := skipNumber page limit
      let calls := [DbCall.find filter sort skip limit, DbCall.countDocuments filter]
      if db.rejects filter then
        ⟨serverError ("Failed to fetch " ++ e.noun) db.failure, calls⟩
      else
        let found := db.find filter sort skip limit
        let totalCount := db.countDocuments filter
        let totalPages := ceilDiv totalCount limit
        ⟨{ status := 200
           success := true
           data := some found
           pagination := some
             { currentPage := page
               totalPages := totalPages
               totalCount := totalCount
               hasNextPage := decide (page < totalPages)
               hasPrevPage := decide (page > 1)
               limit := limit }
           filters := some (restFilters query)
           message := "Retrieved " ++ toString found.length ++ " " ++ e.noun ++ " successfully" },
         if e = .order then calls ++ [DbCall.aggregate filter] else calls⟩
    | _, _ => ⟨serverError ("Failed to fetch " ++ e.noun) "skip is not a number", []⟩

/-! ## Partner search -/

/-- The filter assembled by `GET /partners/search` before the `date` block. -/
def searchFilter (query : Query) : Filter :=
  { fields :=
      ([("isActive", Clause.eqBool true), ("verified", Clause.eqBool true)] : Fields)
      |> ifTruthy query "shootType" "shootType" (fun v _ => .isIn (asArray v))
      |> ifTruthy query "location" "locations.city" (fun v _ => regexI v)
    or := (truthyGet query "budget").map fun b =>
      [("pricePerDay", Clause.range none (some (.float b))),
       ("packages.price", Clause.range none (some (.float b)))] }

/-- The handler of `GET /partners/search`. The chains of `searchChains` run
before it, but the handler never reads `validationResult`. With a truthy
`date` the call `requestedDate.toLocaleLowerCase()` on a `Date` throws a
`TypeError` before the query is issued. -/
def searchHandler {α : Type} (db : Db α) (query : Query) : Outcome α :=
  let filter := searchFilter query
  let sort : SortSpec := [("ratings.average", -1), ("verified", -1)]
  if (truthyGet query "date").isSome then
    ⟨serverError "Failed to search partners" "requestedDate.toLocaleLowerCase is not a function",
     []⟩
  else if db.rejects filter then
    ⟨serverError "Failed to search partners" db.failure, [DbCall.find filter sort 0 20]⟩
  else
    let found := db.find filter sort 0 20
    ⟨{ status := 200
       success := true
       data := some found
       count := some found.length
       message := "Search completed successfully" },
     [DbCall.find filter sort 0 20]⟩

/-! ## Closed examples -/

/-- A validator library used in closed examples only: it accepts the integer
numerals as floats and no date. -/
def sampleLib : Lib :=
  ⟨fun min max s => isInt min max s, fun _ => false⟩

/-- Twenty-five records numbered 1 to 25 in the order the cursor yields them;
every filter selects all of them and no query fails. -/
def twentyFive : Db Nat :=
  ⟨List.range' 1 25, fun _ _ => true, fun _ a b => decide (a ≤ b), fun _ => false, "",
    by decide⟩

/-- The request `?page=2&limit=10`. -/
def pageTwoOfTen : Query :=
  [("page", .str "2"), ("limit", .str "10")]

/-- Decimal numeral of a natural number, as a query string carries it. -/
def numeral (n : Nat) : String :=
  if n = 0 then "0"
  else String.mk ((Nat.digits 10 n).reverse.map fun d => Char.ofNat (48 + d))

/-- The request `?page=p&limit=l`. -/
def pageRequest (p l : Nat) : Query :=
  [("page", .str (numeral p)), ("limit", .str (numeral l))]

/-- The request `?limit=101`. -/
def limitTooLarge : Query :=
  [("limit", .str "101")]

/-- The request `?radius=0` to the partner search. -/
def radiusZero : Query :=
  [("radius", .str "0")]

/-- A partner document reduced to the fields the boolean filters read. -/
structure PartnerFlags where
  username : String
  verified : Bool
  isActive : Bool
  deriving DecidableEq, Repr

/-- Equality semantics of the boolean clauses on `verified` and `isActive`;
other clauses are not interpreted. -/
def flagsHold (filter : Filter) (doc : PartnerFlags) : Bool :=
  filter.fields.all fun pc =>
    match pc with
    | ("verified", .eqBool b) => doc.verified == b
    | ("isActive", .eqBool b) => doc.isActive == b
    | _ => true

/-- A collection with one verified and one unverified partner. -/
def twoPartners : Db PartnerFlags :=
  ⟨[⟨"photo_pro", true, true⟩, ⟨"new_studio", false, true⟩], flagsHold,
    fun _ _ _ => true, fun _ => false, "", by decide⟩

/-- The filters object of `?maxPrice=500&minPrice=100`. -/
def priceBand : Query :=
  [("maxPrice", .str "500"), ("minPrice", .str "100")]

/-- The request `?page=4&limit=10`. -/
def pageFourOfTen : Query :=
  [("page", .str "4"), ("limit", .str "10")]

/-! ## Pattern clauses -/

/-- Keys of each builder that write a pattern clause, with their paths. -/
def Entity.stringKeyPaths : Entity → List (String × String)
  | .partner =>
    [("username", "username"), ("companyName", "companyName"), ("email", "email"),
     ("city", "locations.city")]
  | .client =>
    [("username", "username"), ("email", "email"), ("city", "address.city"),
     ("state", "address.state")]
  | .order =>
    [("orderName", "orderName"), ("location", "location.address.city"),
     ("eventType", "eventDetails.eventType")]

/-- Characters with a special meaning in a regular expression. -/
def isRegexMeta (c : Char) : Bool :=
  "\\^$.|?*+()[]\x7b\x7d".data.contains c

/-- One position of a pattern of the modelled fragment. -/
inductive Atom where
  /-- A literal character -/
  | lit (c : Char)
  /-- The dot: any character but a line feed -/
  | anyChar
  deriving DecidableEq, Repr

/-- Patterns of the modelled fragment of the database's regular expressions:
sequences of literal characters and dots. Any other metacharacter puts the
pattern outside the fragment (`none`). -/
def compilePattern : List Char → Option (List Atom)
  | [] => some []
  | c :: cs =>
    if c = '.' then (compilePattern cs).map (Atom.anyChar :: ·)
    else if isRegexMeta c then none
    else (compilePattern cs).map (Atom.lit c :: ·)

/-- Whether an atom accepts a character under the option `i`, which folds
the case of ASCII letters. -/
def Atom.accepts : Atom → Char → Bool
  | .lit x, c => x.toLower == c.toLower
  | .anyChar, c => c != '\n'

/-- Whether the atoms match a prefix of the text. -/
def matchesHere : List Atom → List Char → Bool
  | [], _ => true
  | _ :: _, [] => false
  | a :: rest, c :: cs => a.accepts c && matchesHere rest cs

/-- Unanchored search: whether the atoms match at some position of the text. -/
def matchesSomewhere (atoms : List Atom) : List Char → Bool
  | [] => matchesHere atoms []
  | c :: cs => matchesHere atoms (c :: cs) || matchesSomewhere atoms cs

/-- Whether a clause selects a document whose field at the clause's path is
the string `text`; defined for pattern clauses with option `i` whose pattern
is a string of the modelled fragment, `none` otherwise. -/
def Clause.holdsOnText : Clause → String → Option Bool
  | .regex (.str pattern) "i", text =>
    (compilePattern pattern.data).map fun atoms => matchesSomewhere atoms text.data
  | _, _ => none

/-- Case-insensitive containment: `needle` occurs in `text` as a substring
once the case of ASCII letters is folded. -/
def ContainsCI (text needle : String) : Prop :=
  needle.data.map Char.toLower <:+: text.data.map Char.toLower

/-! ## Seed data and sort order -/

/-- A partner document reduced to the fields the seed scenario reads;
`ratingTenths` is `ratings.average` times ten. -/
structure PartnerDoc where
  username : String
  verified : Bool
  isActive : Bool
  pricePerDay : Nat
  ratingTenths : Nat
  deriving DecidableEq, Repr

/-- Equality semantics of the boolean clauses on `verified` and `isActive`;
clauses on other paths are not interpreted. -/
def partnerHolds (filter : Filter) (doc : PartnerDoc) : Bool :=
  filter.fields.all fun pc =>
    match pc with
    | ("verified", .eqBool b) => doc.verified == b
    | ("isActive", .eqBool b) => doc.isActive == b
    | _ => true

/-- Order of two partner documents under a single-key sort on
`ratings.average` or `pricePerDay`: ascending for direction `1`, descending
otherwise. -/
def partnerLe (sort : SortSpec) (a b : PartnerDoc) : Bool :=
  match sort with
  | [("ratings.average", dir)] =>
    if dir = 1 then decide (a.ratingTenths ≤ b.ratingTenths)
    else decide (b.ratingTenths ≤ a.ratingTenths)
  | [("pricePerDay", dir)] =>
    if dir = 1 then decide (a.pricePerDay ≤ b.pricePerDay)
    else decide (b.pricePerDay ≤ a.pricePerDay)
  | _ => true

/-- The partners created by `scripts/seedDatabase.js`, in insertion order. -/
def seedPartners : Db PartnerDoc :=
  ⟨[⟨"photo_pro", true, true, 15000, 45⟩, ⟨"creative_lens", true, true, 20000, 48⟩],
    partnerHolds, partnerLe, fun _ => false, "", by decide⟩

/-- The request `?verified=true&sortBy=ratings.average&sortOrder=desc&limit=1`. -/
def topRatedVerified : Query :=
  [("verified", .str "true"), ("sortBy", .str "ratings.average"), ("sortOrder", .str "desc"),
   ("limit", .str "1")]

/-- The request `?sortBy=pricePerDay&sortOrder=asc`. -/
def cheapestFirst : Query :=
  [("sortBy", .str "pricePerDay"), ("sortOrder", .str "asc")]

/-- The filter a call hands to the query layer. -/
def DbCall.filter : DbCall → Filter
  | .find f _ _ _ => f
  | .countDocuments f => f
  | .aggregate f => f

/-- The request `?search=mumbai&verified=true`. -/
def searchMumbai : Query :=
  [("search", .str "mumbai"), ("verified", .str "true")]

/-! ## Users and authentication -/

/-- A user document reduced to the fields the authentication code reads. -/
structure User where
  id : String
  username : String
  email : String
  firebaseUid : Option String
  isActive : Bool
  userType : String
  deriving DecidableEq, Repr

/-- The three user collections, each in natural order. -/
structure Store where
  clients : List User
  partners : List User
  admins : List User
  deriving DecidableEq, Repr

/-- Names of the user collections. -/
inductive Coll where
  | client
  | partner
  | admin
  deriving DecidableEq, Repr

/-- The documents of one collection. -/
def Store.coll (store : Store) : Coll → List User
  | .client => store.clients
  | .partner => store.partners
  | .admin => store.admins

/-- A response of the authentication routes and middlewares: the JSON
envelope with its status; `user` is the user document placed in `data`. -/
structure AuthResponse where
  status : Nat
  success : Bool
  message : String
  user : Option User := none
  errors : Option (List FieldError) := none
  error : Option String := none
  deriving DecidableEq, Repr

/-- What a middleware run leaves behind: the response it sent (if any),
whether it called `next`, the value of `req.user` afterwards, and the
collections it queried, in order. -/
structure Gate where
  response : Option AuthResponse
  next : Bool
  user : Option User
  probes : List Coll
  deriving DecidableEq, Repr

/-- A middleware run that ends with a response and does not call `next`. -/
def deny (status : Nat) (message : String) (probes : List Coll) : Gate :=
  ⟨some { status := status, success := false, message := message }, false, none, probes⟩

/-- The environment of the authentication code: `jwt.verify` with the
configured secret (`none` when it throws), Firebase `verifyIdToken` giving the
uid (`none` when it rejects), Firebase `getUser`, whether a string casts to a
document id, and whether the next database query throws. -/
structure AuthEnv where
  verifyJwt : String → Option (String × Option String)
  verifyIdToken : String → Option String
  hasFirebaseUser : String → Bool
  castsToId : String → Bool
  dbThrows : Bool

/-- The method `String.prototype.replace` with a string pattern: the first
occurrence of the pattern is removed, later ones are kept. -/
def removeFirst (pattern : List Char) : List Char → List Char
  | [] => []
  | c :: cs =>
    if pattern.isPrefixOf (c :: cs) then (c :: cs).drop pattern.length
    else c :: removeFirst pattern cs

/-- The expression `req.header("Authorization")?.replace("Bearer ", "")`
followed by the guard `if (!token)`: the token when it is defined and
non-empty. -/
def bearerToken (header : Option String) : Option String :=
  match header with
  | none => none
  | some h =>
    let token := String.mk (removeFirst "Bearer ".data h.data)
    if token = "" then none else some token

/-- The call `Model.findById(id)`: the first document with that id. -/
def findById (docs : List User) (id : String) : Option User :=
  docs.find? fun u => u.id == id

/-- The call `Model.findOne(firebaseUid: uid)`: the first document holding
that Firebase uid. -/
def findByUid (docs : List User) (uid : String) : Option User :=
  docs.find? fun u => u.firebaseUid == some uid

/-- The `switch (decoded.userType)` of `authenticate`: the collection for
`Client`, `Partner` or `Admin`, none in the `default` case. -/
def modelFor (userType : Option String) : Option Coll :=
  if userType = some "Client" then some .client
  else if userType = some "Partner" then some .partner
  else if userType = some "Admin" then some .admin
  else none

/-- The middleware `authenticate` of `middleware/auth.js`. Everything after
the token guard runs inside `try`; any exception (verification, id cast,
database) is answered 401 `Invalid token`. -/
def authenticate (env : AuthEnv) (store : Store) (header : Option String) : Gate :=
  match bearerToken header with
  | none => deny 401 "Access denied. No token provided." []
  | some token =>
    match env.verifyJwt token with
    | none => deny 401 "Invalid token" []
    | some (id, userType) =>
      match modelFor userType with
      | none => deny 401 "Invalid user type" []
      | some c =>
        if !env.castsToId id || env.dbThrows then deny 401 "Invalid token" [c]
        else
          match findById (store.coll c) id with
          | none => deny 401 "User not found or inactive" [c]
          | some user =>
            if !user.isActive then deny 401 "User not found or inactive" [c]
            else ⟨none, true, some user, [c]⟩

/-- The chain `Client.findOne(..) || Partner.findOne(..) || Admin.findOne(..)`
with the collections it queried: a later collection is queried only when the
earlier ones returned nothing. -/
def probeByUid (store : Store) (uid : String) : Option User × List Coll :=
  match findByUid store.clients uid with
  | some u => (some u, [.client])
  | none =>
    match findByUid store.partners uid with
    | some u => (some u, [.client, .partner])
    | none => (findByUid store.admins uid, [.client, .partner, .admin])

/-- The middleware `authenticateFirebase` of `middleware/firebaseAuth.js`. -/
def authenticateFirebase (env : AuthEnv) (store : Store) (header : Option String) : Gate :=
  match bearerToken header with
  | none => deny 401 "Access denied. No token provided." []
  | some token =>
    match env.verifyIdToken token with
    | none => deny 401 "Invalid token" []
    | some uid =>
      if env.dbThrows then deny 401 "Invalid token" [.client]
      else
        match probeByUid store uid with
        | (none, probes) => deny 401 "User not found in database" probes
        | (some user, probes) =>
          if !user.isActive then deny 401 "User account is inactive" probes
          else ⟨none, true, some user, probes⟩

/-- The handler of `GET /auth/me` in `routes/auth.js`, with the collections
it queried. -/
def meHandler (env : AuthEnv) (store : Store) (header : Option String) :
    AuthResponse × List Coll :=
  match bearerToken header with
  | none => ({ status := 401, success := false, message := "Access denied. No token provided." }, [])
  | some token =>
    match env.verifyIdToken token with
    | none => ({ status := 401, success := false, message := "Invalid token" }, [])
    | some uid =>
      if env.dbThrows then
        ({ status := 401, success := false, message := "Invalid token" }, [.client])
      else
        match probeByUid store uid with
        | (none, probes) =>
          ({ status := 401, success := false, message := "User not found or inactive" }, probes)
        | (some user, probes) =>
          if !user.isActive then
            ({ status := 401, success := false, message := "User not found or inactive" }, probes)
          else
            ({ status := 200, success := true, user := some user,
               message := "User profile retrieved successfully" }, probes)

/-- The middleware returned by `authorize(...roles)`, identical in
`middleware/auth.js` and `middleware/firebaseAuth.js`; `user` is `req.user`. -/
def authorize (roles : List String) (user : Option User) : Gate :=
  match user with
  | none => deny 401 "Authentication required" []
  | some u =>
    if !roles.contains u.userType then
      ⟨some { status := 403, success := false,
              message := "Access denied. Insufficient permissions." }, false, some u, []⟩
    else ⟨none, true, some u, []⟩

/-! ## Registration -/

/-- The fields of `req.body` the register handler reads, after the sanitizers
of the validation chains have run. -/
structure RegisterBody where
  userType : String
  username : String
  email : String
  firebaseUid : String
  deriving DecidableEq, Repr

/-- What reaches the register handler from outside the store: the body, the
errors of the chains other than `userType`, the id given to a new document,
and the error `save()` throws, if any. -/
structure RegisterInput where
  body : RegisterBody
  otherErrors : List FieldError
  freshId : String
  saveFailure : Option String

/-- The array `validationResult(req).array()` of the register route: the
`userType` chain `isIn(["Client", "Partner"])` comes first. -/
def registerErrors (input : RegisterInput) : List FieldError :=
  (if isIn ["Client", "Partner"] input.body.userType then []
   else [⟨"userType", .str input.body.userType⟩]) ++ input.otherErrors

/-- The collection the handler works on: `Client` or `Partner` by strict
comparison of `userType`, none for any other value. -/
def registerTarget (userType : String) : Option Coll :=
  if userType = "Client" then some .client
  else if userType = "Partner" then some .partner
  else none

/-- The call `Model.findOne` with `$or` over `email`, `username` and
`firebaseUid`. -/
def findExisting (docs : List User) (body : RegisterBody) : Option User :=
  docs.find? fun u =>
    u.email == body.email || u.username == body.username ||
      u.firebaseUid == some body.firebaseUid

/-- A store with one more document at the end of a collection. -/
def Store.insert (store : Store) (c : Coll) (u : User) : Store :=
  match c with
  | .client => { store with clients := store.clients ++ [u] }
  | .partner => { store with partners := store.partners ++ [u] }
  | .admin => { store with admins := store.admins ++ [u] }

/-- The handler of `POST /auth/register` in `routes/auth.js`: the response
and the store afterwards. With a `userType` other than `Client` or `Partner`
(excluded by validation) `newUser` stays undefined and `newUser.save()`
throws. -/
def registerHandler (env : AuthEnv) (store : Store) (input : RegisterInput) :
    AuthResponse × Store :=
  let errors := registerErrors input
  if !errors.isEmpty then
    ({ status := 400, success := false, message := "Validation errors", errors := some errors },
      store)
  else if !env.hasFirebaseUser input.body.firebaseUid then
    ({ status := 400, success := false, message := "Invalid Firebase user" }, store)
  else
    match registerTarget input.body.userType with
    | none =>
      ({ status := 500, success := false, message := "Failed to register user",
         error := some "Cannot read properties of undefined" }, store)
    | some c =>
      if env.dbThrows then
        ({ status := 500, success := false, message := "Failed to register user",
           error := some "database error" }, store)
      else
        match findExisting (store.coll c) input.body with
        | some _ =>
          ({ status := 409, success := false,
             message := "User with this email, username, or Firebase UID already exists" },
            store)
        | none =>
          match input.saveFailure with
          | some detail =>
            ({ status := 500, success := false, message := "Failed to register user",
               error := some detail }, store)
          | none =>
            let newUser : User :=
              { id := input.freshId, username := input.body.username,
                email := input.body.email, firebaseUid := some input.body.firebaseUid,
                isActive := true, userType := input.body.userType }
            ({ status := 201, success := true, message := "User registered successfully",
               user := some newUser }, store.insert c newUser)

/-! ## The final error-handling middleware -/

/-- An error object reaching the final middleware, reduced to what it reads.
A `ValidationError` is the schema validation error of the document layer and
carries its `errors` map (path and message, in `Object.values` order); a
duplicate-key error carries `keyValue`; `code` is the numeric `err.code`. -/
structure AppError where
  name : String
  code : Option Int
  errors : List (String × String)
  keyValue : List (String × String)
  message : String
  deriving DecidableEq, Repr

/-- A response of the final middleware. -/
structure ErrorResponse where
  status : Nat
  success : Bool
  message : String
  errors : Option (List String) := none
  error : Option String := none
  deriving DecidableEq, Repr

/-- The error-handling middleware of `server.js`; `nodeEnv` is
`process.env.NODE_ENV`. The first key of an empty `keyValue` is `undefined`,
which the template string prints as such. -/
def errorMiddleware (nodeEnv : Option String) (err : AppError) : ErrorResponse :=
  if err.name = "ValidationError" then
    { status := 400, success := false, message := "Validation Error",
      errors := some (err.errors.map Prod.snd) }
  else if err.code = some 11000 then
    { status := 409, success := false,
      message := ((err.keyValue.head?.map Prod.fst).getD "undefined") ++ " already exists" }
  else if err.name = "JsonWebTokenError" then
    { status := 401, success := false, message := "Invalid token" }
  else
    { status := 500, success := false, message := "Internal server error",
      error := some (if nodeEnv = some "development" then err.message
        else "Something went wrong") }

/-! ## Response sites -/

/-- One place where the application sends a JSON body: source file and line,
the endpoint or middleware it belongs to, the HTTP status, and the literal
value of the `success` property (`none` when the body has no such property). -/
structure Site where
  file : String
  line : Nat
  route : String
  status : Nat
  success : Option Bool
  deriving DecidableEq, Repr

/-- Response sites of `routes/auth.js`. -/
def authRouteSites : List Site :=
  [Site.mk "routes/auth.js" 28 "POST /api/auth/register" 400 (some false),
   Site.mk "routes/auth.js" 41 "POST /api/auth/register" 400 (some false),
   Site.mk "routes/auth.js" 60 "POST /api/auth/register" 409 (some false),
   Site.mk "routes/auth.js" 78 "POST /api/auth/register" 201 (some true),
   Site.mk "routes/auth.js" 87 "POST /api/auth/register" 500 (some false),
   Site.mk "routes/auth.js" 102 "GET /api/auth/me" 401 (some false),
   Site.mk "routes/auth.js" 116 "GET /api/auth/me" 401 (some false),
   Site.mk "routes/auth.js" 122 "GET /api/auth/me" 200 (some true),
   Site.mk "routes/auth.js" 129 "GET /api/auth/me" 401 (some false),
   Site.mk "routes/auth.js" 148 "POST /api/auth/link-account" 400 (some false),
   Site.mk "routes/auth.js" 161 "POST /api/auth/link-account" 400 (some false),
   Site.mk "routes/auth.js" 182 "POST /api/auth/link-account" 400 (some false),
   Site.mk "routes/auth.js" 197 "POST /api/auth/link-account" 404 (some false),
   Site.mk "routes/auth.js" 208 "POST /api/auth/link-account" 200 (some true),
   Site.mk "routes/auth.js" 217 "POST /api/auth/link-account" 500 (some false)]

/-- Response sites of `routes/clients.js`. -/
def clientRouteSites : List Site :=
  [Site.mk "routes/clients.js" 66 "GET /api/clients" 400 (some false),
   Site.mk "routes/clients.js" 109 "GET /api/clients" 200 (some true),
   Site.mk "routes/clients.js" 125 "GET /api/clients" 500 (some false),
   Site.mk "routes/clients.js" 143 "GET /api/clients/:id" 404 (some false),
   Site.mk "routes/clients.js" 149 "GET /api/clients/:id" 200 (some true),
   Site.mk "routes/clients.js" 156 "GET /api/clients/:id" 500 (some false),
   Site.mk "routes/clients.js" 179 "POST /api/clients" 400 (some false),
   Site.mk "routes/clients.js" 192 "POST /api/clients" 409 (some false),
   Site.mk "routes/clients.js" 201 "POST /api/clients" 201 (some true),
   Site.mk "routes/clients.js" 208 "POST /api/clients" 500 (some false),
   Site.mk "routes/clients.js" 231 "PUT /api/clients/:id" 400 (some false),
   Site.mk "routes/clients.js" 245 "PUT /api/clients/:id" 404 (some false),
   Site.mk "routes/clients.js" 251 "PUT /api/clients/:id" 200 (some true),
   Site.mk "routes/clients.js" 258 "PUT /api/clients/:id" 500 (some false),
   Site.mk "routes/clients.js" 273 "DELETE /api/clients/:id" 404 (some false),
   Site.mk "routes/clients.js" 279 "DELETE /api/clients/:id" 200 (some true),
   Site.mk "routes/clients.js" 285 "DELETE /api/clients/:id" 500 (some false),
   Site.mk "routes/clients.js" 320 "GET /api/clients/:id/orders" 200 (some true),
   Site.mk "routes/clients.js" 333 "GET /api/clients/:id/orders" 500 (some false)]

/-- Response sites of `routes/partners.js`. -/
def partnerRouteSites : List Site :=
  [Site.mk "routes/partners.js" 96 "GET /api/partners" 400 (some false),
   Site.mk "routes/partners.js" 142 "GET /api/partners" 200 (some true),
   Site.mk "routes/partners.js" 158 "GET /api/partners" 500 (some false),
   Site.mk "routes/partners.js" 217 "GET /api/partners/search" 200 (some true),
   Site.mk "routes/partners.js" 226 "GET /api/partners/search" 500 (some false),
   Site.mk "routes/partners.js" 245 "GET /api/partners/:id" 404 (some false),
   Site.mk "routes/partners.js" 251 "GET /api/partners/:id" 200 (some true),
   Site.mk "routes/partners.js" 258 "GET /api/partners/:id" 500 (some false),
   Site.mk "routes/partners.js" 282 "POST /api/partners" 400 (some false),
   Site.mk "routes/partners.js" 295 "POST /api/partners" 409 (some false),
   Site.mk "routes/partners.js" 304 "POST /api/partners" 201 (some true),
   Site.mk "routes/partners.js" 311 "POST /api/partners" 500 (some false),
   Site.mk "routes/partners.js" 330 "PUT /api/partners/:id" 404 (some false),
   Site.mk "routes/partners.js" 336 "PUT /api/partners/:id" 200 (some true),
   Site.mk "routes/partners.js" 343 "PUT /api/partners/:id" 500 (some false),
   Site.mk "routes/partners.js" 367 "GET /api/partners/:id/availability" 404 (some false),
   Site.mk "routes/partners.js" 389 "GET /api/partners/:id/availability" 200 (some true),
   Site.mk "routes/partners.js" 396 "GET /api/partners/:id/availability" 500 (some false)]

/-- Response sites of `routes/orders.js`. -/
def orderRouteSites : List Site :=
  [Site.mk "routes/orders.js" 105 "GET /api/orders" 400 (some false),
   Site.mk "routes/orders.js" 164 "GET /api/orders" 200 (some true),
   Site.mk "routes/orders.js" 181 "GET /api/orders" 500 (some false),
   Site.mk "routes/orders.js" 198 "GET /api/orders/:id" 404 (some false),
   Site.mk "routes/orders.js" 204 "GET /api/orders/:id" 200 (some true),
   Site.mk "routes/orders.js" 211 "GET /api/orders/:id" 500 (some false),
   Site.mk "routes/orders.js" 235 "POST /api/orders" 400 (some false),
   Site.mk "routes/orders.js" 249 "POST /api/orders" 201 (some true),
   Site.mk "routes/orders.js" 256 "POST /api/orders" 500 (some false),
   Site.mk "routes/orders.js" 277 "PUT /api/orders/:id" 404 (some false),
   Site.mk "routes/orders.js" 283 "PUT /api/orders/:id" 200 (some true),
   Site.mk "routes/orders.js" 290 "PUT /api/orders/:id" 500 (some false),
   Site.mk "routes/orders.js" 360 "GET /api/orders/analytics/dashboard" 200 (some true),
   Site.mk "routes/orders.js" 368 "GET /api/orders/analytics/dashboard" 500 (some false)]

/-- Response sites of `routes/admins.js`. -/
def adminRouteSites : List Site :=
  [Site.mk "routes/admins.js" 94 "GET /api/admins/dashboard" 200 (some true),
   Site.mk "routes/admins.js" 101 "GET /api/admins/dashboard" 500 (some false),
   Site.mk "routes/admins.js" 148 "GET /api/admins/system-health" 200 (some true),
   Site.mk "routes/admins.js" 155 "GET /api/admins/system-health" 500 (some false),
   Site.mk "routes/admins.js" 247 "GET /api/admins/analytics" 200 (some true),
   Site.mk "routes/admins.js" 256 "GET /api/admins/analytics" 500 (some false)]

/-- Response sites of `middleware/auth.js`. -/
def jwtMiddlewareSites : List Site :=
  [Site.mk "middleware/auth.js" 12 "authenticate" 401 (some false),
   Site.mk "middleware/auth.js" 32 "authenticate" 401 (some false),
   Site.mk "middleware/auth.js" 39 "authenticate" 401 (some false),
   Site.mk "middleware/auth.js" 48 "authenticate" 401 (some false),
   Site.mk "middleware/auth.js" 59 "authorize" 401 (some false),
   Site.mk "middleware/auth.js" 66 "authorize" 403 (some false)]

/-- Response sites of `middleware/firebaseAuth.js`. -/
def firebaseMiddlewareSites : List Site :=
  [Site.mk "middleware/firebaseAuth.js" 32 "authenticateFirebase" 401 (some false),
   Site.mk "middleware/firebaseAuth.js" 48 "authenticateFirebase" 401 (some false),
   Site.mk "middleware/firebaseAuth.js" 55 "authenticateFirebase" 401 (some false),
   Site.mk "middleware/firebaseAuth.js" 66 "authenticateFirebase" 401 (some false),
   Site.mk "middleware/firebaseAuth.js" 77 "authorize" 401 (some false),
   Site.mk "middleware/firebaseAuth.js" 84 "authorize" 403 (some false)]

/-- Response sites of `server.js` (line 19 is the body configured for the rate limiter). -/
def serverSites : List Site :=
  [Site.mk "server.js" 19 "rate limiter" 429 (some false),
   Site.mk "server.js" 72 "GET /api/health" 200 none,
   Site.mk "server.js" 83 "GET /" 200 none,
   Site.mk "server.js" 98 "error middleware" 400 (some false),
   Site.mk "server.js" 108 "error middleware" 409 (some false),
   Site.mk "server.js" 116 "error middleware" 401 (some false),
   Site.mk "server.js" 122 "error middleware" 500 (some false),
   Site.mk "server.js" 131 "404 handler" 404 (some false)]

/-- Response sites of `app/api/books/route.ts`. -/
def bookSites : List Site :=
  [Site.mk "app/api/books/route.ts" 116 "GET /api/books" 200 (some true),
   Site.mk "app/api/books/route.ts" 133 "GET /api/books" 500 (some false),
   Site.mk "app/api/books/route.ts" 148 "POST /api/books" 501 none]

/-- Every `res.json`, `res.status(..).json` and `NextResponse.json` call of
the application, and the body configured for the rate limiter. -/
def responseSites : List Site :=
  authRouteSites ++ clientRouteSites ++ partnerRouteSites ++ orderRouteSites ++
    adminRouteSites ++ jwtMiddlewareSites ++ firebaseMiddlewareSites ++ serverSites ++ bookSites

/-- Endpoints whose bodies are not envelopes. -/
def plainRoutes : List String :=
  ["GET /api/health", "GET /", "POST /api/books"]

/-- Whether a status is in the 2xx range. -/
def is2xx (status : Nat) : Bool :=
  decide (200 ≤ status ∧ status < 300)

/-- The route label of each listing handler in `responseSites`. -/
def Entity.route : Entity → String
  | .partner => "GET /api/partners"
  | .client => "GET /api/clients"
  | .order => "GET /api/orders"

/-! ## Closed examples of authentication -/

/-- An environment in which the token `good` verifies (as the JWT of client
`c1`, and as the Firebase token of uid `uid-1`), every Firebase uid exists,
every string casts to an id and the database answers. -/
def sampleEnv : AuthEnv :=
  { verifyJwt := fun t => if t = "good" then some ("c1", some "Client") else none
    verifyIdToken := fun t => if t = "good" then some "uid-1" else none
    hasFirebaseUser := fun _ => true
    castsToId := fun _ => true
    dbThrows := false }

/-- A store with one client, one partner sharing the client's Firebase uid,
and one inactive admin. -/
def sampleStore : Store :=
  { clients := [⟨"c1", "john_doe", "john@example.com", some "uid-1", true, "Client"⟩]
    partners := [⟨"p1", "photo_pro", "photographer@example.com", some "uid-1", true, "Partner"⟩]
    admins := [⟨"a1", "admin", "admin@pixisphere.com", some "uid-9", false, "SuperAdmin"⟩] }

/-- A registration of a new client that reuses the email of `john_doe`. -/
def duplicateEmail : RegisterInput :=
  { body := ⟨"Client", "johnny", "john@example.com", "uid-2"⟩
    otherErrors := []
    freshId := "c2"
    saveFailure := none }

/-- Whether some response site of a route sends this status with this value
of `success`. -/
def siteFor (route : String) (status : Nat) (success : Bool) : Bool :=
  responseSites.any fun s => s.route == route && s.status == status && s.success == some success

/-- Whether a site's body is an envelope whose `success` mirrors the status. -/
def Site.mirrors (s : Site) : Bool :=
  match s.success with
  | some b => is2xx s.status == b
  | none => false

/-! ## Failures, deletion and the home-page search -/

/-- A collection on which every query fails with the given error message. -/
def failingDb (detail : String) : Db Nat :=
  ⟨[], fun _ _ => true, fun _ _ _ => true, fun _ => true, detail, by decide⟩

/-- The request `?date=2025-01-15` to the partner search. -/
def dateOnly : Query :=
  [("date", .str "2025-01-15")]

/-- A `DELETE /api/clients/:id` request, reduced to its `Authorization`
header and the `:id` segment of its path. -/
structure DeleteRequest where
  authorization : Option String
  id : String
  deriving DecidableEq, Repr

/-- The call `Client.findByIdAndDelete(id)`: the document found, and the
collection without it. -/
def findByIdAndDelete (docs : List User) (id : String) : Option User × List User :=
  (findById docs id, docs.eraseP fun u => u.id == id)

/-- The route `DELETE /api/clients/:id` of `routes/clients.js` as mounted by
`server.js`: neither `authenticate` nor `authorize` precedes the handler, and
the handler reads `req.params.id` only. An id that does not cast, or a
failing database, throws into the `catch` block. -/
def deleteClient (env : AuthEnv) (store : Store) (req : DeleteRequest) : AuthResponse × Store :=
  if !env.castsToId req.id then
    ({ status := 500, success := false, message := "Failed to delete client",
       error := some "Cast to ObjectId failed" }, store)
  else if env.dbThrows then
    ({ status := 500, success := false, message := "Failed to delete client",
       error := some "database error" }, store)
  else
    match findByIdAndDelete store.clients req.id with
    | (none, _) => ({ status := 404, success := false, message := "Client not found" }, store)
    | (some _, rest) =>
      ({ status := 200, success := true, message := "Client deleted successfully" },
        { store with clients := rest })

/-- The admin created by `scripts/seedDatabase.js` (active by the schema
default), next to the sample client and partner. -/
def seededStore : Store :=
  { sampleStore with
    admins := [⟨"a1", "admin", "admin@pixisphere.com", none, true, "SuperAdmin"⟩] }

/-- An environment in which the token `admin-token` verifies as the JWT of
the seeded admin, carrying its id and its `userType`. -/
def adminEnv : AuthEnv :=
  { sampleEnv with
    verifyJwt := fun t => if t = "admin-token" then some ("a1", some "SuperAdmin") else none }

/-- The query `GET /partners/search` receives from `handleSearch` of
`app/page.tsx` through `searchPartners` of `lib/api.ts`: the object
`searchParams` starts as `limit: 20`, gains `city` when `location` is
non-empty and `shootType` (lower-cased) when the selection is not `All`, and
is serialised by `URLSearchParams`. -/
def handleSearch (toLowerCase : String → String) (location shootType : String) : Query :=
  [("limit", .str "20")] ++
  (if location ≠ "" then [("city", QVal.str location)] else []) ++
  (if shootType ≠ "All" then [("shootType", QVal.str (toLowerCase shootType))] else [])

/-! ## The books endpoint and page -/

/-- A book of the library list. -/
structure Book where
  id : Nat
  title : String
  author : String
  isbn : String
  publishedYear : Nat
  genre : String
  availableCopies : Nat
  totalCopies : Nat
  description : String
  deriving DecidableEq, Repr

/-- The list returned by `getBooksFromDatabase` in `app/api/books/route.ts`. -/
def getBooksFromDatabase : List Book :=
  [⟨1, "The Great Gatsby", "F. Scott Fitzgerald", "978-0-7432-7356-5", 1925, "Fiction", 3, 5,
      "A classic American novel set in the Jazz Age"⟩,
   ⟨2, "To Kill a Mockingbird", "Harper Lee", "978-0-06-112008-4", 1960, "Fiction", 2, 4,
      "A gripping tale of racial injustice and childhood innocence"⟩,
   ⟨3, "1984", "George Orwell", "978-0-452-28423-4", 1949, "Dystopian Fiction", 1, 3,
      "A dystopian social science fiction novel"⟩,
   ⟨4, "Pride and Prejudice", "Jane Austen", "978-0-14-143951-8", 1813, "Romance", 4, 6,
      "A romantic novel of manners"⟩,
   ⟨5, "The Catcher in the Rye", "J.D. Salinger", "978-0-316-76948-0", 1951, "Fiction", 0, 2,
      "A controversial novel about teenage rebellion"⟩]

/-- The method `String.prototype.includes`: whether `needle` occurs in `text`
as a contiguous substring. -/
def includes (text needle : String) : Bool :=
  text.data.tails.any fun t => needle.data.isPrefixOf t

/-- The body and status of a `GET /api/books` response. -/
structure BooksResponse where
  status : Nat
  success : Bool
  data : List Book
  total : Nat
  message : String
  deriving DecidableEq, Repr

/-- The handler `GET` of `app/api/books/route.ts`. The argument `books` is the
awaited result of `getBooksFromDatabase()`, `searchParams` the decoded query
string in order (`searchParams.get` reads the first value of a name), and
`toLowerCase` the string method of that name. -/
def GET (toLowerCase : String → String) (books : List Book)
    (searchParams : List (String × String)) : BooksResponse :=
  let genre := searchParams.lookup "genre"
  let author := searchParams.lookup "author"
  let available := searchParams.lookup "available"
  let books :=
    match genre with
    | some g =>
      if g ≠ "" then books.filter fun b => includes (toLowerCase b.genre) (toLowerCase g)
      else books
    | none => books
  let books :=
    match author with
    | some a =>
      if a ≠ "" then books.filter fun b => includes (toLowerCase b.author) (toLowerCase a)
      else books
    | none => books
  let books :=
    if available = some "true" then books.filter fun b => decide (b.availableCopies > 0)
    else books
  { status := 200, success := true, data := books, total := books.length,
    message := "Books retrieved successfully" }

/-- The selection the claim describes for `GET /api/books`, book by book:
the genre contains `genre` when that parameter is given, the author contains
`author` when that parameter is given, both without regard to case, and a
copy is available when `available` is the string `true`. -/
def selectedBySpec (toLowerCase : String → String) (genre author available : Option String)
    (b : Book) : Bool :=
  (match genre with
    | some g => includes (toLowerCase b.genre) (toLowerCase g)
    | none => true) &&
  (match author with
    | some a => includes (toLowerCase b.author) (toLowerCase a)
    | none => true) &&
  (if available = some "true" then decide (b.availableCopies > 0) else true)

/-- Lower-casing of the ASCII letters, which is what `toLowerCase` does on
the ASCII text of the book list. -/
def asciiLower (s : String) : String :=
  String.mk (s.data.map Char.toLower)

/-- The parameters `fetchBooks` of `app/books/page.tsx` appends to the
request URL from the state `genreFilter` and `availableOnly`. -/
def fetchParams (genreFilter : String) (availableOnly : Bool) : List (String × String) :=
  (if genreFilter ≠ "" then [("genre", genreFilter)] else []) ++
  (if availableOnly then [("available", "true")] else [])

/-- The state `books` after `fetchBooks` has run against the endpoint: the
`data` of the response when its `success` is true, the previous state
otherwise. -/
def fetchBooks (toLowerCase : String → String) (served previous : List Book)
    (genreFilter : String) (availableOnly : Bool) : List Book :=
  let result := GET toLowerCase served (fetchParams genreFilter availableOnly)
  if result.success then result.data else previous

/-- The list `filteredBooks` the page renders from the state `books` and
`searchTerm`. -/
def filteredBooks (toLowerCase : String → String) (books : List Book) (searchTerm : String) :
    List Book :=
  books.filter fun book =>
    includes (toLowerCase book.title) (toLowerCase searchTerm) ||
      includes (toLowerCase book.author) (toLowerCase searchTerm)

/-! ## Orders of one client -/

/-- A number as it appears in a response body built from `Number.parseInt`
and `Math.ceil`: an integer, `NaN`, or an infinity (of either sign). -/
inductive JsNumber where
  | finite (n : Int)
  | nan
  | infinite
  deriving DecidableEq, Repr

/-- The number a `Number.parseInt` result stands for; `none` is `NaN`. -/
def JsNumber.ofParse : Option Int → JsNumber
  | some n => .finite n
  | none => .nan

/-- The number `Math.ceil(totalCount / limit)` where `limit` is a
`Number.parseInt` result: `NaN` for a `NaN` limit and for `0 / 0`, an
infinity for a positive count over zero, the rounded-up quotient otherwise. -/
def ceilQuotient (totalCount : Nat) (limit : Option Int) : JsNumber :=
  match limit with
  | none => .nan
  | some l =>
    if l = 0 then (if totalCount = 0 then .nan else .infinite)
    else .finite (-(Int.fdiv (-(totalCount : Int)) l))

/-- The number `(Number.parseInt(page) - 1) * Number.parseInt(limit)`, each
operation rounded to a double. -/
def skipOf (page limit : Option Int) : Option Int :=
  match page, limit with
  | some p, some l => some (toDouble (toDouble (p - 1) * l))
  | _, _ => none

/-- The filter of `GET /clients/:id/orders`. -/
def clientOrdersFilter (id : String) (query : Query) : Filter :=
  { fields :=
      ([("clientId", Clause.eq (.str id))] : Fields)
      |> ifTruthy query "status" "status" (fun v _ => .eq v)
      |> dateRange query "dateFrom" "dateTo" "eventDateTime"
    or := none }

/-- A response of `GET /clients/:id/orders`; the `pagination` object is kept
as its properties in order. -/
structure ClientOrdersResponse (α : Type) where
  status : Nat
  success : Bool
  message : String
  data : Option (List α) := none
  pagination : Option (List (String × JsNumber)) := none
  error : Option String := none

/-- The handler of `GET /clients/:id/orders` in `routes/clients.js`; no
validation chain is declared on the route. With a non-negative integer skip
and limit the cursor drops and takes, a limit of zero meaning no limit; what
the query layer does with any other skip or limit (`NaN`, negative) is given
by `irregular`, an error message or the documents. -/
def clientOrdersHandler {α : Type} (db : Db α)
    (irregular : Option Int → Option Int → Except String (List α)) (id : String)
    (query : Query) : ClientOrdersResponse α :=
  let page := pageOf query
  let limit := limitOf query
  let filter := clientOrdersFilter id query
  let sort : SortSpec := [("createdAt", -1)]
  let skip := skipOf page limit
  if db.rejects filter then
    { status := 500, success := false, message := "Failed to fetch client orders",
      error := some db.failure }
  else
    let found : Except String (List α) :=
      match skip, limit with
      | some (Int.ofNat s), some (Int.ofNat l) =>
        if l = 0 then .ok ((db.sortedMatches filter sort).drop s)
        else .ok (db.find filter sort s l)
      | _, _ => irregular skip limit
    match found with
    | .error detail =>
      { status := 500, success := false, message := "Failed to fetch client orders",
        error := some detail }
    | .ok orders =>
      let totalCount := db.countDocuments filter
      { status := 200, success := true, data := some orders,
        pagination := some
          [("currentPage", JsNumber.ofParse page),
           ("totalPages", ceilQuotient totalCount limit),
           ("totalCount", .finite totalCount),
           ("limit", JsNumber.ofParse limit)],
        message := "Client orders retrieved successfully" }

/-- The request `?limit=0`. -/
def limitZero : Query :=
  [("limit", .str "0")]

/-! ## Consecutive pages -/

/-- The request `?page=9007199254740993&limit=10`: page 2^53 + 1. -/
def pageBeyondPrecision : Query :=
  [("page", .str "9007199254740993"), ("limit", .str "10")]

/-- The request for page `p` with limit `l` on top of the parameters `rest`
(filters, search and sort). -/
def atPage (p l : Nat) (rest : Query) : Query :=
  ("page", .str (numeral p)) :: ("limit", .str (numeral l)) :: rest

/-- The `data` array of a listing response, empty when the body has none. -/
def pageData {α : Type} (e : Entity) (lib : Lib) (db : Db α) (query : Query) : List α :=
  (listHandler e lib db query).response.data.getD []

/-! ## Order analytics -/

/-- An order document reduced to what the analytics pipeline reads:
`status`, `createdAt` (milliseconds since the epoch) and
`pricing.totalAmount`. The amount is a double, kept as a whole number of
units, the unit being a power of two fine enough for all amounts at hand: 1
for whole amounts, 2^-55 where 0.1, 0.2 and 0.3 occur. -/
structure OrderDoc where
  status : String
  createdAt : Int
  totalAmount : Int
  deriving DecidableEq, Repr

/-- The sum of two doubles given in the same unit: the exact sum, rounded to
53 significant bits. -/
def addDouble (a b : Int) : Int :=
  toDouble (a + b)

/-- The accumulator `$sum` over doubles: one addition after the other,
starting from 0. -/
def sumDoubles (xs : List Int) : Int :=
  xs.foldl addDouble 0

/-- The `format` handed to `$dateToString`: the nested conditional on
`groupBy`, whose last branch serves every value other than `day`, `week`
and `month`. -/
def formatOf (groupBy : QVal) : String :=
  if groupBy = .str "day" then "%Y-%m-%d"
  else if groupBy = .str "week" then "%Y-%U"
  else if groupBy = .str "month" then "%Y-%m"
  else "%Y"

/-- The object `matchStage`: empty, or a range on `createdAt`. -/
def matchStage (query : Query) : Filter :=
  { fields := dateRange query "dateFrom" "dateTo" "createdAt" [], or := none }

/-- The meaning the database gives to a filter on an order: a range clause on
`createdAt` with date bounds compares instants, `dateValue v` being the
instant it receives for `new Date(v)`; other clauses are not interpreted. -/
def orderHolds (dateValue : QVal → Int) (filter : Filter) (o : OrderDoc) : Bool :=
  filter.fields.all fun pc =>
    match pc with
    | ("createdAt", .range gte lte) =>
      (match gte with
        | some (.date v) => decide (dateValue v ≤ o.createdAt)
        | _ => true) &&
      (match lte with
        | some (.date v) => decide (o.createdAt ≤ dateValue v)
        | _ => true)
    | _ => true

/-- A `$group` stage before its accumulators run: one group per distinct
value of the `_id` expression, holding the input documents with that value in
input order. The database leaves the order of the groups unspecified; here
it is the order of last occurrence. -/
def groupStage {α κ : Type} [DecidableEq κ] (key : α → κ) (docs : List α) : List (κ × List α) :=
  (docs.map key).dedup.map fun k => (k, docs.filter fun d => decide (key d = k))

/-- An output document of the first `$group` stage; `_id` is the pair of
`status` and `period`. The average is kept as the exact mean, before its
rounding to a double. -/
structure StatusGroup where
  status : String
  period : String
  count : Nat
  totalRevenue : Int
  averageOrderValue : ℚ
  deriving DecidableEq, Repr

/-- An element pushed onto `orders` by the second `$group` stage. -/
structure StatusEntry where
  status : String
  count : Nat
  revenue : Int
  avgValue : ℚ
  deriving DecidableEq, Repr

/-- An output document of the second `$group` stage; `id` is its `_id`. -/
structure PeriodGroup where
  id : String
  orders : List StatusEntry
  totalOrders : Nat
  totalRevenue : Int
  deriving DecidableEq, Repr

/-- The first `$group` stage: by status and period, with `$sum: 1`, `$sum`
and `$avg` of `pricing.totalAmount`. -/
def statusGroups (period : OrderDoc → String) (docs : List OrderDoc) : List StatusGroup :=
  (groupStage (fun d => (d.status, period d)) docs).map fun g =>
    { status := g.1.1
      period := g.1.2
      count := g.2.length
      totalRevenue := sumDoubles (g.2.map OrderDoc.totalAmount)
      averageOrderValue := ((g.2.map OrderDoc.totalAmount).sum : ℚ) / (g.2.length : ℚ) }

/-- The second `$group` stage: by period, pushing one entry per input
document and summing `count` and `totalRevenue`. -/
def periodGroups (groups : List StatusGroup) : List PeriodGroup :=
  (groupStage StatusGroup.period groups).map fun g =>
    { id := g.1
      orders := g.2.map fun s => ⟨s.status, s.count, s.totalRevenue, s.averageOrderValue⟩
      totalOrders := (g.2.map StatusGroup.count).sum
      totalRevenue := sumDoubles (g.2.map StatusGroup.totalRevenue) }

/-- Order of two period strings: lexicographic by character. -/
def periodLe (p q : String) : Bool :=
  decide (p.data ≤ q.data)

/-- The stage `$sort` with `_id: 1`. -/
def sortById (groups : List PeriodGroup) : List PeriodGroup :=
  sortDocs (fun a b => periodLe a.id b.id) groups

/-- The pipeline handed to `Order.aggregate`, after its `$match` stage. -/
def aggregate (period : OrderDoc → String) (matched : List OrderDoc) : List PeriodGroup :=
  sortById (periodGroups (statusGroups period matched))

/-- A response of `GET /orders/analytics/dashboard`; `period` echoes
`dateFrom`, `dateTo` and `groupBy`. -/
structure AnalyticsResponse where
  status : Nat
  success : Bool
  message : String
  data : Option (List PeriodGroup) := none
  period : Option (Option QVal × Option QVal × QVal) := none
  error : Option String := none

/-- The handler of `GET /orders/analytics/dashboard` in `routes/orders.js`;
it does not read the validation result. The function `dateToString` is the
operator `$dateToString` of the database, from a format and a date. -/
def analyticsHandler (db : Db OrderDoc) (dateToString : String → Int → String)
    (query : Query) : AnalyticsResponse :=
  let groupBy := (query.lookup "groupBy").getD (.str "month")
  if db.rejects (matchStage query) then
    { status := 500, success := false, message := "Failed to fetch order analytics",
      error := some db.failure }
  else
    let analytics :=
      aggregate (fun d => dateToString (formatOf groupBy) d.createdAt)
        (db.docs.filter (db.holds (matchStage query)))
    { status := 200, success := true, data := some analytics,
      period := some (query.lookup "dateFrom", query.lookup "dateTo", groupBy),
      message := "Order analytics retrieved successfully" }

/-- The date range of a request, order by order: `createdAt` is not before
`new Date(dateFrom)` when `dateFrom` is given and not empty, and not after
`new Date(dateTo)` when `dateTo` is given and not empty. -/
def inDateRange (dateValue : QVal → Int) (query : Query) (o : OrderDoc) : Bool :=
  (match truthyGet query "dateFrom" with
    | some v => decide (dateValue v ≤ o.createdAt)
    | none => true) &&
  (match truthyGet query "dateTo" with
    | some v => decide (o.createdAt ≤ dateValue v)
    | none => true)

/-- The period format by the value of `groupBy`: by day for `day`, by week
for `week`, by month for `month` and when `groupBy` is absent, by year for
every other value. -/
def periodFormat (groupBy : Option QVal) : String :=
  match groupBy with
  | none => "%Y-%m"
  | some g =>
    if g = .str "day" then "%Y-%m-%d"
    else if g = .str "week" then "%Y-%U"
    else if g = .str "month" then "%Y-%m"
    else "%Y"

/-- The in-memory reduction the claim describes, over the orders in the date
range: one entry per distinct period, ascending by period, with the number
of orders of the period and the sum of their amounts. -/
def reduceInMemory (period : OrderDoc → String) (orders : List OrderDoc) :
    List (String × Nat × Int) :=
  (sortDocs periodLe (orders.map period).dedup).map fun p =>
    (p, (orders.filter fun o => decide (period o = p)).length,
      ((orders.filter fun o => decide (period o = p)).map OrderDoc.totalAmount).sum)

/-- A stand-in for `new Date` in closed examples: the string `2025-01-02` is
the instant 105, every other value the instant 0. -/
def sampleInstant (v : QVal) : Int :=
  if v = .str "2025-01-02" then 105 else 0

/-- Three orders of two months, two completed and one pending, with whole
amounts, in a database that compares instants. -/
def threeOrders : Db OrderDoc :=
  ⟨[⟨"completed", 200, 1500⟩, ⟨"pending", 100, 700⟩, ⟨"completed", 110, 300⟩],
    orderHolds sampleInstant, fun _ _ _ => true, fun _ => false, "", by decide⟩

/-- A stand-in for `$dateToString` in closed examples: dates before 150 fall
in `2025-01`, later ones in `2025-02`, whatever the format. -/
def twoMonths (_format : String) (date : Int) : String :=
  if date < 150 then "2025-01" else "2025-02"

/-- The request `?dateFrom=2025-01-02`. -/
def fromSecondOfJanuary : Query :=
  [("dateFrom", .str "2025-01-02")]

/-- Three orders of one month with the amounts 0.3 (pending), 0.2 and 0.1
(completed), in units of 2^-55. -/
def tenths : Db OrderDoc :=
  ⟨[⟨"pending", 0, 10808639105689190⟩, ⟨"completed", 0, 7205759403792794⟩,
     ⟨"completed", 0, 3602879701896397⟩],
    orderHolds sampleInstant, fun _ _ _ => true, fun _ => false, "", by decide⟩

/-! ## Numbers as doubles -/

theorem excessBits_small (fuel n : Nat) (h : n < 9007199254740992) :
    excessBits fuel n = 0 := by
  cases fuel <;> simp [excessBits, h]

/-- Integers up to 2^53 are their own Number value. -/
theorem roundDouble_of_le (n : Nat) (h : n ≤ 9007199254740992) : roundDouble n = n := by
  rcases Nat.lt_or_ge n 9007199254740992 with hlt | hge
  · simp [roundDouble, excessBits_small n n hlt, Nat.mod_one]
  · have : n = 9007199254740992 := by omega
    subst this
    decide

theorem excessBits_quotient (fuel n : Nat) (h : 4503599627370496 ≤ n) :
    4503599627370496 ≤ n / 2 ^ excessBits fuel n := by
  induction fuel generalizing n with
  | zero => simpa [excessBits] using h
  | succ fuel ih =>
    unfold excessBits
    split
    · simpa using h
    · have h2 : 4503599627370496 ≤ n / 2 := by omega
      have := ih (n / 2) h2
      rw [pow_succ, Nat.mul_comm, ← Nat.div_div_eq_div_mul]
      exact this

theorem excessBits_pos (n : Nat) (h : 9007199254740992 ≤ n) : 1 ≤ excessBits n n := by
  obtain ⟨k, rfl⟩ : ∃ k, n = k + 1 := ⟨n - 1, by omega⟩
  unfold excessBits
  have : ¬ k + 1 < 9007199254740992 := by omega
  simp [this]

/-- Rounding never takes a number from 2^53 upward below 2^53. -/
theorem le_roundDouble (n : Nat) (h : 9007199254740992 ≤ n) :
    9007199254740992 ≤ roundDouble n := by
  have hq := excessBits_quotient n n (by omega)
  have he := excessBits_pos n h
  have hpow : 2 ≤ 2 ^ excessBits n n := by
    calc 2 = 2 ^ 1 := rfl
      _ ≤ 2 ^ excessBits n n := Nat.pow_le_pow_right (by decide) he
  have hbase : 9007199254740992 ≤ n / 2 ^ excessBits n n * 2 ^ excessBits n n := by
    calc 9007199254740992 = 4503599627370496 * 2 := by norm_num
      _ ≤ n / 2 ^ excessBits n n * 2 ^ excessBits n n := Nat.mul_le_mul hq hpow
  unfold roundDouble
  simp only []
  split
  · exact hbase
  · split
    · exact le_trans hbase (Nat.mul_le_mul_right _ (Nat.le_succ _))
    · exact le_trans hbase (Nat.mul_le_mul_right _ (Nat.le_add_right _ _))

theorem min_le_roundDouble (n m : Nat) (hm : m ≤ 9007199254740992) (h : m ≤ n) :
    m ≤ roundDouble n := by
  rcases Nat.lt_or_ge n 9007199254740992 with hlt | hge
  · rw [roundDouble_of_le n (by omega)]
    exact h
  · exact le_trans hm (le_roundDouble n hge)

theorem skipNumber_exact (p l : Nat) (h : (p - 1) * l ≤ 9007199254740992) :
    skipNumber p l = (p - 1) * l := by
  unfold skipNumber
  rcases Nat.eq_zero_or_pos l with rfl | hl
  · simp [roundDouble_of_le]
  · have hp : p - 1 ≤ 9007199254740992 :=
      le_trans (Nat.le_mul_of_pos_right _ hl) h
    rw [roundDouble_of_le _ hp, roundDouble_of_le _ h]

theorem le_skipNumber (p l m : Nat) (hm : m ≤ 9007199254740992) (h : m ≤ (p - 1) * l) :
    m ≤ skipNumber p l := by
  unfold skipNumber
  apply min_le_roundDouble _ _ hm
  rcases Nat.lt_or_ge (p - 1) 9007199254740992 with hlt | hge
  · rw [roundDouble_of_le _ (by omega)]
    exact h
  · rcases Nat.eq_zero_or_pos l with rfl | hl
    · simpa using h
    · exact le_trans hm (le_trans (le_roundDouble _ hge) (Nat.le_mul_of_pos_right _ hl))

theorem toDouble_of_bounds (z : Int) (h0 : 0 ≤ z) (h : z ≤ 9007199254740992) :
    toDouble z = z := by
  obtain ⟨n, rfl⟩ := Int.eq_ofNat_of_zero_le h0
  have hn : n ≤ 9007199254740992 := by exact_mod_cast h
  show Int.ofNat (roundDouble n) = _
  rw [roundDouble_of_le n hn]
  rfl

/-! ## Parsing validated integers -/

theorem digit_not_whitespace (c : Char) (h : isDecDigit c = true) : isJsWhitespace c = false := by
  simp only [isDecDigit, decide_eq_true_eq] at h
  simp [isJsWhitespace]
  omega

theorem splitSign_digit (c : Char) (cs : List Char) (h : isDecDigit c = true) :
    splitSign (c :: cs) = (false, c :: cs) := by
  simp only [isDecDigit, decide_eq_true_eq] at h
  unfold splitSign
  split
  · rename_i heq
    simp only [List.cons.injEq] at heq
    obtain ⟨rfl, _⟩ := heq
    simp at h
  · rename_i heq
    simp only [List.cons.injEq] at heq
    obtain ⟨rfl, _⟩ := heq
    simp at h
  · rfl

theorem splitSign_other (c : Char) (cs : List Char) (h1 : c ≠ '-') (h2 : c ≠ '+') :
    splitSign (c :: cs) = (false, c :: cs) := by
  unfold splitSign
  split
  · rename_i heq
    simp only [List.cons.injEq] at heq
    exact absurd heq.1 h1
  · rename_i heq
    simp only [List.cons.injEq] at heq
    exact absurd heq.1 h2
  · rfl

theorem hexMarker_second (c d : Char) (cs : List Char) (hd : d ≠ 'x' ∧ d ≠ 'X') :
    hexMarker (c :: d :: cs) = none := by
  unfold hexMarker
  split
  · rename_i heq
    simp only [List.cons.injEq] at heq
    exact absurd heq.2.1 hd.1
  · rename_i heq
    simp only [List.cons.injEq] at heq
    exact absurd heq.2.1 hd.2
  · rfl

theorem hexMarker_single (c : Char) : hexMarker [c] = none := by
  unfold hexMarker
  split <;> simp_all

theorem digit_ne_marker (d : Char) (h : isDecDigit d = true) : d ≠ 'x' ∧ d ≠ 'X' := by
  simp only [isDecDigit, decide_eq_true_eq] at h
  constructor <;> (rintro rfl; simp at h)

theorem hexMarker_digits (ds t : List Char) (hne : ds ≠ [])
    (hall : ds.all isDecDigit = true) (ht : StopsDigits t) : hexMarker (ds ++ t) = none := by
  rw [List.all_eq_true] at hall
  match ds, hne with
  | [c], _ =>
    rcases ht with rfl | ⟨r, rfl⟩
    · exact hexMarker_single c
    · exact hexMarker_second c ',' r (by decide)
  | c :: d :: rest, _ =>
    exact hexMarker_second c d (rest ++ t) (digit_ne_marker d (hall d (by simp)))

theorem takeWhile_digits (ds t : List Char) (hall : ds.all isDecDigit = true)
    (ht : StopsDigits t) : (ds ++ t).takeWhile isDecDigit = ds := by
  rw [List.all_eq_true] at hall
  rw [List.takeWhile_append_of_pos hall]
  rcases ht with rfl | ⟨r, rfl⟩
  · simp
  · have : isDecDigit ',' = false := by decide
    simp [List.takeWhile_cons, this]

theorem parseIntChars_valid (cs t : List Char) (hne : (splitSign cs).2 ≠ [])
    (hall : (splitSign cs).2.all isDecDigit = true) (ht : StopsDigits t) :
    parseIntChars (cs ++ t) = some (signed (splitSign cs).1 (digitsValue (splitSign cs).2)) := by
  have key : ∀ (neg : Bool) (ds : List Char), ds ≠ [] → ds.all isDecDigit = true →
      ∀ input, splitSign (input.dropWhile isJsWhitespace) = (neg, ds ++ t) →
      parseIntChars input = some (signed neg (digitsValue ds)) := by
    intro neg ds hne hall input hin
    unfold parseIntChars
    simp only [hin, hexMarker_digits ds t hne hall ht, takeWhile_digits ds t hall ht]
    cases ds with
    | nil => exact absurd rfl hne
    | cons c r => simp
  match cs, hne, hall with
  | c :: r, hne, hall =>
    by_cases h1 : c = '-'
    · subst h1
      have hsp : ∀ l, splitSign ('-' :: l) = (true, l) := fun l => rfl
      rw [hsp] at hne hall ⊢
      apply key true r hne hall
      have : isJsWhitespace '-' = false := by decide
      simp [List.dropWhile_cons, this, hsp]
    · by_cases h2 : c = '+'
      · subst h2
        have hsp : ∀ l, splitSign ('+' :: l) = (false, l) := fun l => rfl
        rw [hsp] at hne hall ⊢
        apply key false r hne hall
        have : isJsWhitespace '+' = false := by decide
        simp [List.dropWhile_cons, this, hsp]
      · rw [splitSign_other c r h1 h2] at hne hall ⊢
        apply key false (c :: r) hne hall
        have hc : isDecDigit c = true := by
          rw [List.all_eq_true] at hall
          exact hall c (by simp)
        simp [List.dropWhile_cons, digit_not_whitespace c hc, splitSign_other c _ h1 h2]

theorem joinComma_cons (x : String) (xs : List String) :
    ∃ t, joinComma (x :: xs) = x.data ++ t ∧ StopsDigits t := by
  cases xs with
  | nil => exact ⟨[], by simp [joinComma], Or.inl rfl⟩
  | cons y rest => exact ⟨',' :: joinComma (y :: rest), by simp [joinComma], Or.inr ⟨_, rfl⟩⟩

theorem isInt_parse (min max : Option Int) (s : String) (t : List Char)
    (h : isInt min max s = true) (ht : StopsDigits t) :
    ∃ n : Int, parseIntChars (s.data ++ t) = some n ∧
      (∀ m, min = some m → m ≤ n) ∧ (∀ m, max = some m → n ≤ m) := by
  simp only [isInt, intLeadingZeroes, Bool.and_eq_true, Bool.not_eq_true', List.isEmpty_eq_false,
    ne_eq] at h
  obtain ⟨⟨⟨hne, hall⟩, hmin⟩, hmax⟩ := h
  refine ⟨toNumberInt s, parseIntChars_valid s.data t hne hall ht, ?_, ?_⟩
  · rintro m rfl
    simpa using hmin
  · rintro m rfl
    simpa using hmax

/-- A query value all of whose elements pass `isInt` parses, under
`Number.parseInt`, to the Number value of an integer within the validator's
bounds. -/
theorem parseInt_of_isInt (min max : Option Int) (v : QVal)
    (h : ∀ e ∈ asArray v, isInt min max e.stringify = true) :
    ∃ n : Int, parseInt v = some (toDouble n) ∧
      (∀ m, min = some m → m ≤ n) ∧ (∀ m, max = some m → n ≤ m) := by
  cases v with
  | str s =>
    have hs := h (.str s) (by simp [asArray])
    obtain ⟨n, hn, hmin, hmax⟩ := isInt_parse min max s [] hs (Or.inl rfl)
    refine ⟨n, ?_, hmin, hmax⟩
    simp only [List.append_nil] at hn
    simp [parseInt, QVal.toJsChars, hn]
  | arr x xs =>
    have hx := h (.str x) (by simp [asArray])
    obtain ⟨t, hj, ht⟩ := joinComma_cons x xs
    obtain ⟨n, hn, hmin, hmax⟩ := isInt_parse min max x t hx ht
    refine ⟨n, ?_, hmin, hmax⟩
    simp [parseInt, QVal.toJsChars, hj, hn]
  | obj kvs =>
    have ho := h (.obj kvs) (by simp [asArray])
    have hfalse : intLeadingZeroes "[object Object]" = false := by decide
    simp [isInt, QVal.stringify, hfalse] at ho

/-! ## Validation -/

theorem run_eq_nil (c : Chain) (query : Query) (h : c.run query = []) (v : QVal)
    (hv : query.lookup c.field = some v) :
    ∀ chk ∈ c.checks, ∀ e ∈ asArray v, chk e.stringify = true := by
  intro chk hchk e he
  simp only [Chain.run, hv, List.flatMap_eq_nil_iff, List.filterMap_eq_nil_iff] at h
  have := h chk hchk e he
  by_contra hne
  simp [hne] at this

theorem validation_chain (chains : List Chain) (query : Query)
    (h : validationResult chains query = []) (c : Chain) (hc : c ∈ chains) :
    c.run query = [] := by
  simp only [validationResult, List.flatMap_eq_nil_iff] at h
  exact h c hc

theorem page_chain_mem (e : Entity) (lib : Lib) :
    (⟨"page", [isInt (some 1) none]⟩ : Chain) ∈ e.chains lib := by
  cases e <;> simp [Entity.chains, pagingChains]

theorem limit_chain_mem (e : Entity) (lib : Lib) :
    (⟨"limit", [isInt (some 1) (some 100)]⟩ : Chain) ∈ e.chains lib := by
  cases e <;> simp [Entity.chains, pagingChains]

/-- After validation `page` parses to a positive integer. -/
theorem valid_page (e : Entity) (lib : Lib) (query : Query)
    (h : validationResult (e.chains lib) query = []) :
    ∃ p : Nat, pageOf query = some (Int.ofNat p) ∧ 1 ≤ p := by
  unfold pageOf
  cases hq : query.lookup "page" with
  | none => exact ⟨1, rfl, le_refl 1⟩
  | some v =>
    have hrun := validation_chain _ _ h _ (page_chain_mem e lib)
    have hall := run_eq_nil _ _ hrun v hq (isInt (some 1) none) (by simp)
    obtain ⟨n, hn, hmin, _⟩ := parseInt_of_isInt (some 1) none v hall
    have h1 : (1 : Int) ≤ n := hmin 1 rfl
    obtain ⟨k, rfl⟩ := Int.eq_ofNat_of_zero_le (by omega : (0 : Int) ≤ n)
    have hk : 1 ≤ k := by exact_mod_cast h1
    exact ⟨roundDouble k, hn, min_le_roundDouble k 1 (by decide) hk⟩

/-- After validation `limit` parses to an integer between 1 and 100. -/
theorem valid_limit (e : Entity) (lib : Lib) (query : Query)
    (h : validationResult (e.chains lib) query = []) :
    ∃ l : Nat, limitOf query = some (Int.ofNat l) ∧ 1 ≤ l ∧ l ≤ 100 := by
  unfold limitOf
  cases hq : query.lookup "limit" with
  | none => exact ⟨10, rfl, by omega, by omega⟩
  | some v =>
    have hrun := validation_chain _ _ h _ (limit_chain_mem e lib)
    have hall := run_eq_nil _ _ hrun v hq (isInt (some 1) (some 100)) (by simp)
    obtain ⟨n, hn, hmin, hmax⟩ := parseInt_of_isInt (some 1) (some 100) v hall
    have h1 : (1 : Int) ≤ n := hmin 1 rfl
    have h2 : n ≤ (100 : Int) := hmax 100 rfl
    rw [toDouble_of_bounds n (by omega) (by omega)] at hn
    refine ⟨n.toNat, ?_, ?_, ?_⟩
    · simp only [hn, Int.ofNat_eq_coe]
      congr 1
      omega
    · omega
    · omega

/-! ## Pagination -/

theorem length_insertBy {α : Type} (le : α → α → Bool) (a : α) (xs : List α) :
    (insertBy le a xs).length = xs.length + 1 := by
  induction xs with
  | nil => rfl
  | cons b bs ih =>
    unfold insertBy
    split <;> simp [ih]

theorem length_sortDocs {α : Type} (le : α → α → Bool) (xs : List α) :
    (sortDocs le xs).length = xs.length := by
  induction xs with
  | nil => rfl
  | cons b bs ih =>
    have : sortDocs le (b :: bs) = insertBy le b (sortDocs le bs) := rfl
    rw [this, length_insertBy, ih, List.length_cons]

theorem countDocuments_eq {α : Type} (db : Db α) (filter : Filter) (sort : SortSpec) :
    db.countDocuments filter = (db.sortedMatches filter sort).length := by
  simp [Db.countDocuments, Db.sortedMatches, length_sortDocs]

/-- Every count is at most 2^53. -/
theorem countDocuments_le {α : Type} (db : Db α) (filter : Filter) :
    db.countDocuments filter ≤ 9007199254740992 :=
  le_trans (List.length_filter_le _ _) db.bounded

theorem ceilDiv_le_iff (n l k : Nat) (hl : 0 < l) : ceilDiv n l ≤ k ↔ n ≤ k * l := by
  unfold ceilDiv
  rw [← Nat.lt_succ_iff, Nat.div_lt_iff_lt_mul hl, Nat.succ_mul]
  omega

theorem ceilDiv_eq_ceil (n l : Nat) (hl : 0 < l) :
    ceilDiv n l = ⌈(n : ℚ) / (l : ℚ)⌉₊ := by
  have hlq : (0 : ℚ) < (l : ℚ) := by exact_mod_cast hl
  have hchar : ∀ k : Nat, (n : ℚ) / (l : ℚ) ≤ (k : ℚ) ↔ n ≤ k * l := by
    intro k
    rw [div_le_iff₀ hlq]
    exact_mod_cast Iff.rfl
  apply le_antisymm
  · rw [ceilDiv_le_iff n l _ hl, ← hchar]
    exact Nat.le_ceil _
  · rw [Nat.ceil_le, hchar, ← ceilDiv_le_iff n l _ hl]

/-- The response of a listing handler once validation has passed and the
query layer has answered. -/
theorem listHandler_run {α : Type} (e : Entity) (lib : Lib) (db : Db α) (query : Query)
    (p l : Nat) (hvalid : validationResult (e.chains lib) query = [])
    (hp : pageOf query = some (Int.ofNat p)) (hl : limitOf query = some (Int.ofNat l))
    (hruns : db.rejects (e.filterOf query) = false) :
    (listHandler e lib db query).response.status = 200 ∧
    (listHandler e lib db query).response.success = true ∧
    (listHandler e lib db query).response.data =
      some (db.find (e.filterOf query) (sortOptions query) (skipNumber p l) l) ∧
    (listHandler e lib db query).response.pagination = some
      { currentPage := p
        totalPages := ceilDiv (db.countDocuments (e.filterOf query)) l
        totalCount := db.countDocuments (e.filterOf query)
        hasNextPage := decide (p < ceilDiv (db.countDocuments (e.filterOf query)) l)
        hasPrevPage := decide (p > 1)
        limit := l } := by
  simp [listHandler, hvalid, hp, hl, hruns]

/-- Claim C2. For a valid listing request with page `p` and limit `l` over `n`
matching records, `hasNextPage` is true exactly when `p * l < n`, and
`hasPrevPage` is true exactly when `p > 1`. -/
theorem pagination_flags {α : Type} (e : Entity) (lib : Lib) (db : Db α)
    (query : Query) (p l : Nat)
    (hvalid : validationResult (e.chains lib) query = [])
    (hp : pageOf query = some (Int.ofNat p)) (hl : limitOf query = some (Int.ofNat l))
    (hruns : db.rejects (e.filterOf query) = false) :
    ∃ pg, (listHandler e lib db query).response.pagination = some pg ∧
      (pg.hasNextPage = true ↔
        p * l < (db.sortedMatches (e.filterOf query) (sortOptions query)).length) ∧
      (pg.hasPrevPage = true ↔ p > 1) := by
  obtain ⟨l', hl', hl1, _⟩ := valid_limit e lib query hvalid
  have hle : l' = l := by
    have := hl'.symm.trans hl
    simpa using this
  subst hle
  obtain ⟨_, _, _, hpg⟩ := listHandler_run e lib db query p l' hvalid hp hl hruns
  refine ⟨_, hpg, ?_, ?_⟩
  · simp only [decide_eq_true_eq]
    rw [countDocuments_eq db _ (sortOptions query), ← not_le, ← not_le,
      ceilDiv_le_iff _ _ _ hl1]
  · simp

/-- Claim C2, the example of the specification: for `page=2, limit=10` and 25
matching records both flags are true. -/
theorem pagination_flags_witness :
    validationResult (Entity.order.chains sampleLib) pageTwoOfTen = [] ∧
    ∃ pg, (listHandler .order sampleLib twentyFive pageTwoOfTen).response.pagination = some pg ∧
      (pg.hasNextPage = true ↔
        2 * 10 < (twentyFive.sortedMatches (Entity.order.filterOf pageTwoOfTen)
          (sortOptions pageTwoOfTen)).length) ∧
      (pg.hasPrevPage = true ↔ 2 > 1) :=
  ⟨by decide,
    pagination_flags .order sampleLib twentyFive pageTwoOfTen 2 10
      (by decide) (by decide) (by decide) (by decide)⟩

/-- Claim C3. For a valid listing request answered by the query layer whose
page exceeds `totalPages`, the response is a success (status 200, no error
field) with an empty data array and `hasNextPage = false`. -/
theorem page_beyond_last_is_empty {α : Type} (e : Entity) (lib : Lib) (db : Db α)
    (query : Query) (p : Nat) (pg : Pagination)
    (hvalid : validationResult (e.chains lib) query = [])
    (hp : pageOf query = some (Int.ofNat p))
    (hruns : db.rejects (e.filterOf query) = false)
    (hpg : (listHandler e lib db query).response.pagination = some pg)
    (hbeyond : pg.totalPages < p) :
    (listHandler e lib db query).response.status = 200 ∧
    (listHandler e lib db query).response.success = true ∧
    (listHandler e lib db query).response.data = some [] ∧
    pg.hasNextPage = false := by
  obtain ⟨l, hl, hl1, _⟩ := valid_limit e lib query hvalid
  obtain ⟨hst, hsu, hdata, hpg'⟩ := listHandler_run e lib db query p l hvalid hp hl hruns
  rw [hpg'] at hpg
  simp only [Option.some.injEq] at hpg
  subst hpg
  simp only at hbeyond
  refine ⟨hst, hsu, ?_, ?_⟩
  · rw [hdata]
    have hle : ceilDiv (db.countDocuments (e.filterOf query)) l ≤ p - 1 := by omega
    rw [ceilDiv_le_iff _ _ _ hl1] at hle
    have hskip := le_skipNumber p l _ (countDocuments_le db (e.filterOf query)) hle
    rw [countDocuments_eq db _ (sortOptions query)] at hskip
    simp only [Db.find, Option.some.injEq]
    rw [List.drop_of_length_le hskip, List.take_nil]
  · simp only [decide_eq_false_iff_not]
    omega

/-- Claim C3 at `page=4, limit=10` over 25 matching records (three pages). -/
theorem page_beyond_last_is_empty_witness :
    validationResult (Entity.client.chains sampleLib) pageFourOfTen = [] ∧
    (listHandler .client sampleLib twentyFive pageFourOfTen).response.pagination =
      some ⟨4, 3, 25, false, true, 10⟩ ∧
    (listHandler .client sampleLib twentyFive pageFourOfTen).response.status = 200 ∧
    (listHandler .client sampleLib twentyFive pageFourOfTen).response.success = true ∧
    (listHandler .client sampleLib twentyFive pageFourOfTen).response.data = some [] ∧
    (⟨4, 3, 25, false, true, 10⟩ : Pagination).hasNextPage = false :=
  ⟨by decide, by decide,
    page_beyond_last_is_empty .client sampleLib twentyFive pageFourOfTen 4
      ⟨4, 3, 25, false, true, 10⟩ (by decide) (by decide) (by decide) (by decide) (by decide)⟩

/-- Page 1 of a listing with no matching record: `totalPages` is 0, the data
array is empty and the response is a success. -/
theorem first_page_of_empty_listing (e : Entity) :
    (listHandler e sampleLib { twentyFive with docs := [], bounded := by decide } []).response.data = some [] ∧
    (listHandler e sampleLib { twentyFive with docs := [], bounded := by decide } []).response.success = true ∧
    (listHandler e sampleLib { twentyFive with docs := [], bounded := by decide } []).response.pagination =
      some ⟨1, 0, 0, false, false, 10⟩ := by
  cases e <;> decide

/-! ## Paths written by the filter builders -/

theorem mem_paths_setPath (query : Fields) (path : String) (c : Clause) (x : String) :
    x ∈ paths (setPath query path c) ↔ x ∈ paths query ∨ x = path := by
  induction query with
  | nil => simp [setPath, paths]
  | cons pd rest ih =>
    obtain ⟨p, d⟩ := pd
    unfold setPath
    split
    · rename_i hp
      subst hp
      simp only [paths, List.map_cons, List.mem_cons]
      tauto
    · simp only [paths, List.map_cons, List.mem_cons] at ih ⊢
      rw [ih]
      tauto

theorem not_mem_paths_nil (x : String) : x ∈ paths ([] : Fields) ↔ False := by
  simp [paths]

theorem truthyGet_isSome_lookup (filters : Query) (key : String)
    (h : (truthyGet filters key).isSome = true) : (filters.lookup key).isSome = true := by
  unfold truthyGet at h
  cases hl : filters.lookup key with
  | none => simp [hl] at h
  | some v => rfl

theorem mem_paths_ifTruthy (filters : Query) (key path : String)
    (mk : QVal → Option Clause → Clause) (query : Fields) (x : String) :
    x ∈ paths (ifTruthy filters key path mk query) ↔
      x ∈ paths query ∨ (x = path ∧ (truthyGet filters key).isSome = true) := by
  unfold ifTruthy
  cases truthyGet filters key with
  | none => simp
  | some v => simp [mem_paths_setPath]

theorem mem_paths_ifDefined (filters : Query) (key path : String) (query : Fields)
    (x : String) :
    x ∈ paths (ifDefined filters key path query) ↔
      x ∈ paths query ∨ (x = path ∧ (filters.lookup key).isSome = true) := by
  unfold ifDefined
  cases filters.lookup key with
  | none => simp
  | some v => simp [mem_paths_setPath]

theorem mem_paths_dateRange (filters : Query) (lo hi path : String) (query : Fields)
    (x : String) :
    x ∈ paths (dateRange filters lo hi path query) ↔
      x ∈ paths query ∨ (x = path ∧ (truthyGet filters lo).isSome = true) ∨
        (x = path ∧ (truthyGet filters hi).isSome = true) := by
  unfold dateRange
  split
  · rename_i h
    simp only [Bool.or_eq_true] at h
    rw [mem_paths_setPath]
    constructor
    · rintro (h' | rfl)
      · exact Or.inl h'
      · rcases h with h | h
        · exact Or.inr (Or.inl ⟨rfl, h⟩)
        · exact Or.inr (Or.inr ⟨rfl, h⟩)
    · rintro (h' | ⟨rfl, _⟩ | ⟨rfl, _⟩)
      · exact Or.inl h'
      · exact Or.inr rfl
      · exact Or.inr rfl
  · rename_i h
    simp only [Bool.or_eq_true, not_or] at h
    simp [h.1, h.2]

theorem fires_of_truthy (e : Entity) (filters : Query) (key : String)
    (hkey : key ∉ e.boolKeys) (h : (truthyGet filters key).isSome = true) :
    guardFires e filters key = true := by
  simp [guardFires, hkey, h]

theorem fires_of_defined (e : Entity) (filters : Query) (key : String)
    (hkey : key ∈ e.boolKeys) (h : (filters.lookup key).isSome = true) :
    guardFires e filters key = true := by
  simp only [guardFires, hkey, if_true, h]

theorem present_of_fires (e : Entity) (filters : Query) (key : String)
    (h : guardFires e filters key = true) : (filters.lookup key).isSome = true := by
  unfold guardFires at h
  split at h
  · exact h
  · exact truthyGet_isSome_lookup filters key h

/-- Every path of a built filter was written by a recognised key whose guard
fired. -/
theorem path_has_firing_key (e : Entity) (filters : Query) (path : String)
    (h : path ∈ paths (e.build filters)) :
    ∃ key, (key, path) ∈ e.keyPaths ∧ guardFires e filters key = true := by
  cases e
  · simp only [Entity.build, buildPartnerFilterQuery, mem_paths_dateRange, mem_paths_ifTruthy,
      mem_paths_ifDefined, not_mem_paths_nil, false_or, or_assoc] at h
    rcases h with h | h | h | h | h | h | h | h | h | h | h | h | h | h | h <;>
      obtain ⟨rfl, hk⟩ := h <;>
      first
        | exact ⟨_, by simp [Entity.keyPaths], fires_of_truthy _ _ _ (by decide) hk⟩
        | exact ⟨_, by simp [Entity.keyPaths], fires_of_defined _ _ _ (by decide) hk⟩
  · simp only [Entity.build, buildFilterQuery, mem_paths_dateRange, mem_paths_ifTruthy,
      mem_paths_ifDefined, not_mem_paths_nil, false_or, or_assoc] at h
    rcases h with h | h | h | h | h | h | h | h | h <;>
      obtain ⟨rfl, hk⟩ := h <;>
      first
        | exact ⟨_, by simp [Entity.keyPaths], fires_of_truthy _ _ _ (by decide) hk⟩
        | exact ⟨_, by simp [Entity.keyPaths], fires_of_defined _ _ _ (by decide) hk⟩
  · simp only [Entity.build, buildOrderFilterQuery, mem_paths_dateRange, mem_paths_ifTruthy,
      mem_paths_ifDefined, not_mem_paths_nil, false_or, or_assoc] at h
    rcases h with h | h | h | h | h | h | h | h | h | h | h | h | h | h | h | h <;>
      obtain ⟨rfl, hk⟩ := h <;>
      exact ⟨_, by simp [Entity.keyPaths], fires_of_truthy _ _ _ (by decide) hk⟩

/-! ## Validation failures -/

theorem run_ne_nil (c : Chain) (query : Query) (v : QVal)
    (hv : query.lookup c.field = some v) (chk : String → Bool) (hchk : chk ∈ c.checks)
    (el : QVal) (hel : el ∈ asArray v) (hfail : chk el.stringify = false) :
    (⟨c.field, el⟩ : FieldError) ∈ c.run query := by
  simp only [Chain.run, hv, List.mem_flatMap, List.mem_filterMap]
  exact ⟨chk, hchk, el, hel, by simp [hfail]⟩

/-- Claim C4. If some parameter of a listing request is present and one of its
values fails a validator declared for it, the handler answers with status 400,
`success = false` and the validation errors (among them the failing field),
returns no data, pagination or filter echo, and makes no call to the query
layer. -/
theorem invalid_listing_request_rejected {α : Type} (e : Entity) (lib : Lib) (db : Db α)
    (query : Query) (c : Chain) (v el : QVal) (chk : String → Bool)
    (hc : c ∈ e.chains lib) (hv : query.lookup c.field = some v)
    (hchk : chk ∈ c.checks) (hel : el ∈ asArray v) (hfail : chk el.stringify = false) :
    (listHandler e lib db query).response.status = 400 ∧
    (listHandler e lib db query).response.success = false ∧
    (listHandler e lib db query).response.errors =
      some (validationResult (e.chains lib) query) ∧
    (⟨c.field, el⟩ : FieldError) ∈ validationResult (e.chains lib) query ∧
    (listHandler e lib db query).response.data = none ∧
    (listHandler e lib db query).response.pagination = none ∧
    (listHandler e lib db query).response.filters = none ∧
    (listHandler e lib db query).calls = [] := by
  have hmem : (⟨c.field, el⟩ : FieldError) ∈ validationResult (e.chains lib) query := by
    simp only [validationResult, List.mem_flatMap]
    exact ⟨c, hc, run_ne_nil c query v hv chk hchk el hel hfail⟩
  have hne : (validationResult (e.chains lib) query).isEmpty = false := by
    cases hres : validationResult (e.chains lib) query with
    | nil => rw [hres] at hmem; cases hmem
    | cons a as => rfl
  simp [listHandler, hne, badRequest, hmem]

/-- Claim C4 at `GET /orders?limit=101`. -/
theorem invalid_listing_request_rejected_witness :
    (listHandler .order sampleLib twentyFive limitTooLarge).response.status = 400 ∧
    (listHandler .order sampleLib twentyFive limitTooLarge).response.success = false ∧
    (listHandler .order sampleLib twentyFive limitTooLarge).response.errors =
      some (validationResult (Entity.order.chains sampleLib) limitTooLarge) ∧
    (⟨"limit", .str "101"⟩ : FieldError) ∈
      validationResult (Entity.order.chains sampleLib) limitTooLarge ∧
    (listHandler .order sampleLib twentyFive limitTooLarge).response.data = none ∧
    (listHandler .order sampleLib twentyFive limitTooLarge).response.pagination = none ∧
    (listHandler .order sampleLib twentyFive limitTooLarge).response.filters = none ∧
    (listHandler .order sampleLib twentyFive limitTooLarge).calls = [] :=
  invalid_listing_request_rejected .order sampleLib twentyFive limitTooLarge
    ⟨"limit", [isInt (some 1) (some 100)]⟩ (.str "101") (.str "101") (isInt (some 1) (some 100))
    (by simp [Entity.chains, pagingChains]) (by decide) (by simp) (by simp [asArray])
    (by decide)

/-- The listing validators reject a page below 1, a limit outside 1..100, a
sort key outside the allow-list and a sort order other than `asc` or `desc`. -/
theorem listing_validators_reject :
    isInt (some 1) none "0" = false ∧ isInt (some 1) none "-3" = false ∧
    isInt (some 1) (some 100) "0" = false ∧ isInt (some 1) (some 100) "101" = false ∧
    isInt (some 1) none "2.5" = false ∧ isInt (some 1) none "" = false ∧
    isIn ["createdAt", "username", "email", "lastLogin"] "password" = false ∧
    isIn ["asc", "desc"] "up" = false ∧ isBoolean "yes" = false := by
  decide

/-! ## Partner search -/

/-- Claim C5, the code at the failing input `GET /partners/search?radius=0`:
the declared validator rejects the radius, yet the handler answers 200 with
`success = true` and has issued the partner query. -/
theorem search_runs_despite_invalid_radius :
    validationResult (searchChains sampleLib) radiusZero = [⟨"radius", .str "0"⟩] ∧
    (searchHandler twoPartners radiusZero).response.status = 200 ∧
    (searchHandler twoPartners radiusZero).response.success = true ∧
    (searchHandler twoPartners radiusZero).calls =
      [DbCall.find (searchFilter radiusZero) [("ratings.average", -1), ("verified", -1)] 0 20] := by
  decide

/-- The search handler never depends on the validation outcome: without a
truthy `date` it issues the query, and with one it answers 500 before any
query. -/
theorem search_status {α : Type} (db : Db α) (query : Query) :
    (searchHandler db query).response.status =
      if (truthyGet query "date").isSome then 500
      else if db.rejects (searchFilter query) then 500 else 200 := by
  by_cases hd : (truthyGet query "date").isSome = true
  · simp [searchHandler, hd, serverError]
  · by_cases hr : db.rejects (searchFilter query) = true <;>
      simp [searchHandler, hd, hr, serverError]

/-! ## Boolean filters -/

/-- Claim C6, the code at the failing input `GET /partners?verified=1`: the
value passes validation and denotes true, but the builder writes
`verified: false` and the listing returns the unverified partner only; the
same happens for `isActive=1`. -/
theorem verified_one_selects_unverified :
    isBoolean "1" = true ∧
    validationResult (Entity.partner.chains sampleLib) [("verified", .str "1")] = [] ∧
    buildPartnerFilterQuery [("verified", .str "1")] = [("verified", .eqBool false)] ∧
    (listHandler .partner sampleLib twoPartners [("verified", .str "1")]).response.data =
      some [⟨"new_studio", false, true⟩] ∧
    buildPartnerFilterQuery [("isActive", .str "1")] = [("isActive", .eqBool false)] := by
  decide

/-- Among the strings `isBoolean` accepts, the builder's comparison with
`"true"` yields the denoted boolean for `true`, `false` and `0`, and the wrong
one exactly for `1`. -/
theorem boolean_strings (s : String) (hs : isBoolean s = true) :
    ((QVal.str s == QVal.str "true") = (s == "true" || s == "1")) ↔ s ≠ "1" := by
  simp only [isBoolean, List.contains_eq_any_beq, List.any_cons, List.any_nil, Bool.or_false,
    Bool.or_eq_true, beq_iff_eq] at hs
  rcases hs with h | h | h | h <;> subst h <;> decide

/-- The boolean written for `verified` is true only for the string `true`. -/
theorem verified_clause (v : QVal) :
    buildPartnerFilterQuery [("verified", v)] = [("verified", .eqBool (v == .str "true"))] := by
  cases v <;> rfl

/-! ## Presence and absence of clauses -/

theorem mem_setPath (query : Fields) (path : String) (c : Clause) (pc : String × Clause)
    (h : pc ∈ setPath query path c) : pc ∈ query ∨ pc = (path, c) := by
  induction query with
  | nil => simpa [setPath] using h
  | cons qd rest ih =>
    obtain ⟨q, d⟩ := qd
    unfold setPath at h
    split at h
    · rename_i hq
      subst hq
      rcases List.mem_cons.mp h with h | h
      · exact Or.inr h
      · exact Or.inl (List.mem_cons_of_mem _ h)
    · rcases List.mem_cons.mp h with h | h
      · exact Or.inl (h ▸ List.mem_cons_self _ _)
      · rcases ih h with h | h
        · exact Or.inl (List.mem_cons_of_mem _ h)
        · exact Or.inr h

theorem nonVacuous_nil : NonVacuous [] := by
  intro pc h
  cases h

theorem nonVacuous_setPath (query : Fields) (path : String) (c : Clause)
    (hq : NonVacuous query) (hc : c ≠ Clause.range none none) :
    NonVacuous (setPath query path c) := by
  intro pc h
  rcases mem_setPath query path c pc h with h | rfl
  · exact hq pc h
  · exact hc

theorem nonVacuous_ifTruthy (filters : Query) (key path : String)
    (mk : QVal → Option Clause → Clause) (query : Fields)
    (hmk : ∀ v old, mk v old ≠ Clause.range none none) (hq : NonVacuous query) :
    NonVacuous (ifTruthy filters key path mk query) := by
  unfold ifTruthy
  cases truthyGet filters key with
  | none => exact hq
  | some v => exact nonVacuous_setPath _ _ _ hq (hmk v _)

theorem nonVacuous_ifDefined (filters : Query) (key path : String) (query : Fields)
    (hq : NonVacuous query) : NonVacuous (ifDefined filters key path query) := by
  unfold ifDefined
  cases filters.lookup key with
  | none => exact hq
  | some v => exact nonVacuous_setPath _ _ _ hq (by simp)

theorem nonVacuous_dateRange (filters : Query) (lo hi path : String) (query : Fields)
    (hq : NonVacuous query) : NonVacuous (dateRange filters lo hi path query) := by
  unfold dateRange
  split
  · rename_i h
    apply nonVacuous_setPath _ _ _ hq
    intro hc
    simp only [Clause.range.injEq, Option.map_eq_none'] at hc
    simp [hc.1, hc.2] at h
  · exact hq

theorem nonVacuous_build (e : Entity) (filters : Query) : NonVacuous (e.build filters) := by
  cases e
  · simp only [Entity.build, buildPartnerFilterQuery]
    repeat first
      | exact nonVacuous_nil
      | apply nonVacuous_dateRange
      | apply nonVacuous_ifDefined
      | apply nonVacuous_ifTruthy _ _ _ _ _ (by intro v old; simp [regexI])
  · simp only [Entity.build, buildFilterQuery]
    repeat first
      | exact nonVacuous_nil
      | apply nonVacuous_dateRange
      | apply nonVacuous_ifDefined
      | apply nonVacuous_ifTruthy _ _ _ _ _ (by intro v old; simp [regexI])
  · simp only [Entity.build, buildOrderFilterQuery]
    repeat first
      | exact nonVacuous_nil
      | apply nonVacuous_dateRange
      | apply nonVacuous_ifTruthy _ _ _ _ _ (by intro v old; simp [regexI])

/-- Claim C7. For each of the three builders and every filters object: a path
carries a clause only if a recognised key mapped to that path is present in
filters; with no recognised key present the result is the empty filter; and no
clause is ever the empty object. -/
theorem clause_only_from_present_key (e : Entity) (filters : Query) :
    (∀ path, path ∈ paths (e.build filters) →
      ∃ key, (key, path) ∈ e.keyPaths ∧ (filters.lookup key).isSome = true) ∧
    ((∀ kp ∈ e.keyPaths, filters.lookup kp.1 = none) → e.build filters = []) ∧
    NonVacuous (e.build filters) := by
  have hpath : ∀ path, path ∈ paths (e.build filters) →
      ∃ key, (key, path) ∈ e.keyPaths ∧ (filters.lookup key).isSome = true := by
    intro path h
    obtain ⟨key, hkp, hfire⟩ := path_has_firing_key e filters path h
    exact ⟨key, hkp, present_of_fires e filters key hfire⟩
  refine ⟨hpath, ?_, nonVacuous_build e filters⟩
  intro hnone
  rw [List.eq_nil_iff_forall_not_mem]
  intro pc hpc
  obtain ⟨key, hkp, hsome⟩ := hpath pc.1 (List.mem_map_of_mem Prod.fst hpc)
  rw [hnone (key, pc.1) hkp] at hsome
  cases hsome

/-- Every recognised key whose guard fires leaves a clause on its path. -/
theorem firing_key_has_path (e : Entity) (filters : Query) (key path : String)
    (hkp : (key, path) ∈ e.keyPaths) (hfire : guardFires e filters key = true) :
    path ∈ paths (e.build filters) := by
  cases e
  · simp only [Entity.keyPaths, List.mem_cons, Prod.mk.injEq, List.mem_singleton,
      List.not_mem_nil, or_false] at hkp
    simp only [Entity.build, buildPartnerFilterQuery, mem_paths_dateRange, mem_paths_ifTruthy,
      mem_paths_ifDefined, not_mem_paths_nil, false_or]
    rcases hkp with h | h | h | h | h | h | h | h | h | h | h | h | h | h | h <;>
      obtain ⟨rfl, rfl⟩ := h <;>
      simp [guardFires, Entity.boolKeys] at hfire <;>
      simp [hfire]
  · simp only [Entity.keyPaths, List.mem_cons, Prod.mk.injEq, List.mem_singleton,
      List.not_mem_nil, or_false] at hkp
    simp only [Entity.build, buildFilterQuery, mem_paths_dateRange, mem_paths_ifTruthy,
      mem_paths_ifDefined, not_mem_paths_nil, false_or]
    rcases hkp with h | h | h | h | h | h | h | h | h <;>
      obtain ⟨rfl, rfl⟩ := h <;>
      simp [guardFires, Entity.boolKeys] at hfire <;>
      simp [hfire]
  · simp only [Entity.keyPaths, List.mem_cons, Prod.mk.injEq, List.mem_singleton,
      List.not_mem_nil, or_false] at hkp
    simp only [Entity.build, buildOrderFilterQuery, mem_paths_dateRange, mem_paths_ifTruthy,
      mem_paths_ifDefined, not_mem_paths_nil, false_or]
    rcases hkp with h | h | h | h | h | h | h | h | h | h | h | h | h | h | h | h <;>
      obtain ⟨rfl, rfl⟩ := h <;>
      simp [guardFires, Entity.boolKeys] at hfire <;>
      simp [hfire]

/-- Claim C8 as stated fails: the partner builder given `username` present
with the empty string (the query `?username=`) returns a filter with no clause
on `username`. -/
theorem present_key_without_clause :
    ¬ ∀ (e : Entity) (filters : Query) (key path : String),
      (key, path) ∈ e.keyPaths → (filters.lookup key).isSome = true →
      path ∈ paths (e.build filters) := by
  intro h
  have hfalse := h .partner [("username", .str "")] "username" "username"
    (by decide) (by decide)
  revert hfalse
  decide

/-- Claim C8, amended. For each builder and every recognised key whose guard
fires (the key is present with a truthy value, or it is one of the boolean
keys `verified`, `isActive`, `isVerified` and is present with any value), the
returned filter contains a clause on the path the key maps to. -/
theorem firing_key_adds_clause (e : Entity) (filters : Query) (key path : String)
    (hkp : (key, path) ∈ e.keyPaths) (hfire : guardFires e filters key = true) :
    ∃ c, (path, c) ∈ e.build filters := by
  have hmem := firing_key_has_path e filters key path hkp hfire
  simp only [paths, List.mem_map] at hmem
  obtain ⟨⟨p, c⟩, hpc, rfl⟩ := hmem
  exact ⟨c, hpc⟩

/-- Claim C8, amended, at the order builder with `?location=Pune`. -/
theorem firing_key_adds_clause_witness :
    ∃ c, ("location.address.city", c) ∈ Entity.order.build [("location", .str "Pune")] :=
  firing_key_adds_clause .order [("location", .str "Pune")] "location" "location.address.city"
    (by decide) (by decide)

/-! ## Unknown keys -/

theorem truthyGet_congr (f g : Query) (key : String) (h : f.lookup key = g.lookup key) :
    truthyGet f key = truthyGet g key := by
  simp [truthyGet, h]

theorem ifTruthy_congr (f g : Query) (key path : String)
    (mk : QVal → Option Clause → Clause) (q r : Fields)
    (h : f.lookup key = g.lookup key) (hq : q = r) :
    ifTruthy f key path mk q = ifTruthy g key path mk r := by
  simp [ifTruthy, truthyGet_congr f g key h, hq]

theorem ifDefined_congr (f g : Query) (key path : String) (q r : Fields)
    (h : f.lookup key = g.lookup key) (hq : q = r) :
    ifDefined f key path q = ifDefined g key path r := by
  simp [ifDefined, h, hq]

theorem dateRange_congr (f g : Query) (lo hi path : String) (q r : Fields)
    (hlo : f.lookup lo = g.lookup lo) (hhi : f.lookup hi = g.lookup hi) (hq : q = r) :
    dateRange f lo hi path q = dateRange g lo hi path r := by
  simp [dateRange, truthyGet_congr f g lo hlo, truthyGet_congr f g hi hhi, hq]

/-- Claim C9. For each builder, two filters objects that agree on every
recognised key yield equal filters; the builders are total functions, so no
input raises an error, and keys outside the recognised set never influence the
result. -/
theorem builder_ignores_unknown_keys (e : Entity) (f g : Query)
    (hagree : ∀ kp ∈ e.keyPaths, f.lookup kp.1 = g.lookup kp.1) :
    e.build f = e.build g := by
  have hk : ∀ key, key ∈ e.keyPaths.map Prod.fst → f.lookup key = g.lookup key := by
    intro key h
    obtain ⟨kp, hkp, rfl⟩ := List.mem_map.mp h
    exact hagree kp hkp
  cases e
  · simp only [Entity.build, buildPartnerFilterQuery]
    repeat first
      | rfl
      | apply dateRange_congr f g _ _ _ _ _ (hk _ (by decide)) (hk _ (by decide))
      | apply ifDefined_congr f g _ _ _ _ (hk _ (by decide))
      | apply ifTruthy_congr f g _ _ _ _ _ (hk _ (by decide))
  · simp only [Entity.build, buildFilterQuery]
    repeat first
      | rfl
      | apply dateRange_congr f g _ _ _ _ _ (hk _ (by decide)) (hk _ (by decide))
      | apply ifDefined_congr f g _ _ _ _ (hk _ (by decide))
      | apply ifTruthy_congr f g _ _ _ _ _ (hk _ (by decide))
  · simp only [Entity.build, buildOrderFilterQuery]
    repeat first
      | rfl
      | apply dateRange_congr f g _ _ _ _ _ (hk _ (by decide)) (hk _ (by decide))
      | apply ifTruthy_congr f g _ _ _ _ _ (hk _ (by decide))

/-- Claim C9 at two partner queries that differ only in the unknown keys
`foo` and `constructor`. -/
theorem builder_ignores_unknown_keys_witness :
    Entity.partner.build [("foo", .str "1"), ("city", .str "Pune")] =
      Entity.partner.build [("city", .str "Pune"), ("constructor", .arr "a" ["b"])] :=
  builder_ignores_unknown_keys .partner [("foo", .str "1"), ("city", .str "Pune")]
    [("city", .str "Pune"), ("constructor", .arr "a" ["b"])] (by decide)

/-! ## Range pairs -/

theorem lookup_cons_eq (x k : String) (c : Clause) (rest : Fields) :
    List.lookup x ((k, c) :: rest) = if x = k then some c else rest.lookup x := by
  by_cases hx : x = k
  · subst hx
    simp
  · have hb : (x == k) = false := by simpa using hx
    simp [List.lookup, hb, hx]

theorem lookup_setPath (query : Fields) (path : String) (c : Clause) (x : String) :
    (setPath query path c).lookup x = if x = path then some c else query.lookup x := by
  induction query with
  | nil =>
    have hset : setPath [] path c = [(path, c)] := rfl
    rw [hset, lookup_cons_eq]
  | cons qd rest ih =>
    obtain ⟨q, d⟩ := qd
    unfold setPath
    by_cases hq : q = path
    · subst hq
      simp only [if_true, lookup_cons_eq]
      by_cases hx : x = q <;> simp [hx]
    · simp only [hq, if_false, lookup_cons_eq, ih]
      by_cases hx : x = path
      · subst hx
        have hxq : ¬ x = q := fun h => hq h.symm
        simp [hxq]
      · simp [hx]

theorem lookup_ifTruthy (filters : Query) (key path : String)
    (mk : QVal → Option Clause → Clause) (query : Fields) (x : String) :
    (ifTruthy filters key path mk query).lookup x =
      if x = path then
        match truthyGet filters key with
        | some v => some (mk v (query.lookup path))
        | none => query.lookup path
      else query.lookup x := by
  unfold ifTruthy
  cases truthyGet filters key with
  | none => by_cases hx : x = path <;> simp [hx]
  | some v => by_cases hx : x = path <;> simp [hx, lookup_setPath]

theorem lookup_ifDefined_ne (filters : Query) (key path : String) (query : Fields)
    (x : String) (hx : x ≠ path) :
    (ifDefined filters key path query).lookup x = query.lookup x := by
  unfold ifDefined
  cases filters.lookup key with
  | none => rfl
  | some v => simp [lookup_setPath, hx]

theorem lookup_dateRange (filters : Query) (lo hi path : String) (query : Fields)
    (x : String) :
    (dateRange filters lo hi path query).lookup x =
      if x = path then
        if (truthyGet filters lo).isSome || (truthyGet filters hi).isSome then
          some (.range ((truthyGet filters lo).map Operand.date)
            ((truthyGet filters hi).map Operand.date))
        else query.lookup path
      else query.lookup x := by
  unfold dateRange
  by_cases hx : x = path
  · subst hx
    split <;> simp [lookup_setPath]
  · split <;> simp [lookup_setPath, hx]

theorem nodup_setPath (query : Fields) (path : String) (c : Clause)
    (h : (paths query).Nodup) : (paths (setPath query path c)).Nodup := by
  induction query with
  | nil => simp [setPath, paths]
  | cons qd rest ih =>
    obtain ⟨q, d⟩ := qd
    have hq : q ∉ paths rest ∧ (paths rest).Nodup := by
      simpa [paths] using h
    unfold setPath
    split
    · simpa [paths] using h
    · rename_i hne
      have hnot : q ∉ paths (setPath rest path c) := by
        rw [mem_paths_setPath]
        rintro (h' | h')
        · exact hq.1 h'
        · exact hne h'
      have := ih hq.2
      simp only [paths, List.map_cons, List.nodup_cons] at hnot this ⊢
      exact ⟨hnot, this⟩

theorem nodup_ifTruthy (filters : Query) (key path : String)
    (mk : QVal → Option Clause → Clause) (query : Fields) (h : (paths query).Nodup) :
    (paths (ifTruthy filters key path mk query)).Nodup := by
  unfold ifTruthy
  cases truthyGet filters key with
  | none => exact h
  | some v => exact nodup_setPath _ _ _ h

theorem nodup_ifDefined (filters : Query) (key path : String) (query : Fields)
    (h : (paths query).Nodup) : (paths (ifDefined filters key path query)).Nodup := by
  unfold ifDefined
  cases filters.lookup key with
  | none => exact h
  | some v => exact nodup_setPath _ _ _ h

theorem nodup_dateRange (filters : Query) (lo hi path : String) (query : Fields)
    (h : (paths query).Nodup) : (paths (dateRange filters lo hi path query)).Nodup := by
  unfold dateRange
  split
  · exact nodup_setPath _ _ _ h
  · exact h

/-- A built filter holds at most one clause per path. -/
theorem nodup_build (e : Entity) (filters : Query) : (paths (e.build filters)).Nodup := by
  cases e
  · simp only [Entity.build, buildPartnerFilterQuery]
    repeat first
      | exact List.nodup_nil
      | apply nodup_dateRange
      | apply nodup_ifDefined
      | apply nodup_ifTruthy
  · simp only [Entity.build, buildFilterQuery]
    repeat first
      | exact List.nodup_nil
      | apply nodup_dateRange
      | apply nodup_ifDefined
      | apply nodup_ifTruthy
  · simp only [Entity.build, buildOrderFilterQuery]
    repeat first
      | exact List.nodup_nil
      | apply nodup_dateRange
      | apply nodup_ifTruthy

/-- The clause a built filter holds on the path of a range pair. -/
theorem lookup_rangePair (e : Entity) (filters : Query) (lo hi path : String)
    (conv : QVal → Operand) (hpair : (lo, hi, path, conv) ∈ e.rangePairs) :
    (e.build filters).lookup path =
      if (truthyGet filters lo).isSome || (truthyGet filters hi).isSome then
        some (.range ((truthyGet filters lo).map conv) ((truthyGet filters hi).map conv))
      else none := by
  cases e
  · simp only [Entity.rangePairs, List.mem_cons, Prod.mk.injEq, List.mem_singleton,
      List.not_mem_nil, or_false] at hpair
    rcases hpair with ⟨rfl, rfl, rfl, rfl⟩ | ⟨rfl, rfl, rfl, rfl⟩
    · simp [Entity.build, buildPartnerFilterQuery, lookup_ifTruthy, lookup_ifDefined_ne,
        lookup_dateRange]
      cases truthyGet filters "minPrice" <;> cases truthyGet filters "maxPrice" <;>
        simp [Clause.lteOf]
    · simp [Entity.build, buildPartnerFilterQuery, lookup_ifTruthy, lookup_ifDefined_ne,
        lookup_dateRange]
  · simp only [Entity.rangePairs, List.mem_cons, Prod.mk.injEq, List.mem_singleton,
      List.not_mem_nil, or_false] at hpair
    obtain ⟨rfl, rfl, rfl, rfl⟩ := hpair
    simp [Entity.build, buildFilterQuery, lookup_ifTruthy, lookup_ifDefined_ne,
      lookup_dateRange]
  · simp only [Entity.rangePairs, List.mem_cons, Prod.mk.injEq, List.mem_singleton,
      List.not_mem_nil, or_false] at hpair
    rcases hpair with ⟨rfl, rfl, rfl, rfl⟩ | ⟨rfl, rfl, rfl, rfl⟩ | ⟨rfl, rfl, rfl, rfl⟩ |
      ⟨rfl, rfl, rfl, rfl⟩
    · simp [Entity.build, buildOrderFilterQuery, lookup_ifTruthy, lookup_dateRange]
      cases truthyGet filters "minAmount" <;> cases truthyGet filters "maxAmount" <;>
        simp [Clause.gteOf]
    · simp [Entity.build, buildOrderFilterQuery, lookup_ifTruthy, lookup_dateRange]
      cases truthyGet filters "progressMin" <;> cases truthyGet filters "progressMax" <;>
        simp [Clause.gteOf]
    · simp [Entity.build, buildOrderFilterQuery, lookup_ifTruthy, lookup_dateRange]
    · simp [Entity.build, buildOrderFilterQuery, lookup_ifTruthy, lookup_dateRange]

/-- Claim C10. For every range pair of the builders (minPrice/maxPrice,
minAmount/maxAmount, progressMin/progressMax, dateFrom/dateTo,
eventDateFrom/eventDateTo, bookingDateFrom/bookingDateTo), a bound counting as
supplied when its key holds a truthy value: the filter has at most one clause
per path; with both bounds supplied the clause on the pair's path holds both
`$gte` = lower bound and `$lte` = upper bound; with only one supplied it holds
only that bound. -/
theorem range_pair_merges (e : Entity) (filters : Query) (lo hi path : String)
    (conv : QVal → Operand) (hpair : (lo, hi, path, conv) ∈ e.rangePairs) :
    (paths (e.build filters)).Nodup ∧
    (∀ a b, truthyGet filters lo = some a → truthyGet filters hi = some b →
      (e.build filters).lookup path = some (.range (some (conv a)) (some (conv b)))) ∧
    (∀ a, truthyGet filters lo = some a → truthyGet filters hi = none →
      (e.build filters).lookup path = some (.range (some (conv a)) none)) ∧
    (∀ b, truthyGet filters lo = none → truthyGet filters hi = some b →
      (e.build filters).lookup path = some (.range none (some (conv b)))) := by
  have hlook := lookup_rangePair e filters lo hi path conv hpair
  refine ⟨nodup_build e filters, ?_, ?_, ?_⟩
  · intro a b ha hb
    simpa [ha, hb] using hlook
  · intro a ha hb
    simpa [ha, hb] using hlook
  · intro b ha hb
    simpa [ha, hb] using hlook

/-- Claim C10 at `?maxPrice=500&minPrice=100` on the partner builder: both
bounds end up in the single `pricePerDay` clause. -/
theorem range_pair_merges_witness :
    buildPartnerFilterQuery priceBand =
      [("pricePerDay", .range (some (.float (.str "100"))) (some (.float (.str "500"))))] ∧
    (paths (Entity.partner.build priceBand)).Nodup ∧
    (∀ a b, truthyGet priceBand "minPrice" = some a → truthyGet priceBand "maxPrice" = some b →
      (Entity.partner.build priceBand).lookup "pricePerDay" =
        some (.range (some (Operand.float a)) (some (Operand.float b)))) ∧
    (∀ a, truthyGet priceBand "minPrice" = some a → truthyGet priceBand "maxPrice" = none →
      (Entity.partner.build priceBand).lookup "pricePerDay" =
        some (.range (some (Operand.float a)) none)) ∧
    (∀ b, truthyGet priceBand "minPrice" = none → truthyGet priceBand "maxPrice" = some b →
      (Entity.partner.build priceBand).lookup "pricePerDay" =
        some (.range none (some (Operand.float b)))) :=
  ⟨by decide,
    range_pair_merges .partner priceBand "minPrice" "maxPrice" "pricePerDay" Operand.float
      (by simp [Entity.rangePairs])⟩


/-! ## Every page and limit can be requested -/

theorem digitChar_spec (d : Nat) (hd : d < 10) :
    isDecDigit (Char.ofNat (48 + d)) = true ∧ (Char.ofNat (48 + d)).toNat - 48 = d := by
  interval_cases d <;> decide

theorem digitsValue_append (cs : List Char) (c : Char) :
    digitsValue (cs ++ [c]) = 10 * digitsValue cs + (c.toNat - 48) := by
  simp [digitsValue, List.foldl_append]

theorem digitsValue_digits (L : List Nat) (hL : ∀ d ∈ L, d < 10) :
    digitsValue (L.reverse.map fun d => Char.ofNat (48 + d)) = Nat.ofDigits 10 L := by
  induction L with
  | nil => rfl
  | cons d L ih =>
    have hd := (digitChar_spec d (hL d (by simp))).2
    have hrest := ih (fun x hx => hL x (List.mem_cons_of_mem _ hx))
    rw [List.reverse_cons, List.map_append, List.map_singleton, digitsValue_append, hrest, hd,
      Nat.ofDigits_cons]
    omega

theorem numeral_spec (n : Nat) (hn : 1 ≤ n) :
    ∃ c cs, (numeral n).data = c :: cs ∧ isDecDigit c = true ∧
      (c :: cs).all isDecDigit = true ∧ digitsValue (c :: cs) = n := by
  have hne : n ≠ 0 := by omega
  have hdata : (numeral n).data = (Nat.digits 10 n).reverse.map fun d => Char.ofNat (48 + d) := by
    simp [numeral, hne]
  have hlt : ∀ d ∈ Nat.digits 10 n, d < 10 := fun d hd => Nat.digits_lt_base (by omega) hd
  have hall : ((Nat.digits 10 n).reverse.map fun d => Char.ofNat (48 + d)).all isDecDigit
      = true := by
    rw [List.all_eq_true]
    intro c hc
    obtain ⟨d, hd, rfl⟩ := List.mem_map.mp hc
    exact (digitChar_spec d (hlt d (List.mem_reverse.mp hd))).1
  have hval := digitsValue_digits (Nat.digits 10 n) hlt
  rw [Nat.ofDigits_digits] at hval
  cases hcs : (Nat.digits 10 n).reverse.map fun d => Char.ofNat (48 + d) with
  | nil =>
    rw [hcs] at hval
    simp [digitsValue] at hval
    omega
  | cons c cs =>
    rw [hcs] at hall hval
    refine ⟨c, cs, hdata.trans hcs, ?_, hall, hval⟩
    rw [List.all_eq_true] at hall
    exact hall c (by simp)

theorem isInt_numeral (min max : Option Int) (n : Nat) (hn : 1 ≤ n)
    (hmin : ∀ m, min = some m → m ≤ (n : Int)) (hmax : ∀ m, max = some m → (n : Int) ≤ m) :
    isInt min max (numeral n) = true ∧
      parseInt (.str (numeral n)) = some (Int.ofNat (roundDouble n)) := by
  obtain ⟨c, cs, hdata, hc, hall, hval⟩ := numeral_spec n hn
  have hsplit : splitSign (numeral n).data = (false, c :: cs) := by
    rw [hdata]
    exact splitSign_digit c cs hc
  have hnum : toNumberInt (numeral n) = (n : Int) := by
    simp [toNumberInt, hsplit, signed, hval]
  have hparse := parseIntChars_valid (numeral n).data [] (by simp [hsplit])
    (by simpa [hsplit] using hall) (Or.inl rfl)
  constructor
  · simp only [isInt, intLeadingZeroes, hsplit, hnum, Bool.and_eq_true, Bool.not_eq_true',
      List.isEmpty_cons, true_and]
    refine ⟨⟨hall, ?_⟩, ?_⟩
    · cases min with
      | none => rfl
      | some m => simpa using hmin m rfl
    · cases max with
      | none => rfl
      | some m => simpa using hmax m rfl
  · simp only [hsplit, signed, hval] at hparse
    simp only [parseInt, QVal.toJsChars, List.append_nil] at hparse ⊢
    rw [hparse]
    rfl

/-- Every page `p ≥ 1` and limit `1 ≤ l ≤ 100` can be requested in a way that
passes validation on each listing route; the handler reads the page as the
Number value of `p`, which is `p` itself up to 2^53. -/
theorem page_limit_requestable (e : Entity) (lib : Lib) (p l : Nat)
    (hp : 1 ≤ p) (hl : 1 ≤ l) (hl100 : l ≤ 100) :
    validationResult (e.chains lib) (pageRequest p l) = [] ∧
    pageOf (pageRequest p l) = some (Int.ofNat (roundDouble p)) ∧
    limitOf (pageRequest p l) = some (Int.ofNat l) := by
  obtain ⟨hpv, hpp⟩ := isInt_numeral (some 1) none p hp
    (by intro m hm; cases hm; exact_mod_cast hp) (by intro m hm; cases hm)
  obtain ⟨hlv, hlp⟩ := isInt_numeral (some 1) (some 100) l hl
    (by intro m hm; cases hm; exact_mod_cast hl) (by intro m hm; cases hm; exact_mod_cast hl100)
  rw [roundDouble_of_le l (by omega)] at hlp
  refine ⟨?_, ?_, ?_⟩
  · cases e <;>
      simp [validationResult, Entity.chains, pagingChains, Chain.run, pageRequest, List.lookup,
        asArray, QVal.stringify, hpv, hlv]
  · simpa [pageOf, pageRequest, List.lookup] using hpp
  · simpa [limitOf, pageRequest, List.lookup] using hlp


/-! ## Pattern clauses -/

theorem compilePattern_literal (cs : List Char) (h : ∀ c ∈ cs, isRegexMeta c = false) :
    compilePattern cs = some (cs.map Atom.lit) := by
  induction cs with
  | nil => rfl
  | cons c cs ih =>
    have hc : isRegexMeta c = false := h c (List.mem_cons_self _ _)
    have hdot : c ≠ '.' := by
      rintro rfl
      exact absurd hc (by decide)
    have hrest := ih (fun x hx => h x (List.mem_cons_of_mem _ hx))
    simp [compilePattern, hdot, hc, hrest]

theorem matchesHere_literal (p t : List Char) :
    matchesHere (p.map Atom.lit) t = true ↔ p.map Char.toLower <+: t.map Char.toLower := by
  induction p generalizing t with
  | nil => simp [matchesHere]
  | cons x p ih =>
    cases t with
    | nil => simp [matchesHere]
    | cons c cs =>
      simp only [List.map_cons, matchesHere, Atom.accepts, Bool.and_eq_true, beq_iff_eq, ih,
        List.cons_prefix_cons]

theorem matchesSomewhere_literal (p t : List Char) :
    matchesSomewhere (p.map Atom.lit) t = true ↔
      p.map Char.toLower <:+: t.map Char.toLower := by
  induction t with
  | nil =>
    cases p with
    | nil => simp [matchesSomewhere, matchesHere]
    | cons x p => simp [matchesSomewhere, matchesHere]
  | cons c cs ih =>
    rw [matchesSomewhere, Bool.or_eq_true, matchesHere_literal, ih, List.map_cons,
      List.infix_cons_iff]

theorem holdsOnText_literal (v text : String) (h : ∀ c ∈ v.data, isRegexMeta c = false) :
    Clause.holdsOnText (regexI (.str v)) text = some true ↔ ContainsCI text v := by
  simp only [regexI, Clause.holdsOnText, compilePattern_literal v.data h, Option.map_some',
    Option.some.injEq, matchesSomewhere_literal, ContainsCI]

/-- The clause a builder writes for a pattern key. -/
theorem lookup_stringKey (e : Entity) (filters : Query) (key path : String)
    (hkp : (key, path) ∈ e.stringKeyPaths) :
    (e.build filters).lookup path = (truthyGet filters key).map regexI := by
  cases e
  · simp only [Entity.stringKeyPaths, List.mem_cons, Prod.mk.injEq, List.mem_singleton,
      List.not_mem_nil, or_false] at hkp
    rcases hkp with ⟨rfl, rfl⟩ | ⟨rfl, rfl⟩ | ⟨rfl, rfl⟩ | ⟨rfl, rfl⟩ <;>
      simp [Entity.build, buildPartnerFilterQuery, lookup_ifTruthy, lookup_ifDefined_ne,
        lookup_dateRange] <;>
      cases truthyGet filters _ <;> rfl
  · simp only [Entity.stringKeyPaths, List.mem_cons, Prod.mk.injEq, List.mem_singleton,
      List.not_mem_nil, or_false] at hkp
    rcases hkp with ⟨rfl, rfl⟩ | ⟨rfl, rfl⟩ | ⟨rfl, rfl⟩ | ⟨rfl, rfl⟩ <;>
      simp [Entity.build, buildFilterQuery, lookup_ifTruthy, lookup_ifDefined_ne,
        lookup_dateRange] <;>
      cases truthyGet filters _ <;> rfl
  · simp only [Entity.stringKeyPaths, List.mem_cons, Prod.mk.injEq, List.mem_singleton,
      List.not_mem_nil, or_false] at hkp
    rcases hkp with ⟨rfl, rfl⟩ | ⟨rfl, rfl⟩ | ⟨rfl, rfl⟩ <;>
      simp [Entity.build, buildOrderFilterQuery, lookup_ifTruthy, lookup_dateRange] <;>
      cases truthyGet filters _ <;> rfl

/-- Claim C11 as stated fails: for `?username=a.c` the partner builder writes
the pattern clause on `username`, which selects the text `abc` although `abc`
does not contain `a.c`. -/
theorem dot_pattern_matches_without_substring :
    ¬ ∀ (e : Entity) (filters : Query) (key path v text : String) (c : Clause),
      (key, path) ∈ e.stringKeyPaths → truthyGet filters key = some (.str v) →
      (e.build filters).lookup path = some c →
      (c.holdsOnText text = some true ↔ ContainsCI text v) := by
  intro h
  have hiff := h .partner [("username", .str "a.c")] "username" "username" "a.c" "abc"
    (regexI (.str "a.c")) (by decide) (by decide) (by decide)
  have hholds : Clause.holdsOnText (regexI (.str "a.c")) "abc" = some true := by decide
  have hnot : ¬ ContainsCI "abc" "a.c" := by
    unfold ContainsCI
    decide
  exact hnot (hiff.mp hholds)

/-- Claim C11, amended. For every pattern key of the three builders and every
supplied string value `v` without regular-expression metacharacters, the
builder writes the clause `$regex: v, $options: "i"` on the key's path, and
that clause selects a text exactly when the text contains `v` as a substring,
compared case-insensitively. -/
theorem literal_pattern_is_substring (e : Entity) (filters : Query) (key path v text : String)
    (hkp : (key, path) ∈ e.stringKeyPaths)
    (hv : truthyGet filters key = some (.str v))
    (hlit : ∀ c ∈ v.data, isRegexMeta c = false) :
    (e.build filters).lookup path = some (.regex (.str v) "i") ∧
    (Clause.holdsOnText (.regex (.str v) "i") text = some true ↔ ContainsCI text v) := by
  refine ⟨?_, holdsOnText_literal v text hlit⟩
  rw [lookup_stringKey e filters key path hkp, hv]
  rfl

/-- Claim C11, amended, at `?city=del` on the client builder and the text
`New Delhi`. -/
theorem literal_pattern_is_substring_witness :
    (Entity.client.build [("city", .str "del")]).lookup "address.city" =
      some (.regex (.str "del") "i") ∧
    (Clause.holdsOnText (.regex (.str "del") "i") "New Delhi" = some true ↔
      ContainsCI "New Delhi" "del") :=
  literal_pattern_is_substring .client [("city", .str "del")] "city" "address.city" "del"
    "New Delhi" (by decide) (by decide) (by decide)

/-! ## Free-text search -/

/-- The calls a listing handler makes once validation has passed and the
query layer has answered. -/
theorem listHandler_calls {α : Type} (e : Entity) (lib : Lib) (db : Db α) (query : Query)
    (p l : Nat) (hvalid : validationResult (e.chains lib) query = [])
    (hp : pageOf query = some (Int.ofNat p)) (hl : limitOf query = some (Int.ofNat l))
    (hruns : db.rejects (e.filterOf query) = false) :
    (listHandler e lib db query).calls =
      [DbCall.find (e.filterOf query) (sortOptions query) (skipNumber p l) l,
        DbCall.countDocuments (e.filterOf query)] ++
      if e = .order then [DbCall.aggregate (e.filterOf query)] else [] := by
  cases e <;> simp [listHandler, hvalid, hp, hl, hruns]

/-- Claim C12. For a valid listing request answered by the query layer, every
call to the query layer carries one filter: its field clauses are exactly the
builder's clauses on the rest object, and its `$or` is, for a truthy search
term `s`, the list of case-insensitive pattern clauses of `s` over the
entity's fixed search fields, and is absent when `search` is missing or
empty. -/
theorem search_adds_or_clause {α : Type} (e : Entity) (lib : Lib) (db : Db α) (query : Query)
    (hvalid : validationResult (e.chains lib) query = [])
    (hruns : db.rejects (e.filterOf query) = false) :
    (listHandler e lib db query).calls ≠ [] ∧
    (∀ call ∈ (listHandler e lib db query).calls, call.filter = e.filterOf query) ∧
    (e.filterOf query).fields = e.build (restFilters query) ∧
    (∀ s, truthyGet query "search" = some s →
      (e.filterOf query).or = some (e.searchFields.map fun f => (f, Clause.regex s "i"))) ∧
    (truthyGet query "search" = none → (e.filterOf query).or = none) ∧
    Entity.partner.searchFields =
      ["username", "companyName", "email", "locations.city", "shootType", "specialization"] ∧
    Entity.client.searchFields = ["username", "email", "address.city"] ∧
    Entity.order.searchFields =
      ["orderName", "orderId", "eventDetails.eventName", "location.venue",
        "location.address.city"] := by
  obtain ⟨p, hp, _⟩ := valid_page e lib query hvalid
  obtain ⟨l, hl, _, _⟩ := valid_limit e lib query hvalid
  have hcalls := listHandler_calls e lib db query p l hvalid hp hl hruns
  refine ⟨?_, ?_, rfl, ?_, ?_, rfl, rfl, rfl⟩
  · rw [hcalls]
    simp
  · intro call hcall
    rw [hcalls] at hcall
    by_cases he : e = .order
    · simp only [he, if_true, List.mem_append, List.mem_cons, List.mem_singleton,
        List.not_mem_nil, or_false] at hcall
      rcases hcall with (rfl | rfl) | rfl <;> simp [DbCall.filter, he]
    · simp only [he, if_false, List.append_nil, List.mem_cons, List.mem_singleton,
        List.not_mem_nil, or_false] at hcall
      rcases hcall with rfl | rfl <;> rfl
  · intro s hs
    simp [Entity.filterOf, hs, regexI]
  · intro hs
    simp [Entity.filterOf, hs]

/-- Claim C12 at `GET /partners?search=mumbai&verified=true`. -/
theorem search_adds_or_clause_witness :
    Entity.partner.filterOf searchMumbai =
      ⟨[("verified", .eqBool true)],
        some [("username", .regex (.str "mumbai") "i"),
          ("companyName", .regex (.str "mumbai") "i"), ("email", .regex (.str "mumbai") "i"),
          ("locations.city", .regex (.str "mumbai") "i"),
          ("shootType", .regex (.str "mumbai") "i"),
          ("specialization", .regex (.str "mumbai") "i")]⟩ ∧
    (listHandler .partner sampleLib seedPartners searchMumbai).calls ≠ [] ∧
    (∀ call ∈ (listHandler .partner sampleLib seedPartners searchMumbai).calls,
      call.filter = Entity.partner.filterOf searchMumbai) ∧
    (Entity.partner.filterOf searchMumbai).fields =
      Entity.partner.build (restFilters searchMumbai) ∧
    (∀ s, truthyGet searchMumbai "search" = some s →
      (Entity.partner.filterOf searchMumbai).or =
        some (Entity.partner.searchFields.map fun f => (f, Clause.regex s "i"))) ∧
    (truthyGet searchMumbai "search" = none → (Entity.partner.filterOf searchMumbai).or = none) ∧
    Entity.partner.searchFields =
      ["username", "companyName", "email", "locations.city", "shootType", "specialization"] ∧
    Entity.client.searchFields = ["username", "email", "address.city"] ∧
    Entity.order.searchFields =
      ["orderName", "orderId", "eventDetails.eventName", "location.venue",
        "location.address.city"] :=
  ⟨by decide,
    search_adds_or_clause .partner sampleLib seedPartners searchMumbai (by decide) (by decide)⟩

/-! ## Sorting -/

theorem mem_insertBy {α : Type} (le : α → α → Bool) (a x : α) (xs : List α) :
    x ∈ insertBy le a xs ↔ x = a ∨ x ∈ xs := by
  induction xs with
  | nil => simp [insertBy]
  | cons b bs ih =>
    unfold insertBy
    split
    · simp
    · simp only [List.mem_cons, ih]
      tauto

theorem mem_sortDocs {α : Type} (le : α → α → Bool) (x : α) (xs : List α) :
    x ∈ sortDocs le xs ↔ x ∈ xs := by
  induction xs with
  | nil => simp [sortDocs]
  | cons b bs ih =>
    have hstep : sortDocs le (b :: bs) = insertBy le b (sortDocs le bs) := rfl
    rw [hstep, mem_insertBy, ih, List.mem_cons]

theorem pairwise_insertBy {α : Type} (r : α → α → Prop) (le : α → α → Bool)
    (hle : ∀ a b, le a b = true → r a b) (hnle : ∀ a b, le a b = false → r b a)
    (htrans : ∀ a b c, r a b → r b c → r a c) (a : α) (xs : List α)
    (h : xs.Pairwise r) : (insertBy le a xs).Pairwise r := by
  induction xs with
  | nil => simp [insertBy]
  | cons b bs ih =>
    obtain ⟨hb, hbs⟩ := List.pairwise_cons.mp h
    unfold insertBy
    split
    · rename_i hab
      refine List.pairwise_cons.mpr ⟨?_, h⟩
      intro x hx
      rcases List.mem_cons.mp hx with rfl | hx
      · exact hle _ _ hab
      · exact htrans _ _ _ (hle _ _ hab) (hb x hx)
    · rename_i hab
      refine List.pairwise_cons.mpr ⟨?_, ih hbs⟩
      intro x hx
      rcases (mem_insertBy le a x bs).mp hx with rfl | hx
      · exact hnle _ _ (by simpa using hab)
      · exact hb x hx

theorem pairwise_sortDocs {α : Type} (r : α → α → Prop) (le : α → α → Bool)
    (hle : ∀ a b, le a b = true → r a b) (hnle : ∀ a b, le a b = false → r b a)
    (htrans : ∀ a b c, r a b → r b c → r a c) (xs : List α) :
    (sortDocs le xs).Pairwise r := by
  induction xs with
  | nil => simp [sortDocs]
  | cons b bs ih => exact pairwise_insertBy r le hle hnle htrans b _ ih

/-- The single-key sort specification of a listing request. -/
theorem sortOptions_shape (query : Query) :
    ∃ key, sortOptions query =
      [(key, if query.lookup "sortOrder" = some (.str "asc") then 1 else -1)] :=
  ⟨_, rfl⟩

/-- Claim C13. For a valid `GET /partners` request with `sortBy=pricePerDay`
and `sortOrder=asc`, answered by a database that orders documents by
`pricePerDay` under the specification `pricePerDay: 1`, the sort handed to
the query is that specification and the returned partners are in
non-decreasing order of `pricePerDay`. For every request the specification
has a single key, `sortBy` (default `createdAt`), whose direction is `1`
exactly when `sortOrder` is the string `asc` and `-1` otherwise. -/
theorem ascending_price_sort {α κ : Type} [LinearOrder κ] (lib : Lib) (db : Db α)
    (query : Query) (price : α → κ)
    (hvalid : validationResult (Entity.partner.chains lib) query = [])
    (hby : query.lookup "sortBy" = some (.str "pricePerDay"))
    (horder : query.lookup "sortOrder" = some (.str "asc"))
    (hruns : db.rejects (Entity.partner.filterOf query) = false)
    (hsem : ∀ a b, db.le [("pricePerDay", 1)] a b = decide (price a ≤ price b)) :
    sortOptions query = [("pricePerDay", 1)] ∧
    (∃ skip limit, DbCall.find (Entity.partner.filterOf query) [("pricePerDay", 1)] skip limit ∈
      (listHandler .partner lib db query).calls) ∧
    (∃ data, (listHandler .partner lib db query).response.data = some data ∧
      data.Pairwise (fun a b => price a ≤ price b)) ∧
    (∀ q : Query, ∃ key dir, sortOptions q = [(key, dir)] ∧
      (dir = 1 ↔ q.lookup "sortOrder" = some (.str "asc")) ∧ (dir = 1 ∨ dir = -1) ∧
      (q.lookup "sortBy" = none → key = "createdAt") ∧
      (∀ s, q.lookup "sortBy" = some (.str s) → key = s)) := by
  have hsort : sortOptions query = [("pricePerDay", 1)] := by
    simp [sortOptions, hby, horder, QVal.toJsChars]
  obtain ⟨p, hp, _⟩ := valid_page .partner lib query hvalid
  obtain ⟨l, hl, _, _⟩ := valid_limit .partner lib query hvalid
  obtain ⟨_, _, hdata, _⟩ := listHandler_run .partner lib db query p l hvalid hp hl hruns
  have hcalls := listHandler_calls .partner lib db query p l hvalid hp hl hruns
  refine ⟨hsort, ⟨skipNumber p l, l, ?_⟩, ⟨_, hdata, ?_⟩, ?_⟩
  · rw [hcalls, hsort]
    simp
  · rw [hsort]
    have hsorted : (db.sortedMatches (Entity.partner.filterOf query)
        [("pricePerDay", 1)]).Pairwise (fun a b => price a ≤ price b) := by
      apply pairwise_sortDocs
      · intro a b hab
        rw [hsem] at hab
        simpa using hab
      · intro a b hab
        rw [hsem] at hab
        have hlt : ¬ price a ≤ price b := by simpa using hab
        exact le_of_lt (lt_of_not_le hlt)
      · intro a b c hab hbc
        exact le_trans hab hbc
    exact (hsorted.sublist (List.drop_sublist _ _)).sublist (List.take_sublist _ _)
  · intro q
    refine ⟨_, _, rfl, ?_, ?_, ?_, ?_⟩
    · by_cases h : q.lookup "sortOrder" = some (.str "asc") <;> simp [h]
    · by_cases h : q.lookup "sortOrder" = some (.str "asc") <;> simp [h]
    · intro h
      simp [h]
    · intro s h
      simp [h, QVal.toJsChars]

/-- Claim C13 at `GET /partners?sortBy=pricePerDay&sortOrder=asc` over the
seeded partners: `photo_pro` (15000) comes before `creative_lens` (20000). -/
theorem ascending_price_sort_witness :
    (listHandler .partner sampleLib seedPartners cheapestFirst).response.data =
      some [⟨"photo_pro", true, true, 15000, 45⟩, ⟨"creative_lens", true, true, 20000, 48⟩] ∧
    sortOptions cheapestFirst = [("pricePerDay", 1)] ∧
    (∃ skip limit,
      DbCall.find (Entity.partner.filterOf cheapestFirst) [("pricePerDay", 1)] skip limit ∈
        (listHandler .partner sampleLib seedPartners cheapestFirst).calls) ∧
    (∃ data, (listHandler .partner sampleLib seedPartners cheapestFirst).response.data =
        some data ∧
      data.Pairwise (fun a b => a.pricePerDay ≤ b.pricePerDay)) ∧
    (∀ q : Query, ∃ key dir, sortOptions q = [(key, dir)] ∧
      (dir = 1 ↔ q.lookup "sortOrder" = some (.str "asc")) ∧ (dir = 1 ∨ dir = -1) ∧
      (q.lookup "sortBy" = none → key = "createdAt") ∧
      (∀ s, q.lookup "sortBy" = some (.str s) → key = s)) :=
  ⟨by decide,
    ascending_price_sort sampleLib seedPartners cheapestFirst PartnerDoc.pricePerDay
      (by decide) (by decide) (by decide) (by decide) (fun _ _ => rfl)⟩

/-- Claim C14. For a valid listing request for the first page with `limit=1`
and `sortOrder=desc`, answered by a database that orders documents by
descending sort key under the request's sort specification: the direction
handed to the query is `-1`, at most one record is returned, exactly one when
some record matches, and the record returned is a matching record whose sort
key is greater than or equal to that of every matching record. -/
theorem top_record_is_maximal {α κ : Type} [LinearOrder κ] (e : Entity) (lib : Lib)
    (db : Db α) (query : Query) (key : α → κ)
    (hvalid : validationResult (e.chains lib) query = [])
    (hpage : pageOf query = some (Int.ofNat 1)) (hlimit : limitOf query = some (Int.ofNat 1))
    (horder : query.lookup "sortOrder" = some (.str "desc"))
    (hruns : db.rejects (e.filterOf query) = false)
    (hsem : ∀ a b, db.le (sortOptions query) a b = decide (key b ≤ key a)) :
    (sortOptions query).map Prod.snd = [-1] ∧
    ∃ data, (listHandler e lib db query).response.data = some data ∧
      data.length ≤ 1 ∧
      ((∃ m ∈ db.docs, db.holds (e.filterOf query) m = true) → data.length = 1) ∧
      ∀ r ∈ data, r ∈ db.docs ∧ db.holds (e.filterOf query) r = true ∧
        ∀ m ∈ db.docs, db.holds (e.filterOf query) m = true → key m ≤ key r := by
  obtain ⟨_, _, hdata, _⟩ := listHandler_run e lib db query 1 1 hvalid hpage hlimit hruns
  have hskip : skipNumber 1 1 = 0 := by decide
  rw [hskip] at hdata
  have hsorted : (db.sortedMatches (e.filterOf query) (sortOptions query)).Pairwise
      (fun a b => key b ≤ key a) := by
    apply pairwise_sortDocs
    · intro a b hab
      rw [hsem] at hab
      simpa using hab
    · intro a b hab
      rw [hsem] at hab
      have hlt : ¬ key b ≤ key a := by simpa using hab
      exact le_of_lt (lt_of_not_le hlt)
    · intro a b c hab hbc
      exact le_trans hbc hab
  have hmem : ∀ m, m ∈ db.sortedMatches (e.filterOf query) (sortOptions query) ↔
      m ∈ db.docs ∧ db.holds (e.filterOf query) m = true := by
    intro m
    simp [Db.sortedMatches, mem_sortDocs, List.mem_filter]
  refine ⟨by simp [sortOptions, horder], _, hdata, ?_, ?_, ?_⟩
  · simp only [Db.find, List.length_take]
    omega
  · rintro ⟨m, hm, hholds⟩
    have hin := (hmem m).mpr ⟨hm, hholds⟩
    have hpos : 0 < (db.sortedMatches (e.filterOf query) (sortOptions query)).length :=
      List.length_pos_of_mem hin
    simp only [Db.find, Nat.sub_self, Nat.zero_mul, List.drop_zero, List.length_take]
    omega
  · intro r hr
    simp only [Db.find, Nat.sub_self, Nat.zero_mul, List.drop_zero] at hr
    cases hs : db.sortedMatches (e.filterOf query) (sortOptions query) with
    | nil => simp [hs] at hr
    | cons x rest =>
      rw [hs] at hr hsorted
      have hrx : r = x := by simpa using hr
      subst hrx
      have hrin := (hmem r).mp (by rw [hs]; exact List.mem_cons_self _ _)
      refine ⟨hrin.1, hrin.2, ?_⟩
      intro m hm hholds
      have hmin := (hmem m).mpr ⟨hm, hholds⟩
      rw [hs] at hmin
      rcases List.mem_cons.mp hmin with rfl | hmrest
      · exact le_refl _
      · exact (List.pairwise_cons.mp hsorted).1 m hmrest

/-- Claim C14, the scenario of the specification: over the seeded partners
`GET /partners?verified=true&sortBy=ratings.average&sortOrder=desc&limit=1`
returns exactly `creative_lens`. -/
theorem top_record_is_maximal_witness :
    (listHandler .partner sampleLib seedPartners topRatedVerified).response.data =
      some [⟨"creative_lens", true, true, 20000, 48⟩] ∧
    Entity.partner.filterOf topRatedVerified = ⟨[("verified", .eqBool true)], none⟩ ∧
    (sortOptions topRatedVerified).map Prod.snd = [-1] ∧
    ∃ data, (listHandler .partner sampleLib seedPartners topRatedVerified).response.data =
        some data ∧
      data.length ≤ 1 ∧
      ((∃ m ∈ seedPartners.docs,
        seedPartners.holds (Entity.partner.filterOf topRatedVerified) m = true) →
          data.length = 1) ∧
      ∀ r ∈ data, r ∈ seedPartners.docs ∧
        seedPartners.holds (Entity.partner.filterOf topRatedVerified) r = true ∧
        ∀ m ∈ seedPartners.docs,
          seedPartners.holds (Entity.partner.filterOf topRatedVerified) m = true →
            m.ratingTenths ≤ r.ratingTenths :=
  ⟨by decide, by decide,
    top_record_is_maximal .partner sampleLib seedPartners topRatedVerified
      PartnerDoc.ratingTenths (by decide) (by decide) (by decide) (by decide) (by decide)
      (fun _ _ => rfl)⟩

/-! ## Registration -/

theorem find_isSome_of_mem {α : Type} (p : α → Bool) (xs : List α) (x : α)
    (hx : x ∈ xs) (hp : p x = true) : ∃ y, xs.find? p = some y := by
  cases h : xs.find? p with
  | some y => exact ⟨y, rfl⟩
  | none =>
    rw [List.find?_eq_none] at h
    exact absurd hp (h x hx)

/-- A register request that passes validation asks for `Client` or `Partner`. -/
theorem registerTarget_of_valid (input : RegisterInput) (h : registerErrors input = []) :
    registerTarget input.body.userType = some .client ∨
      registerTarget input.body.userType = some .partner := by
  unfold registerErrors at h
  by_cases hin : isIn ["Client", "Partner"] input.body.userType = true
  · simp only [isIn, List.contains_eq_any_beq, List.any_cons, List.any_nil, Bool.or_false,
      Bool.or_eq_true, beq_iff_eq] at hin
    rcases hin with h' | h'
    · left
      rw [h']
      decide
    · right
      rw [h']
      decide
  · simp [hin] at h

/-- Claim C15. For a `POST /auth/register` request that passes validation and
names an existing Firebase user, with the database answering: the requested
type is `Client` or `Partner`, and if a record of that collection already
holds the same email, username or Firebase uid, the response is 409 with
`success = false` and the three collections are unchanged. -/
theorem duplicate_registration_conflicts (env : AuthEnv) (store : Store)
    (input : RegisterInput) (c : Coll) (u : User)
    (hvalid : registerErrors input = [])
    (hfirebase : env.hasFirebaseUser input.body.firebaseUid = true)
    (hdb : env.dbThrows = false)
    (htarget : registerTarget input.body.userType = some c)
    (hu : u ∈ store.coll c)
    (hdup : u.email = input.body.email ∨ u.username = input.body.username ∨
      u.firebaseUid = some input.body.firebaseUid) :
    (c = .client ∨ c = .partner) ∧
    (registerHandler env store input).1.status = 409 ∧
    (registerHandler env store input).1.success = false ∧
    (registerHandler env store input).1.user = none ∧
    (registerHandler env store input).2 = store := by
  have hc : c = .client ∨ c = .partner := by
    rcases registerTarget_of_valid input hvalid with h | h
    · left
      rw [htarget] at h
      exact Option.some.inj h
    · right
      rw [htarget] at h
      exact Option.some.inj h
  obtain ⟨y, hy⟩ := find_isSome_of_mem
    (fun u => u.email == input.body.email || u.username == input.body.username ||
      u.firebaseUid == some input.body.firebaseUid) (store.coll c) u hu
    (by rcases hdup with h | h | h <;> simp [h])
  have hfound : findExisting (store.coll c) input.body = some y := hy
  refine ⟨hc, ?_, ?_, ?_, ?_⟩ <;>
    simp [registerHandler, hvalid, hfirebase, hdb, htarget, hfound]

/-- Claim C15 at a client registration reusing the email of an existing
client. -/
theorem duplicate_registration_conflicts_witness :
    (Coll.client = .client ∨ Coll.client = .partner) ∧
    (registerHandler sampleEnv sampleStore duplicateEmail).1.status = 409 ∧
    (registerHandler sampleEnv sampleStore duplicateEmail).1.success = false ∧
    (registerHandler sampleEnv sampleStore duplicateEmail).1.user = none ∧
    (registerHandler sampleEnv sampleStore duplicateEmail).2 = sampleStore :=
  duplicate_registration_conflicts sampleEnv sampleStore duplicateEmail .client
    ⟨"c1", "john_doe", "john@example.com", some "uid-1", true, "Client"⟩
    (by decide) (by decide) (by decide) (by decide) (by decide) (by decide)

/-- A registration with no conflicting record adds exactly one document to
the requested collection. -/
theorem fresh_registration_creates :
    (registerHandler sampleEnv sampleStore
      { duplicateEmail with body := ⟨"Client", "johnny", "johnny@example.com", "uid-2"⟩ }).1.status
      = 201 ∧
    (registerHandler sampleEnv sampleStore
      { duplicateEmail with body := ⟨"Client", "johnny", "johnny@example.com", "uid-2"⟩ }).2
      = sampleStore.insert .client
          ⟨"c2", "johnny", "johnny@example.com", some "uid-2", true, "Client"⟩ := by
  decide

/-! ## Authentication middlewares -/

theorem deny_spec (status : Nat) (message : String) (probes : List Coll) :
    (deny status message probes).next = false ∧ (deny status message probes).user = none ∧
    ∃ r, (deny status message probes).response = some r ∧ r.status = status ∧
      r.success = false :=
  ⟨rfl, rfl, _, rfl, rfl, rfl⟩

/-- The outcomes of `authenticate`: a 401 without `next`, unless the token
verifies, names a known user type, and its id finds an active record. -/
theorem authenticate_cases (env : AuthEnv) (store : Store) (header : Option String) :
    ((authenticate env store header).next = false ∧
      (authenticate env store header).user = none ∧
      ∃ r, (authenticate env store header).response = some r ∧ r.status = 401 ∧
        r.success = false) ∨
    ((authenticate env store header).next = true ∧
      (authenticate env store header).response = none ∧
      ∃ token id userType c u, bearerToken header = some token ∧
        env.verifyJwt token = some (id, userType) ∧ modelFor userType = some c ∧
        env.castsToId id = true ∧ env.dbThrows = false ∧
        findById (store.coll c) id = some u ∧ u.isActive = true ∧
        (authenticate env store header).user = some u) := by
  cases htoken : bearerToken header with
  | none =>
    simp only [authenticate, htoken]
    exact Or.inl (deny_spec _ _ _)
  | some token =>
    cases hverify : env.verifyJwt token with
    | none =>
      simp only [authenticate, htoken, hverify]
      exact Or.inl (deny_spec _ _ _)
    | some decoded =>
      obtain ⟨id, userType⟩ := decoded
      cases hmodel : modelFor userType with
      | none =>
        simp only [authenticate, htoken, hverify, hmodel]
        exact Or.inl (deny_spec _ _ _)
      | some c =>
        by_cases hthrow : (!env.castsToId id || env.dbThrows) = true
        · simp only [authenticate, htoken, hverify, hmodel, hthrow, if_true]
          exact Or.inl (deny_spec _ _ _)
        · have hcast : env.castsToId id = true ∧ env.dbThrows = false := by
            simpa using hthrow
          cases hfind : findById (store.coll c) id with
          | none =>
            simp only [authenticate, htoken, hverify, hmodel, hthrow, hfind]
            exact Or.inl (deny_spec _ _ _)
          | some u =>
            by_cases hactive : u.isActive = true
            · right
              have hg : authenticate env store header = ⟨none, true, some u, [c]⟩ := by
                simp [authenticate, htoken, hverify, hmodel, hcast.1, hcast.2, hfind, hactive]
              rw [hg]
              exact ⟨rfl, rfl, token, id, userType, c, u, rfl, hverify, hmodel, hcast.1,
                hcast.2, hfind, hactive, rfl⟩
            · simp only [authenticate, htoken, hverify, hmodel, hthrow, hfind, hactive]
              exact Or.inl (deny_spec _ _ _)

/-- The outcomes of `authenticateFirebase`: a 401 without `next`, unless the
token verifies and its uid finds an active record. -/
theorem authenticateFirebase_cases (env : AuthEnv) (store : Store) (header : Option String) :
    ((authenticateFirebase env store header).next = false ∧
      (authenticateFirebase env store header).user = none ∧
      ∃ r, (authenticateFirebase env store header).response = some r ∧ r.status = 401 ∧
        r.success = false) ∨
    ((authenticateFirebase env store header).next = true ∧
      (authenticateFirebase env store header).response = none ∧
      ∃ token uid u, bearerToken header = some token ∧
        env.verifyIdToken token = some uid ∧ env.dbThrows = false ∧
        (probeByUid store uid).1 = some u ∧
        u.isActive = true ∧ (authenticateFirebase env store header).user = some u) := by
  cases htoken : bearerToken header with
  | none =>
    simp only [authenticateFirebase, htoken]
    exact Or.inl (deny_spec _ _ _)
  | some token =>
    cases hverify : env.verifyIdToken token with
    | none =>
      simp only [authenticateFirebase, htoken, hverify]
      exact Or.inl (deny_spec _ _ _)
    | some uid =>
      by_cases hthrow : env.dbThrows = true
      · simp only [authenticateFirebase, htoken, hverify, hthrow, if_true]
        exact Or.inl (deny_spec _ _ _)
      · have hdb : env.dbThrows = false := by simpa using hthrow
        rcases hprobe : probeByUid store uid with ⟨found, probes⟩
        cases found with
        | none =>
          simp only [authenticateFirebase, htoken, hverify, hthrow, hprobe]
          exact Or.inl (deny_spec _ _ _)
        | some u =>
          by_cases hactive : u.isActive = true
          · right
            have hg : authenticateFirebase env store header = ⟨none, true, some u, probes⟩ := by
              simp [authenticateFirebase, htoken, hverify, hdb, hprobe, hactive]
            rw [hg]
            exact ⟨rfl, rfl, token, uid, u, rfl, hverify, hdb, by rw [hprobe], hactive, rfl⟩
          · simp only [authenticateFirebase, htoken, hverify, hthrow, hprobe, hactive]
            exact Or.inl (deny_spec _ _ _)

/-- Claim C16. For both authentication middlewares and every request: the
outcome is either a 401 response with `success = false` and no call of `next`,
or a call of `next` with no response and an active user attached to
`req.user`. A missing header, a header that is empty after removing the
`Bearer ` prefix, a token that fails verification, a lookup that finds no
record and a record with `isActive` false all lead to the first outcome; when
`next` is called the attached user is the record found for the verified
token. -/
theorem authentication_denies_or_attaches (env : AuthEnv) (store : Store)
    (header : Option String) :
    (∀ g ∈ [authenticate env store header, authenticateFirebase env store header],
      (g.next = false ∧ g.user = none ∧
        ∃ r, g.response = some r ∧ r.status = 401 ∧ r.success = false) ∨
      (g.next = true ∧ g.response = none ∧ ∃ u, g.user = some u ∧ u.isActive = true)) ∧
    (bearerToken none = none ∧ bearerToken (some "") = none ∧
      bearerToken (some "Bearer ") = none) ∧
    (bearerToken header = none →
      (authenticate env store header).next = false ∧
      (authenticateFirebase env store header).next = false) ∧
    (∀ token, bearerToken header = some token →
      (env.verifyJwt token = none → (authenticate env store header).next = false) ∧
      (env.verifyIdToken token = none →
        (authenticateFirebase env store header).next = false)) ∧
    (∀ token id userType, bearerToken header = some token →
      env.verifyJwt token = some (id, userType) →
      (∀ c, modelFor userType = some c →
        (findById (store.coll c) id = none ∨
          ∃ u, findById (store.coll c) id = some u ∧ u.isActive = false)) →
      (authenticate env store header).next = false) ∧
    (∀ token uid, bearerToken header = some token → env.verifyIdToken token = some uid →
      ((probeByUid store uid).1 = none ∨
        ∃ u, (probeByUid store uid).1 = some u ∧ u.isActive = false) →
      (authenticateFirebase env store header).next = false) ∧
    ((authenticate env store header).next = true →
      ∃ token id userType c u, bearerToken header = some token ∧
        env.verifyJwt token = some (id, userType) ∧ modelFor userType = some c ∧
        findById (store.coll c) id = some u ∧ u.isActive = true ∧
        (authenticate env store header).user = some u) ∧
    ((authenticateFirebase env store header).next = true →
      ∃ token uid u, bearerToken header = some token ∧ env.verifyIdToken token = some uid ∧
        (probeByUid store uid).1 = some u ∧ u.isActive = true ∧
        (authenticateFirebase env store header).user = some u) := by
  have hjwt := authenticate_cases env store header
  have hfb := authenticateFirebase_cases env store header
  have hjwtNext : (authenticate env store header).next = true →
      ∃ token id userType c u, bearerToken header = some token ∧
        env.verifyJwt token = some (id, userType) ∧ modelFor userType = some c ∧
        findById (store.coll c) id = some u ∧ u.isActive = true ∧
        (authenticate env store header).user = some u := by
    intro hnext
    rcases hjwt with ⟨hfalse, _⟩ | ⟨_, _, token, id, userType, c, u, h1, h2, h3, _, _, h4, h5, h6⟩
    · rw [hnext] at hfalse
      cases hfalse
    · exact ⟨token, id, userType, c, u, h1, h2, h3, h4, h5, h6⟩
  have hfbNext : (authenticateFirebase env store header).next = true →
      ∃ token uid u, bearerToken header = some token ∧ env.verifyIdToken token = some uid ∧
        (probeByUid store uid).1 = some u ∧ u.isActive = true ∧
        (authenticateFirebase env store header).user = some u := by
    intro hnext
    rcases hfb with ⟨hfalse, _⟩ | ⟨_, _, token, uid, u, h1, h2, _, h3, h4, h5⟩
    · rw [hnext] at hfalse
      cases hfalse
    · exact ⟨token, uid, u, h1, h2, h3, h4, h5⟩
  have hnot : ∀ b : Bool, ¬ b = true → b = false := by
    intro b hb
    cases b
    · rfl
    · exact absurd rfl hb
  refine ⟨?_, ⟨by decide, by decide, by decide⟩, ?_, ?_, ?_, ?_, hjwtNext, hfbNext⟩
  · intro g hg
    simp only [List.mem_cons, List.mem_singleton, List.not_mem_nil, or_false] at hg
    rcases hg with rfl | rfl
    · rcases hjwt with h | ⟨h1, h2, _, _, _, _, u, _, _, _, _, _, _, h5, h6⟩
      · exact Or.inl h
      · exact Or.inr ⟨h1, h2, u, h6, h5⟩
    · rcases hfb with h | ⟨h1, h2, _, _, u, _, _, _, _, h5, h6⟩
      · exact Or.inl h
      · exact Or.inr ⟨h1, h2, u, h6, h5⟩
  · intro hnone
    constructor
    · apply hnot
      intro hnext
      obtain ⟨token, _, _, _, _, h1, _⟩ := hjwtNext hnext
      rw [hnone] at h1
      cases h1
    · apply hnot
      intro hnext
      obtain ⟨token, _, _, h1, _⟩ := hfbNext hnext
      rw [hnone] at h1
      cases h1
  · intro token htoken
    constructor
    · intro hfail
      apply hnot
      intro hnext
      obtain ⟨token', _, _, _, _, h1, h2, _⟩ := hjwtNext hnext
      rw [htoken] at h1
      cases h1
      rw [hfail] at h2
      cases h2
    · intro hfail
      apply hnot
      intro hnext
      obtain ⟨token', _, _, h1, h2, _⟩ := hfbNext hnext
      rw [htoken] at h1
      cases h1
      rw [hfail] at h2
      cases h2
  · intro token id userType htoken hverify hmiss
    apply hnot
    intro hnext
    obtain ⟨token', id', userType', c, u, h1, h2, h3, h4, h5, _⟩ := hjwtNext hnext
    rw [htoken] at h1
    cases h1
    rw [hverify] at h2
    cases h2
    rcases hmiss c h3 with hnone | ⟨u', hu', hinactive⟩
    · rw [hnone] at h4
      cases h4
    · rw [hu'] at h4
      cases h4
      rw [hinactive] at h5
      cases h5
  · intro token uid htoken hverify hmiss
    apply hnot
    intro hnext
    obtain ⟨token', uid', u, h1, h2, h3, h4, _⟩ := hfbNext hnext
    rw [htoken] at h1
    cases h1
    rw [hverify] at h2
    cases h2
    rcases hmiss with hnone | ⟨u', hu', hinactive⟩
    · rw [hnone] at h3
      cases h3
    · rw [hu'] at h3
      cases h3
      rw [hinactive] at h4
      cases h4

/-- Both middlewares on concrete requests: a verified token of an active
client passes, a missing header, an unverifiable token and an inactive record
are answered 401. -/
theorem authentication_examples :
    (authenticate sampleEnv sampleStore (some "Bearer good")).next = true ∧
    (authenticateFirebase sampleEnv sampleStore (some "Bearer good")).user =
      some ⟨"c1", "john_doe", "john@example.com", some "uid-1", true, "Client"⟩ ∧
    authenticate sampleEnv sampleStore none =
      deny 401 "Access denied. No token provided." [] ∧
    authenticateFirebase sampleEnv sampleStore (some "Bearer expired") =
      deny 401 "Invalid token" [] ∧
    authenticateFirebase { sampleEnv with verifyIdToken := fun _ => some "uid-9" } sampleStore
      (some "Bearer good") =
      deny 401 "User account is inactive" [.client, .partner, .admin] := by
  decide

/-! ## Probing order and authorization -/

theorem findByUid_some (docs : List User) (uid : String) (u : User)
    (h : findByUid docs uid = some u) : u ∈ docs ∧ u.firebaseUid = some uid := by
  unfold findByUid at h
  exact ⟨List.mem_of_find?_eq_some h, by simpa using List.find?_some h⟩

theorem findByUid_none (docs : List User) (uid : String) :
    findByUid docs uid = none ↔ ∀ u ∈ docs, u.firebaseUid ≠ some uid := by
  simp [findByUid, List.find?_eq_none]

/-- Claim C17. For every store and Firebase uid, the chain of lookups selects
the first client holding the uid if there is one, otherwise the first partner
holding it, otherwise the first admin holding it, and it queries a later
collection only when the earlier ones returned nothing. Both
`authenticateFirebase` and `GET /auth/me` query exactly those collections for
a verified token and use the selected record. -/
theorem firebase_probe_order (store : Store) (uid : String) :
    (∀ u, findByUid store.clients uid = some u →
      probeByUid store uid = (some u, [.client])) ∧
    (findByUid store.clients uid = none → ∀ u, findByUid store.partners uid = some u →
      probeByUid store uid = (some u, [.client, .partner])) ∧
    (findByUid store.clients uid = none → findByUid store.partners uid = none →
      probeByUid store uid = (findByUid store.admins uid, [.client, .partner, .admin])) ∧
    (∀ docs u, findByUid docs uid = some u → u ∈ docs ∧ u.firebaseUid = some uid) ∧
    (∀ docs, findByUid docs uid = none ↔ ∀ u ∈ docs, u.firebaseUid ≠ some uid) ∧
    (∀ (env : AuthEnv) (header : Option String) (token : String),
      bearerToken header = some token → env.verifyIdToken token = some uid →
      env.dbThrows = false →
      (authenticateFirebase env store header).probes = (probeByUid store uid).2 ∧
      (meHandler env store header).2 = (probeByUid store uid).2 ∧
      (∀ u, (probeByUid store uid).1 = some u → u.isActive = true →
        (authenticateFirebase env store header).user = some u ∧
        (meHandler env store header).1.user = some u ∧
        (meHandler env store header).1.status = 200)) := by
  refine ⟨?_, ?_, ?_, fun docs u h => findByUid_some docs uid u h,
    fun docs => findByUid_none docs uid, ?_⟩
  · intro u h
    simp [probeByUid, h]
  · intro h1 u h2
    simp [probeByUid, h1, h2]
  · intro h1 h2
    simp [probeByUid, h1, h2]
  · intro env header token htoken hverify hdb
    rcases hprobe : probeByUid store uid with ⟨found, probes⟩
    cases found with
    | none =>
      refine ⟨?_, ?_, ?_⟩
      · simp [authenticateFirebase, htoken, hverify, hdb, hprobe, deny]
      · simp [meHandler, htoken, hverify, hdb, hprobe]
      · intro u hu
        cases hu
    | some v =>
      by_cases hactive : v.isActive = true
      · refine ⟨?_, ?_, ?_⟩
        · simp [authenticateFirebase, htoken, hverify, hdb, hprobe, hactive]
        · simp [meHandler, htoken, hverify, hdb, hprobe, hactive]
        · intro u hu _
          have huv : v = u := by simpa using hu
          subst huv
          simp [authenticateFirebase, meHandler, htoken, hverify, hdb, hprobe, hactive]
      · have hinactive : v.isActive = false := by simpa using hactive
        refine ⟨?_, ?_, ?_⟩
        · simp [authenticateFirebase, htoken, hverify, hdb, hprobe, hinactive, deny]
        · simp [meHandler, htoken, hverify, hdb, hprobe, hinactive]
        · intro u hu hu'
          have huv : v = u := by simpa using hu
          subst huv
          rw [hinactive] at hu'
          cases hu'

/-- The chain of lookups on the sample store, where a client and a partner
share the uid: the client is selected and only the client collection is
queried. -/
theorem firebase_probe_example :
    probeByUid sampleStore "uid-1" =
      (some ⟨"c1", "john_doe", "john@example.com", some "uid-1", true, "Client"⟩, [.client]) ∧
    probeByUid sampleStore "uid-9" =
      (some ⟨"a1", "admin", "admin@pixisphere.com", some "uid-9", false, "SuperAdmin"⟩,
        [.client, .partner, .admin]) ∧
    probeByUid sampleStore "uid-0" = (none, [.client, .partner, .admin]) := by
  decide

/-- Claim C18. For every allow-list of roles and every request, the
middleware returned by `authorize` calls `next` exactly when `req.user` is set
and its `userType` is one of the roles; without `req.user` it answers 401, and
with a user whose type is not listed it answers 403, in both cases with
`success = false` and without calling `next`. -/
theorem authorize_allows_listed_roles (roles : List String) (user : Option User) :
    ((authorize roles user).next = true ↔ ∃ u, user = some u ∧ u.userType ∈ roles) ∧
    ((authorize roles user).next = true → (authorize roles user).response = none) ∧
    (user = none →
      (authorize roles user).next = false ∧
      ∃ r, (authorize roles user).response = some r ∧ r.status = 401 ∧ r.success = false) ∧
    (∀ u, user = some u → u.userType ∉ roles →
      (authorize roles user).next = false ∧
      ∃ r, (authorize roles user).response = some r ∧ r.status = 403 ∧ r.success = false) := by
  cases user with
  | none =>
    refine ⟨?_, ?_, ?_, ?_⟩
    · simp [authorize, deny]
    · simp [authorize, deny]
    · intro _
      exact ⟨rfl, _, rfl, rfl, rfl⟩
    · intro u hu
      cases hu
  | some v =>
    by_cases hrole : v.userType ∈ roles
    · have hcontains : roles.contains v.userType = true := by simpa using hrole
      refine ⟨?_, ?_, ?_, ?_⟩
      · simp [authorize, hcontains, hrole]
      · simp [authorize, hcontains, hrole]
      · intro h
        cases h
      · intro u hu hnot
        cases hu
        exact absurd hrole hnot
    · have hcontains : roles.contains v.userType = false := by simpa using hrole
      refine ⟨?_, ?_, ?_, ?_⟩
      · simp [authorize, hcontains, hrole]
      · simp [authorize, hcontains, hrole]
      · intro h
        cases h
      · intro u hu _
        cases hu
        simp [authorize, hcontains, hrole]

/-- The middleware `authorize("Admin")` on the sample users: the client is
answered 403, and so is the seeded admin, whose `userType` is `SuperAdmin`. -/
theorem authorize_examples :
    (authorize ["Client", "Partner"]
      (some ⟨"c1", "john_doe", "john@example.com", some "uid-1", true, "Client"⟩)).next = true ∧
    ((authorize ["Admin"]
      (some ⟨"c1", "john_doe", "john@example.com", some "uid-1", true, "Client"⟩)).response.map
        fun r => r.status) = some 403 ∧
    ((authorize ["Admin"] none).response.map fun r => r.status) = some 401 := by
  decide

/-! ## The final error-handling middleware -/

/-- Claim C20. For every error object reaching the final middleware: the name
`ValidationError` yields 400 with the list of its field messages; otherwise
the code 11000 yields 409 with the message made of the first duplicated field
followed by ` already exists`; otherwise the name `JsonWebTokenError` yields
401 `Invalid token`; every other error yields 500; and every response has
`success = false`. -/
theorem error_middleware_mapping (nodeEnv : Option String) (err : AppError) :
    (err.name = "ValidationError" →
      (errorMiddleware nodeEnv err).status = 400 ∧
      (errorMiddleware nodeEnv err).errors = some (err.errors.map Prod.snd)) ∧
    (err.name ≠ "ValidationError" → err.code = some 11000 →
      (errorMiddleware nodeEnv err).status = 409 ∧
      ∀ field value rest, err.keyValue = (field, value) :: rest →
        (errorMiddleware nodeEnv err).message = field ++ " already exists") ∧
    (err.code ≠ some 11000 → err.name = "JsonWebTokenError" →
      (errorMiddleware nodeEnv err).status = 401 ∧
      (errorMiddleware nodeEnv err).message = "Invalid token") ∧
    (err.name ≠ "ValidationError" → err.code ≠ some 11000 →
      err.name ≠ "JsonWebTokenError" → (errorMiddleware nodeEnv err).status = 500) ∧
    (errorMiddleware nodeEnv err).success = false := by
  refine ⟨?_, ?_, ?_, ?_, ?_⟩
  · intro h
    simp [errorMiddleware, h]
  · intro h1 h2
    refine ⟨by simp [errorMiddleware, h1, h2], ?_⟩
    intro field value rest hkv
    simp [errorMiddleware, h1, h2, hkv]
  · intro h1 h2
    have hname : err.name ≠ "ValidationError" := by
      rw [h2]
      decide
    simp [errorMiddleware, hname, h1, h2]
  · intro h1 h2 h3
    simp [errorMiddleware, h1, h2, h3]
  · unfold errorMiddleware
    split
    · rfl
    · split
      · rfl
      · split <;> rfl

/-- The final middleware on a schema validation error, a duplicate `email`
key, a malformed token and an unknown error. -/
theorem error_middleware_examples :
    errorMiddleware none ⟨"ValidationError", none, [("email", "Please enter a valid email")],
        [], "Client validation failed"⟩ =
      { status := 400, success := false, message := "Validation Error",
        errors := some ["Please enter a valid email"] } ∧
    errorMiddleware none ⟨"MongoServerError", some 11000, [], [("email", "john@example.com")],
        "E11000 duplicate key error"⟩ =
      { status := 409, success := false, message := "email already exists" } ∧
    errorMiddleware none ⟨"JsonWebTokenError", none, [], [], "jwt malformed"⟩ =
      { status := 401, success := false, message := "Invalid token" } ∧
    errorMiddleware (some "production") ⟨"TypeError", none, [], [], "x is not a function"⟩ =
      { status := 500, success := false, message := "Internal server error",
        error := some "Something went wrong" } := by
  decide

/-! ## The response envelope -/

/-- Claim C19 as stated fails: the health endpoint answers with a body that
has no `success` property (status 200). -/
theorem health_body_has_no_success :
    ¬ ∀ s ∈ responseSites, ∃ b, s.success = some b ∧ (is2xx s.status = true ↔ b = true) := by
  intro h
  obtain ⟨b, hb, _⟩ := h (Site.mk "server.js" 72 "GET /api/health" 200 none) (by decide)
  cases hb

/-- Claim C19, amended. Every response site of the application other than the
health endpoint, the root endpoint and `POST /api/books` sends a body with a
boolean `success`, and its status is in the 2xx range exactly when `success`
is true; those three endpoints send bodies without a `success` property. -/
theorem envelope_mirrors_status (s : Site) (hs : s ∈ responseSites) :
    (s.route ∉ plainRoutes →
      ∃ b, s.success = some b ∧ (200 ≤ s.status ∧ s.status < 300 ↔ b = true)) ∧
    (s.route ∈ plainRoutes → s.success = none) := by
  have hall : responseSites.all (fun s =>
      if s.route ∈ plainRoutes then s.success == none else s.mirrors) = true := by
    decide
  have hthis := List.all_eq_true.mp hall s hs
  constructor
  · intro hplain
    simp only [hplain, if_false, Site.mirrors] at hthis
    cases hsucc : s.success with
    | none => simp [hsucc] at hthis
    | some b =>
      refine ⟨b, rfl, ?_⟩
      simp only [hsucc, is2xx, beq_iff_eq] at hthis
      rw [← hthis]
      simp
  · intro hplain
    simp only [hplain, if_true, beq_iff_eq] at hthis
    exact hthis

/-- Claim C19, amended, at the 404 handler. -/
theorem envelope_mirrors_status_witness :
    ("404 handler" ∉ plainRoutes →
      ∃ b, (some false : Option Bool) = some b ∧ (200 ≤ 404 ∧ 404 < 300 ↔ b = true)) ∧
    ("404 handler" ∈ plainRoutes → (some false : Option Bool) = none) :=
  envelope_mirrors_status (Site.mk "server.js" 131 "404 handler" 404 (some false)) (by decide)

/-- The bodies without a `success` property: status 200 for the health and
root endpoints, 501 for `POST /api/books`. -/
theorem plain_sites :
    responseSites.filter (fun s => s.success == none) =
      [Site.mk "server.js" 72 "GET /api/health" 200 none,
       Site.mk "server.js" 83 "GET /" 200 none,
       Site.mk "app/api/books/route.ts" 148 "POST /api/books" 501 none] := by
  decide

/-- The three outcomes of a listing handler. -/
theorem listHandler_outcomes {α : Type} (e : Entity) (lib : Lib) (db : Db α) (query : Query) :
    ((listHandler e lib db query).response.status = 400 ∧
      (listHandler e lib db query).response.success = false) ∨
    ((listHandler e lib db query).response.status = 200 ∧
      (listHandler e lib db query).response.success = true) ∨
    ((listHandler e lib db query).response.status = 500 ∧
      (listHandler e lib db query).response.success = false) := by
  by_cases hv : validationResult (e.chains lib) query = []
  · obtain ⟨p, hp, _⟩ := valid_page e lib query hv
    obtain ⟨l, hl, _, _⟩ := valid_limit e lib query hv
    by_cases hr : db.rejects (e.filterOf query) = true
    · right
      right
      simp [listHandler, hv, hp, hl, hr, serverError]
    · have hruns : db.rejects (e.filterOf query) = false := by simpa using hr
      obtain ⟨hst, hsu, _, _⟩ := listHandler_run e lib db query p l hv hp hl hruns
      exact Or.inr (Or.inl ⟨hst, hsu⟩)
  · left
    have hne : (validationResult (e.chains lib) query).isEmpty = false := by
      cases hres : validationResult (e.chains lib) query with
      | nil => exact absurd hres hv
      | cons a rest => rfl
    simp [listHandler, hne, badRequest]

/-- The outcomes of the partner search handler. -/
theorem searchHandler_outcomes {α : Type} (db : Db α) (query : Query) :
    ((searchHandler db query).response.status = 200 ∧
      (searchHandler db query).response.success = true) ∨
    ((searchHandler db query).response.status = 500 ∧
      (searchHandler db query).response.success = false) := by
  by_cases hd : (truthyGet query "date").isSome = true
  · right
    simp [searchHandler, hd, serverError]
  · by_cases hr : db.rejects (searchFilter query) = true
    · right
      simp [searchHandler, hd, hr, serverError]
    · left
      simp [searchHandler, hd, hr]

/-- The outcomes of the register handler. -/
theorem registerHandler_outcomes (env : AuthEnv) (store : Store) (input : RegisterInput) :
    ((registerHandler env store input).1.status = 201 ∧
      (registerHandler env store input).1.success = true) ∨
    ((registerHandler env store input).1.status ∈ [400, 409, 500] ∧
      (registerHandler env store input).1.success = false) := by
  by_cases hv : (registerErrors input).isEmpty = true
  · by_cases hf : env.hasFirebaseUser input.body.firebaseUid = true
    · cases ht : registerTarget input.body.userType with
      | none => right; simp [registerHandler, hv, hf, ht]
      | some c =>
        by_cases hdb : env.dbThrows = true
        · right; simp [registerHandler, hv, hf, ht, hdb]
        · cases hfound : findExisting (store.coll c) input.body with
          | some u => right; simp [registerHandler, hv, hf, ht, hdb, hfound]
          | none =>
            cases hsave : input.saveFailure with
            | some d => right; simp [registerHandler, hv, hf, ht, hdb, hfound, hsave]
            | none => left; simp [registerHandler, hv, hf, ht, hdb, hfound, hsave]
    · right; simp [registerHandler, hv, hf]
  · right; simp [registerHandler, hv]

/-- The outcomes of `GET /auth/me`. -/
theorem meHandler_outcomes (env : AuthEnv) (store : Store) (header : Option String) :
    ((meHandler env store header).1.status = 200 ∧
      (meHandler env store header).1.success = true) ∨
    ((meHandler env store header).1.status = 401 ∧
      (meHandler env store header).1.success = false) := by
  cases htoken : bearerToken header with
  | none => right; simp [meHandler, htoken]
  | some token =>
    cases hverify : env.verifyIdToken token with
    | none => right; simp [meHandler, htoken, hverify]
    | some uid =>
      by_cases hdb : env.dbThrows = true
      · right; simp [meHandler, htoken, hverify, hdb]
      · rcases hprobe : probeByUid store uid with ⟨found, probes⟩
        cases found with
        | none => right; simp [meHandler, htoken, hverify, hdb, hprobe]
        | some u =>
          by_cases hactive : u.isActive = true
          · left; simp [meHandler, htoken, hverify, hdb, hprobe, hactive]
          · right; simp [meHandler, htoken, hverify, hdb, hprobe, hactive]

/-- The outcomes of the middleware returned by `authorize`. -/
theorem authorize_outcomes (roles : List String) (user : Option User) :
    (authorize roles user).response = none ∨
    ∃ r, (authorize roles user).response = some r ∧ (r.status = 401 ∨ r.status = 403) ∧
      r.success = false := by
  cases user with
  | none => exact Or.inr ⟨_, rfl, Or.inl rfl, rfl⟩
  | some u =>
    by_cases hrole : u.userType ∈ roles
    · left
      simp [authorize, hrole]
    · right
      refine ⟨⟨403, false, "Access denied. Insufficient permissions.", none, none, none⟩, ?_,
        Or.inr rfl, rfl⟩
      simp [authorize, hrole]

/-- The outcomes of the final middleware. -/
theorem errorMiddleware_outcomes (nodeEnv : Option String) (err : AppError) :
    (errorMiddleware nodeEnv err).status ∈ [400, 409, 401, 500] ∧
    (errorMiddleware nodeEnv err).success = false := by
  by_cases h1 : err.name = "ValidationError"
  · simp [errorMiddleware, h1]
  · by_cases h2 : err.code = some 11000
    · simp [errorMiddleware, h1, h2]
    · by_cases h3 : err.name = "JsonWebTokenError"
      · simp [errorMiddleware, h1, h2, h3]
      · simp [errorMiddleware, h1, h2, h3]

/-- Every response of the modelled handlers and middlewares is sent by a
response site of its route with the same status and `success`. -/
theorem modelled_responses_are_sites :
    (∀ (α : Type) (e : Entity) (lib : Lib) (db : Db α) (query : Query),
      siteFor e.route (listHandler e lib db query).response.status
        (listHandler e lib db query).response.success = true) ∧
    (∀ (α : Type) (db : Db α) (query : Query),
      siteFor "GET /api/partners/search" (searchHandler db query).response.status
        (searchHandler db query).response.success = true) ∧
    (∀ env store input,
      siteFor "POST /api/auth/register" (registerHandler env store input).1.status
        (registerHandler env store input).1.success = true) ∧
    (∀ env store header,
      siteFor "GET /api/auth/me" (meHandler env store header).1.status
        (meHandler env store header).1.success = true) ∧
    (∀ env store header r, (authenticate env store header).response = some r →
      siteFor "authenticate" r.status r.success = true) ∧
    (∀ env store header r, (authenticateFirebase env store header).response = some r →
      siteFor "authenticateFirebase" r.status r.success = true) ∧
    (∀ roles user r, (authorize roles user).response = some r →
      siteFor "authorize" r.status r.success = true) ∧
    (∀ nodeEnv err,
      siteFor "error middleware" (errorMiddleware nodeEnv err).status
        (errorMiddleware nodeEnv err).success = true) := by
  refine ⟨?_, ?_, ?_, ?_, ?_, ?_, ?_, ?_⟩
  · intro α e lib db query
    rcases listHandler_outcomes e lib db query with ⟨h1, h2⟩ | ⟨h1, h2⟩ | ⟨h1, h2⟩ <;>
      rw [h1, h2] <;> cases e <;> decide
  · intro α db query
    rcases searchHandler_outcomes db query with ⟨h1, h2⟩ | ⟨h1, h2⟩ <;>
      rw [h1, h2] <;> decide
  · intro env store input
    rcases registerHandler_outcomes env store input with ⟨h1, h2⟩ | ⟨h1, h2⟩
    · rw [h1, h2]
      decide
    · rw [h2]
      simp only [List.mem_cons, List.mem_singleton, List.not_mem_nil, or_false] at h1
      rcases h1 with h1 | h1 | h1 <;> rw [h1] <;> decide
  · intro env store header
    rcases meHandler_outcomes env store header with ⟨h1, h2⟩ | ⟨h1, h2⟩ <;>
      rw [h1, h2] <;> decide
  · intro env store header r hr
    rcases authenticate_cases env store header with ⟨_, _, r', hr', hst, hsu⟩ | ⟨_, hnone, _⟩
    · rw [hr'] at hr
      cases hr
      rw [hst, hsu]
      decide
    · rw [hnone] at hr
      cases hr
  · intro env store header r hr
    rcases authenticateFirebase_cases env store header with
      ⟨_, _, r', hr', hst, hsu⟩ | ⟨_, hnone, _⟩
    · rw [hr'] at hr
      cases hr
      rw [hst, hsu]
      decide
    · rw [hnone] at hr
      cases hr
  · intro roles user r hr
    rcases authorize_outcomes roles user with hnone | ⟨r', hr', hst, hsu⟩
    · rw [hnone] at hr
      cases hr
    · rw [hr'] at hr
      cases hr
      rw [hsu]
      rcases hst with hst | hst <;> rw [hst] <;> decide
  · intro nodeEnv err
    obtain ⟨hst, hsu⟩ := errorMiddleware_outcomes nodeEnv err
    rw [hsu]
    simp only [List.mem_cons, List.mem_singleton, List.not_mem_nil, or_false] at hst
    rcases hst with hst | hst | hst | hst <;> rw [hst] <;> decide

/-! ## Error detail in 500 responses -/

/-- Claim C21. The catch-all middleware hides the error message outside
development, but a listing handler whose query fails answers 500 with the
error message of the failure in `error`, whatever the environment: the
handler has no access to `NODE_ENV`. -/
theorem handler_failure_exposes_error_message {α : Type} (e : Entity) (lib : Lib) (db : Db α)
    (query : Query) (hvalid : validationResult (e.chains lib) query = [])
    (hfail : db.rejects (e.filterOf query) = true) :
    (listHandler e lib db query).response.status = 500 ∧
    (listHandler e lib db query).response.message = "Failed to fetch " ++ e.noun ∧
    (listHandler e lib db query).response.error = some db.failure ∧
    ∀ (nodeEnv : Option String) (err : AppError), nodeEnv ≠ some "development" →
      (errorMiddleware nodeEnv err).status = 500 →
      (errorMiddleware nodeEnv err).error = some "Something went wrong" := by
  obtain ⟨p, hp, _⟩ := valid_page e lib query hvalid
  obtain ⟨l, hl, _⟩ := valid_limit e lib query hvalid
  refine ⟨?_, ?_, ?_, ?_⟩
  · simp [listHandler, hvalid, hp, hl, hfail, serverError]
  · simp [listHandler, hvalid, hp, hl, hfail, serverError]
  · simp [listHandler, hvalid, hp, hl, hfail, serverError]
  · intro nodeEnv err hne hstatus
    unfold errorMiddleware at hstatus ⊢
    split_ifs at hstatus ⊢ <;> simp_all

theorem handler_failure_exposes_error_message_witness :
    (listHandler .partner sampleLib (failingDb "connect ECONNREFUSED 10.0.0.5:27017")
        []).response.status = 500 ∧
    (listHandler .partner sampleLib (failingDb "connect ECONNREFUSED 10.0.0.5:27017")
        []).response.error = some "connect ECONNREFUSED 10.0.0.5:27017" :=
  have h := handler_failure_exposes_error_message .partner sampleLib
    (failingDb "connect ECONNREFUSED 10.0.0.5:27017") [] (by decide) (by decide)
  ⟨h.1, h.2.2.1⟩

/-! ## Search with a date -/

/-- Claim C22. A search request with a truthy `date` (every valid ISO-8601
date is a non-empty string) is answered 500 with `success` false and no data,
without any query being issued: the call `requestedDate.toLocaleLowerCase()`
throws before `Partner.find`. -/
theorem search_with_date_fails {α : Type} (db : Db α) (query : Query)
    (hdate : (truthyGet query "date").isSome = true) :
    (searchHandler db query).response.status = 500 ∧
    (searchHandler db query).response.success = false ∧
    (searchHandler db query).response.data = none ∧
    (searchHandler db query).calls = [] := by
  simp [searchHandler, hdate, serverError]

theorem search_with_date_fails_witness :
    (searchHandler seedPartners dateOnly).response.status = 500 ∧
    (searchHandler seedPartners dateOnly).response.success = false ∧
    (searchHandler seedPartners dateOnly).response.data = none ∧
    (searchHandler seedPartners dateOnly).calls = [] :=
  search_with_date_fails seedPartners dateOnly (by decide)

/-! ## Deleting a client -/

/-- Claim C24. A `DELETE /api/clients/:id` request naming an existing client
removes that record from the collection whatever its `Authorization` header
is, also when there is none: the response is 200 and the collection has one
record fewer. -/
theorem delete_needs_no_credentials (env : AuthEnv) (store : Store) (req : DeleteRequest)
    (u : User) (hcast : env.castsToId req.id = true) (hdb : env.dbThrows = false)
    (hfound : findById store.clients req.id = some u) :
    (deleteClient env store req).1.status = 200 ∧
    (deleteClient env store req).2.clients = store.clients.eraseP (fun c => c.id == req.id) ∧
    (deleteClient env store req).2.clients.length + 1 = store.clients.length ∧
    deleteClient env store req = deleteClient env store { req with authorization := none } := by
  have hmem : ∃ c ∈ store.clients, (c.id == req.id) = true := by
    unfold findById at hfound
    have hid := List.find?_some hfound
    exact ⟨u, List.mem_of_find?_eq_some hfound, by simpa using hid⟩
  obtain ⟨c, hc, hid⟩ := hmem
  have hlen : (store.clients.eraseP fun c => c.id == req.id).length = store.clients.length - 1 :=
    List.length_eraseP_of_mem hc hid
  have hpos : 0 < store.clients.length := List.length_pos_of_mem hc
  refine ⟨?_, ?_, ?_, ?_⟩
  · simp [deleteClient, findByIdAndDelete, hcast, hdb, hfound]
  · simp [deleteClient, findByIdAndDelete, hcast, hdb, hfound]
  · simp only [deleteClient, findByIdAndDelete, hcast, hdb, hfound]
    simp only [Bool.not_true, Bool.false_eq_true, if_false]
    rw [hlen]
    omega
  · rfl

theorem delete_needs_no_credentials_witness :
    (deleteClient sampleEnv sampleStore ⟨none, "c1"⟩).1.status = 200 ∧
    (deleteClient sampleEnv sampleStore ⟨none, "c1"⟩).2.clients = [] :=
  have h := delete_needs_no_credentials sampleEnv sampleStore ⟨none, "c1"⟩
    ⟨"c1", "john_doe", "john@example.com", some "uid-1", true, "Client"⟩
    (by decide) (by decide) (by decide)
  ⟨h.1, h.2.1.trans (by decide)⟩

/-! ## Tokens of super admins -/

/-- Claim C27. A verified JWT whose `userType` is `SuperAdmin`, a value the
Admin schema allows and the seeded admin carries, is answered 401 `Invalid
user type` before any collection is queried, whatever the store holds. -/
theorem super_admin_token_rejected (env : AuthEnv) (store : Store) (header : Option String)
    (token id : String) (htoken : bearerToken header = some token)
    (hjwt : env.verifyJwt token = some (id, some "SuperAdmin")) :
    authenticate env store header = deny 401 "Invalid user type" [] := by
  simp [authenticate, htoken, hjwt, modelFor]

theorem super_admin_token_rejected_witness :
    (∃ u, findById seededStore.admins "a1" = some u ∧ u.isActive = true ∧
      u.userType = "SuperAdmin") ∧
    authenticate adminEnv seededStore (some "Bearer admin-token") =
      deny 401 "Invalid user type" [] :=
  ⟨⟨⟨"a1", "admin", "admin@pixisphere.com", none, true, "SuperAdmin"⟩, by decide, by decide,
      by decide⟩,
    super_admin_token_rejected adminEnv seededStore (some "Bearer admin-token") "admin-token" "a1"
      (by decide) (by decide)⟩

/-! ## The home-page search -/

/-- Claim C30. The request `handleSearch` sends carries the typed location
under the key `city`, which the search handler never reads: the filter has no
clause on `locations.city`, and the whole outcome of the handler is the one
of the same search with an empty location. -/
theorem home_search_ignores_location {α : Type} (toLowerCase : String → String) (db : Db α)
    (location shootType : String) :
    (handleSearch toLowerCase location shootType).lookup "location" = none ∧
    (searchFilter (handleSearch toLowerCase location shootType)).fields.lookup "locations.city"
      = none ∧
    searchHandler db (handleSearch toLowerCase location shootType) =
      searchHandler db (handleSearch toLowerCase "" shootType) := by
  by_cases hl : location = "" <;> by_cases hs : shootType = "All" <;>
    by_cases ht : toLowerCase shootType = "" <;>
    simp [handleSearch, hl, hs, ht, searchHandler, searchFilter, ifTruthy, truthyGet,
      List.lookup, setPath, Option.filter, QVal.truthy]

/-! ## The books endpoint -/

theorem includes_iff (text needle : String) :
    includes text needle = true ↔ ∃ s t, s ++ needle.data ++ t = text.data := by
  unfold includes
  rw [List.any_eq_true]
  constructor
  · rintro ⟨u, hu, hpre⟩
    rw [List.mem_tails] at hu
    obtain ⟨s, hs⟩ := hu
    have hp : ∃ t, needle.data ++ t = u := by simpa using hpre
    obtain ⟨t, ht⟩ := hp
    exact ⟨s, t, by rw [← hs, ← ht, List.append_assoc]⟩
  · rintro ⟨s, t, h⟩
    refine ⟨needle.data ++ t, ?_, ?_⟩
    · rw [List.mem_tails]
      exact ⟨s, by rw [← h, List.append_assoc]⟩
    · simp

theorem includes_empty (text : String) : includes text "" = true := by
  rw [includes_iff]
  exact ⟨[], text.data, rfl⟩

/-- Claim C25. For every book list and every query string, `GET /api/books`
answers 200 with exactly the books the three parameters select, in the order
of the list; `total` is the length of `data`; without any of the three
parameters all books are returned. -/
theorem books_endpoint_selects (toLowerCase : String → String) (books : List Book)
    (searchParams : List (String × String)) (hlower : toLowerCase "" = "") :
    (GET toLowerCase books searchParams).status = 200 ∧
    (GET toLowerCase books searchParams).success = true ∧
    (GET toLowerCase books searchParams).data =
      books.filter (selectedBySpec toLowerCase (searchParams.lookup "genre")
        (searchParams.lookup "author") (searchParams.lookup "available")) ∧
    (GET toLowerCase books searchParams).total = (GET toLowerCase books searchParams).data.length ∧
    (searchParams.lookup "genre" = none → searchParams.lookup "author" = none →
      searchParams.lookup "available" = none →
      (GET toLowerCase books searchParams).data = books) := by
  refine ⟨rfl, rfl, ?_, rfl, ?_⟩
  · unfold GET selectedBySpec
    cases hg : searchParams.lookup "genre" with
    | none =>
      cases ha : searchParams.lookup "author" with
      | none => by_cases hv : searchParams.lookup "available" = some "true" <;> simp [hv]
      | some a =>
        by_cases ha0 : a = "" <;>
          by_cases hv : searchParams.lookup "available" = some "true" <;>
          simp [hv, ha0, hlower, includes_empty, List.filter_filter, Bool.and_comm]
    | some g =>
      cases ha : searchParams.lookup "author" with
      | none =>
        by_cases hg0 : g = "" <;>
          by_cases hv : searchParams.lookup "available" = some "true" <;>
          simp [hv, hg0, hlower, includes_empty, List.filter_filter, Bool.and_comm]
      | some a =>
        by_cases hg0 : g = "" <;> by_cases ha0 : a = "" <;>
          by_cases hv : searchParams.lookup "available" = some "true" <;>
          simp [hv, hg0, ha0, hlower, includes_empty, List.filter_filter, Bool.and_comm,
            Bool.and_assoc, Bool.and_left_comm]
  · intro hg ha hv
    simp [GET, hg, ha, hv]

theorem books_endpoint_selects_witness :
    asciiLower "" = "" ∧
    (GET asciiLower getBooksFromDatabase [("genre", "FICTION"), ("available", "true")]).data.map
      Book.id = [1, 2, 3] :=
  have h := books_endpoint_selects asciiLower getBooksFromDatabase
    [("genre", "FICTION"), ("available", "true")] (by decide)
  ⟨by decide, by rw [h.2.2.1]; decide⟩

/-! ## The books page -/

/-- Claim C29. With the genre selector on its item `All Genres` and
`availableOnly` off, `fetchBooks` sends `genre=all`, which the endpoint
applies as a genre filter: of the five books served none is returned, and the
page renders none for the empty search term, whereas the initial state of the
selector fetches all five. With an empty search term the rendered list is
always the fetched list. -/
theorem all_genres_item_fetches_nothing :
    fetchParams "all" false = [("genre", "all")] ∧
    getBooksFromDatabase.length = 5 ∧
    fetchBooks asciiLower getBooksFromDatabase [] "all" false = [] ∧
    filteredBooks asciiLower (fetchBooks asciiLower getBooksFromDatabase [] "all" false) "" = [] ∧
    fetchBooks asciiLower getBooksFromDatabase [] "" false = getBooksFromDatabase ∧
    ∀ books, filteredBooks asciiLower books "" = books := by
  refine ⟨by decide, by decide, by decide, by decide, by decide, ?_⟩
  intro books
  have h : asciiLower "" = "" := by decide
  simp [filteredBooks, h, includes_empty]

/-! ## Orders of one client -/

/-- Claim C23. The pagination block of `GET /clients/:id/orders` has the four
properties `currentPage`, `totalPages`, `totalCount` and `limit`, so neither
`hasNextPage` nor `hasPrevPage`; and the route accepts `limit=0`, for which
the request succeeds and `totalPages` is an infinity (or `NaN` when the client
has no orders). -/
theorem client_orders_pagination_block {α : Type} (db : Db α)
    (irregular : Option Int → Option Int → Except String (List α)) (id : String)
    (query : Query) (hlimit : query.lookup "limit" = some (.str "0"))
    (hpage : query.lookup "page" = none)
    (hruns : db.rejects (clientOrdersFilter id query) = false) :
    (clientOrdersHandler db irregular id query).status = 200 ∧
    (clientOrdersHandler db irregular id query).success = true ∧
    ∃ block, (clientOrdersHandler db irregular id query).pagination = some block ∧
      block.map Prod.fst = ["currentPage", "totalPages", "totalCount", "limit"] ∧
      block.lookup "hasNextPage" = none ∧ block.lookup "hasPrevPage" = none ∧
      block.lookup "totalPages" = some
        (if db.countDocuments (clientOrdersFilter id query) = 0 then JsNumber.nan
         else JsNumber.infinite) := by
  have hl : limitOf query = some 0 := by
    simp only [limitOf, hlimit]
    decide
  have hp : pageOf query = some 1 := by simp [pageOf, hpage]
  have h0 : (some (0 : Int)) = some (Int.ofNat 0) := rfl
  have hs : skipOf (some 1) (some 0) = some (Int.ofNat 0) := by decide
  simp only [clientOrdersHandler, hl, hp, hruns, hs]
  refine ⟨?_, ?_, ?_⟩
  · simp [h0]
  · simp [h0]
  · refine ⟨_, by simp [h0]; rfl, ?_⟩
    simp [ceilQuotient, JsNumber.ofParse, List.lookup]

theorem client_orders_pagination_block_witness :
    (clientOrdersHandler twentyFive (fun _ _ => .error "") "c1" limitZero).status = 200 ∧
    ((clientOrdersHandler twentyFive (fun _ _ => .error "") "c1" limitZero).pagination.map
      fun block => (block.map Prod.fst, block.lookup "totalPages")) =
      some (["currentPage", "totalPages", "totalCount", "limit"], some JsNumber.infinite) := by
  obtain ⟨hstatus, _, block, hblock, hkeys, _, _, htotal⟩ :=
    client_orders_pagination_block twentyFive (fun _ _ => .error "") "c1" limitZero
      (by decide) (by decide) (by decide)
  refine ⟨hstatus, ?_⟩
  rw [hblock]
  simp only [Option.map_some', hkeys, htotal]
  decide

/-! ## Consecutive pages -/

theorem atPage_requestable (e : Entity) (lib : Lib) (p l : Nat) (rest : Query)
    (hp : 1 ≤ p) (hl : 1 ≤ l) (hl100 : l ≤ 100)
    (hrest : validationResult (e.chains lib) rest = []) :
    validationResult (e.chains lib) (atPage p l rest) = [] ∧
    pageOf (atPage p l rest) = some (Int.ofNat (roundDouble p)) ∧
    limitOf (atPage p l rest) = some (Int.ofNat l) := by
  obtain ⟨hpv, hpp⟩ := isInt_numeral (some 1) none p hp
    (by intro m hm; cases hm; exact_mod_cast hp) (by intro m hm; cases hm)
  obtain ⟨hlv, hlp⟩ := isInt_numeral (some 1) (some 100) l hl
    (by intro m hm; cases hm; exact_mod_cast hl) (by intro m hm; cases hm; exact_mod_cast hl100)
  rw [roundDouble_of_le l (by omega)] at hlp
  refine ⟨?_, ?_, ?_⟩
  · cases e <;>
      simp [validationResult, Entity.chains, pagingChains, Chain.run, List.lookup] at hrest <;>
      simp [validationResult, Entity.chains, pagingChains, Chain.run, atPage, List.lookup] <;>
      exact ⟨by simp [asArray, QVal.stringify, hpv], by simp [asArray, QVal.stringify, hlv],
        hrest.2.2⟩
  · simpa [pageOf, atPage, List.lookup] using hpp
  · simpa [limitOf, atPage, List.lookup] using hlp

theorem atPage_filter (e : Entity) (p l : Nat) (rest : Query) :
    e.filterOf (atPage p l rest) = e.filterOf rest ∧
    sortOptions (atPage p l rest) = sortOptions rest := by
  constructor
  · simp [Entity.filterOf, restFilters, atPage, truthyGet, List.lookup, List.filter]
  · simp [sortOptions, atPage, List.lookup]

/-- The run of a listing handler on the request for page `p`, read as the
Number value of `p`, with limit `l`. -/
theorem listHandler_atPage {α : Type} (e : Entity) (lib : Lib) (db : Db α) (rest : Query)
    (p l : Nat) (hp : 1 ≤ p) (hl : 1 ≤ l) (hl100 : l ≤ 100)
    (hvalid : validationResult (e.chains lib) rest = [])
    (hruns : db.rejects (e.filterOf rest) = false) :
    (listHandler e lib db (atPage p l rest)).response.data =
      some (db.find (e.filterOf rest) (sortOptions rest) (skipNumber (roundDouble p) l) l) ∧
    (listHandler e lib db (atPage p l rest)).response.pagination = some
      { currentPage := roundDouble p
        totalPages := ceilDiv (db.countDocuments (e.filterOf rest)) l
        totalCount := db.countDocuments (e.filterOf rest)
        hasNextPage := decide (roundDouble p < ceilDiv (db.countDocuments (e.filterOf rest)) l)
        hasPrevPage := decide (roundDouble p > 1)
        limit := l } := by
  obtain ⟨hv, hpp, hll⟩ := atPage_requestable e lib p l rest hp hl hl100 hvalid
  obtain ⟨hf, hs⟩ := atPage_filter e p l rest
  obtain ⟨_, _, hdata, hpg⟩ :=
    listHandler_run e lib db (atPage p l rest) (roundDouble p) l hv hpp hll
      (by rw [hf]; exact hruns)
  rw [hf, hs] at hdata
  rw [hf] at hpg
  exact ⟨hdata, hpg⟩

/-! ## The requested page -/

/-- The request `?page=9007199254740993&limit=10` is the request for that
page, and so is `?page=2&limit=10` for page 2. -/
theorem atPage_examples :
    atPage 9007199254740993 10 [] = pageBeyondPrecision ∧ atPage 2 10 [] = pageTwoOfTen := by
  constructor
  · simp only [atPage, pageBeyondPrecision, numeral]
    norm_num
  · simp only [atPage, pageTwoOfTen, numeral]
    norm_num

/-- Claim C1 as stated fails: the request for page 2^53 + 1 passes validation,
and the page the handler reports is 2^53, the Number that `Number.parseInt`
makes of the numeral, not the page requested. -/
theorem page_beyond_double_precision :
    validationResult (Entity.partner.chains sampleLib) pageBeyondPrecision = [] ∧
    pageBeyondPrecision.lookup "page" = some (.str "9007199254740993") ∧
    (listHandler .partner sampleLib twentyFive pageBeyondPrecision).response.status = 200 ∧
    (listHandler .partner sampleLib twentyFive pageBeyondPrecision).response.pagination =
      some ⟨9007199254740992, 3, 25, false, true, 10⟩ := by
  decide

/-- Claim C1. For a listing request for page `p` with limit `l`, where
`1 ≤ p ≤ 2^53` and `1 ≤ l ≤ 100`, sent with valid parameters and answered by
the query layer, the handler of GET /partners, /clients or /orders returns
exactly the records at 1-based positions `(p-1)*l+1 .. min(p*l, n)` of the
sorted list of the `n` matching records, with `currentPage = p`,
`totalCount = n` and `totalPages = ⌈n / l⌉`. -/
theorem listing_returns_requested_page {α : Type} (e : Entity) (lib : Lib) (db : Db α)
    (rest : Query) (p l : Nat) (hp : 1 ≤ p) (hp53 : p ≤ 9007199254740992)
    (hl : 1 ≤ l) (hl100 : l ≤ 100)
    (hvalid : validationResult (e.chains lib) rest = [])
    (hruns : db.rejects (e.filterOf rest) = false) :
    ∃ data pg,
      (listHandler e lib db (atPage p l rest)).response.data = some data ∧
      (listHandler e lib db (atPage p l rest)).response.pagination = some pg ∧
      data.length =
        min (p * l) (db.sortedMatches (e.filterOf rest) (sortOptions rest)).length
          - (p - 1) * l ∧
      (∀ i, i < data.length →
        data[i]? = (db.sortedMatches (e.filterOf rest) (sortOptions rest))[(p - 1) * l + i]?) ∧
      pg.currentPage = p ∧
      pg.totalCount = (db.sortedMatches (e.filterOf rest) (sortOptions rest)).length ∧
      pg.totalPages =
        ⌈((db.sortedMatches (e.filterOf rest) (sortOptions rest)).length : ℚ) / (l : ℚ)⌉₊ := by
  obtain ⟨hdata, hpg⟩ := listHandler_atPage e lib db rest p l hp hl hl100 hvalid hruns
  rw [roundDouble_of_le p hp53] at hdata hpg
  have hcount := countDocuments_eq db (e.filterOf rest) (sortOptions rest)
  have hn : (db.sortedMatches (e.filterOf rest) (sortOptions rest)).length ≤
      9007199254740992 := by
    rw [← hcount]
    exact countDocuments_le db _
  have hmul : p * l = (p - 1) * l + l := by
    obtain ⟨k, rfl⟩ : ∃ k, p = k + 1 := ⟨p - 1, by omega⟩
    simp [Nat.succ_mul]
  refine ⟨_, _, hdata, hpg, ?_, ?_, rfl, hcount, ?_⟩
  · rcases Nat.le_total ((p - 1) * l) 9007199254740992 with hwin | hwin
    · rw [skipNumber_exact p l hwin]
      simp only [Db.find, List.length_take, List.length_drop]
      omega
    · have hskip := le_skipNumber p l _ hn (le_trans hn hwin)
      simp only [Db.find, List.length_take, List.length_drop]
      omega
  · intro i hi
    rcases Nat.le_total ((p - 1) * l) 9007199254740992 with hwin | hwin
    · rw [skipNumber_exact p l hwin] at hi ⊢
      simp only [Db.find, List.length_take, List.length_drop] at hi
      simp only [Db.find]
      rw [List.getElem?_take_of_lt (by omega), List.getElem?_drop]
    · have hskip := le_skipNumber p l _ hn (le_trans hn hwin)
      simp only [Db.find, List.length_take, List.length_drop] at hi
      omega
  · rw [hcount]
    exact ceilDiv_eq_ceil _ _ (by omega)

/-- Claim C1, the example of the specification: `page=2, limit=10` over 25
matching records. -/
theorem listing_returns_requested_page_witness :
    validationResult (Entity.partner.chains sampleLib) [] = [] ∧
    (listHandler .partner sampleLib twentyFive pageTwoOfTen).response.data =
      some [11, 12, 13, 14, 15, 16, 17, 18, 19, 20] ∧
    (listHandler .partner sampleLib twentyFive pageTwoOfTen).response.pagination =
      some ⟨2, 3, 25, true, true, 10⟩ ∧
    ∃ data pg,
      (listHandler .partner sampleLib twentyFive (atPage 2 10 [])).response.data = some data ∧
      (listHandler .partner sampleLib twentyFive (atPage 2 10 [])).response.pagination =
        some pg ∧
      data.length =
        min (2 * 10)
          (twentyFive.sortedMatches (Entity.partner.filterOf []) (sortOptions [])).length
            - (2 - 1) * 10 ∧
      (∀ i, i < data.length →
        data[i]? = (twentyFive.sortedMatches (Entity.partner.filterOf [])
          (sortOptions []))[(2 - 1) * 10 + i]?) ∧
      pg.currentPage = 2 ∧
      pg.totalCount = (twentyFive.sortedMatches (Entity.partner.filterOf [])
        (sortOptions [])).length ∧
      pg.totalPages =
        ⌈((twentyFive.sortedMatches (Entity.partner.filterOf [])
          (sortOptions [])).length : ℚ) / ((10 : Nat) : ℚ)⌉₊ :=
  ⟨by decide, by decide, by decide,
    listing_returns_requested_page .partner sampleLib twentyFive [] 2 10
      (by decide) (by decide) (by decide) (by decide) (by decide) (by decide)⟩

/-! ## Pages put together -/

theorem flatMap_windows {α : Type} (xs : List α) (l k : Nat) :
    (List.range k).flatMap (fun i => (xs.drop (i * l)).take l) = xs.take (k * l) := by
  induction k with
  | zero => simp
  | succ k ih =>
    rw [List.range_succ, List.flatMap_append, ih, Nat.succ_mul, List.take_add]
    simp

theorem pageData_atPage {α : Type} (e : Entity) (lib : Lib) (db : Db α) (rest : Query)
    (p l : Nat) (hp : 1 ≤ p) (hp53 : p ≤ 9007199254740992) (hl : 1 ≤ l) (hl100 : l ≤ 100)
    (hwin : (p - 1) * l ≤ 9007199254740992)
    (hvalid : validationResult (e.chains lib) rest = [])
    (hruns : db.rejects (e.filterOf rest) = false) :
    pageData e lib db (atPage p l rest) =
      ((db.sortedMatches (e.filterOf rest) (sortOptions rest)).drop ((p - 1) * l)).take l := by
  obtain ⟨hdata, _⟩ := listHandler_atPage e lib db rest p l hp hl hl100 hvalid hruns
  rw [roundDouble_of_le p hp53, skipNumber_exact p l hwin] at hdata
  unfold pageData
  rw [hdata]
  rfl

/-- Claim C28. With the parameters other than `page` fixed and valid, and a
limit `l` between 1 and 100, the `data` arrays of pages 1 to `ceil(n / l)` of
a listing endpoint, put one after the other, are the sorted list of the `n`
matching records; every page before the last holds exactly `l` records. -/
theorem pages_concatenate {α : Type} (e : Entity) (lib : Lib) (db : Db α) (rest : Query)
    (l : Nat) (hl : 1 ≤ l) (hl100 : l ≤ 100)
    (hvalid : validationResult (e.chains lib) rest = [])
    (hruns : db.rejects (e.filterOf rest) = false) :
    (List.range (ceilDiv (db.countDocuments (e.filterOf rest)) l)).flatMap
        (fun i => pageData e lib db (atPage (i + 1) l rest)) =
      db.sortedMatches (e.filterOf rest) (sortOptions rest) ∧
    (db.sortedMatches (e.filterOf rest) (sortOptions rest)).length =
      db.countDocuments (e.filterOf rest) ∧
    ∀ i, i + 1 < ceilDiv (db.countDocuments (e.filterOf rest)) l →
      (pageData e lib db (atPage (i + 1) l rest)).length = l := by
  have hcount := countDocuments_eq db (e.filterOf rest) (sortOptions rest)
  have hn := countDocuments_le db (e.filterOf rest)
  have hwin : ∀ i, i < ceilDiv (db.countDocuments (e.filterOf rest)) l →
      i * l < db.countDocuments (e.filterOf rest) := by
    intro i hi
    by_contra hge
    have hle : db.countDocuments (e.filterOf rest) ≤ i * l := by omega
    have := (ceilDiv_le_iff _ l i (by omega)).2 hle
    omega
  have hdata : ∀ i, i < ceilDiv (db.countDocuments (e.filterOf rest)) l →
      pageData e lib db (atPage (i + 1) l rest) =
      ((db.sortedMatches (e.filterOf rest) (sortOptions rest)).drop (i * l)).take l := by
    intro i hi
    have hlt := hwin i hi
    have hle : i ≤ i * l := Nat.le_mul_of_pos_right _ (by omega)
    have hbound : (i + 1 - 1) * l ≤ 9007199254740992 := by
      rw [Nat.add_sub_cancel]
      omega
    have h := pageData_atPage e lib db rest (i + 1) l (by omega) (by omega) hl hl100
      hbound hvalid hruns
    simpa using h
  refine ⟨?_, hcount.symm, ?_⟩
  · rw [List.flatMap_congr (fun i hi => hdata i (List.mem_range.1 hi)), flatMap_windows]
    apply List.take_of_length_le
    rw [← hcount]
    exact (ceilDiv_le_iff _ l _ (by omega)).1 (le_refl _)
  · intro i hi
    rw [hdata i (by omega), List.length_take, List.length_drop, ← hcount]
    have hlt : ¬ db.countDocuments (e.filterOf rest) ≤ (i + 1) * l := by
      intro hle
      have := (ceilDiv_le_iff _ l (i + 1) (by omega)).2 hle
      omega
    have hmul : (i + 1) * l = i * l + l := Nat.succ_mul i l
    omega

theorem pages_concatenate_witness :
    (List.range (ceilDiv (twentyFive.countDocuments (Entity.partner.filterOf [])) 10)).flatMap
        (fun i => pageData .partner sampleLib twentyFive (atPage (i + 1) 10 [])) =
      List.range' 1 25 ∧
    ceilDiv (twentyFive.countDocuments (Entity.partner.filterOf [])) 10 = 3 := by
  have h := pages_concatenate .partner sampleLib twentyFive [] 10 (by decide) (by decide)
    (by decide) (by decide)
  refine ⟨h.1.trans (by decide), by decide⟩

/-! ## Order analytics -/

theorem perm_insertBy {α : Type} (le : α → α → Bool) (a : α) (xs : List α) :
    (insertBy le a xs).Perm (a :: xs) := by
  induction xs with
  | nil => exact List.Perm.refl _
  | cons b bs ih =>
    unfold insertBy
    split
    · exact List.Perm.refl _
    · exact (List.Perm.cons b ih).trans (List.Perm.swap a b bs)

theorem perm_sortDocs {α : Type} (le : α → α → Bool) (xs : List α) :
    (sortDocs le xs).Perm xs := by
  induction xs with
  | nil => exact List.Perm.refl _
  | cons b bs ih =>
    have h : sortDocs le (b :: bs) = insertBy le b (sortDocs le bs) := rfl
    rw [h]
    exact (perm_insertBy le b _).trans (List.Perm.cons b ih)

theorem insertBy_map {α β : Type} (f : α → β) (le : β → β → Bool) (lea : α → α → Bool)
    (h : ∀ a b, le (f a) (f b) = lea a b) (a : α) (xs : List α) :
    insertBy le (f a) (xs.map f) = (insertBy lea a xs).map f := by
  induction xs with
  | nil => rfl
  | cons b bs ih =>
    simp only [List.map_cons, insertBy, h]
    split
    · rfl
    · simp [ih]

theorem sortDocs_map {α β : Type} (f : α → β) (le : β → β → Bool) (lea : α → α → Bool)
    (h : ∀ a b, le (f a) (f b) = lea a b) (xs : List α) :
    sortDocs le (xs.map f) = (sortDocs lea xs).map f := by
  induction xs with
  | nil => rfl
  | cons b bs ih =>
    have h1 : sortDocs le ((b :: bs).map f) = insertBy le (f b) (sortDocs le (bs.map f)) := rfl
    have h2 : sortDocs lea (b :: bs) = insertBy lea b (sortDocs lea bs) := rfl
    rw [h1, h2, ih, insertBy_map f le lea h]

theorem sorted_periods (ps : List String) :
    (sortDocs periodLe ps).Pairwise (fun p q => p.data ≤ q.data) := by
  apply pairwise_sortDocs
  · intro a b hab
    exact of_decide_eq_true hab
  · intro a b hab
    exact le_of_not_le (of_decide_eq_false hab)
  · intro a b c hab hbc
    exact le_trans hab hbc

theorem sortDocs_periods_unique (ps qs : List String) (hp : ps.Nodup) (hq : qs.Nodup)
    (hmem : ∀ p, p ∈ ps ↔ p ∈ qs) : sortDocs periodLe ps = sortDocs periodLe qs := by
  have hperm : (sortDocs periodLe ps).Perm (sortDocs periodLe qs) :=
    (perm_sortDocs _ ps).trans
      (((List.perm_ext_iff_of_nodup hp hq).2 hmem).trans (perm_sortDocs _ qs).symm)
  have hanti : IsAntisymm String (fun p q => p.data ≤ q.data) :=
    ⟨fun p q hpq hqp => String.ext (le_antisymm hpq hqp)⟩
  exact List.eq_of_perm_of_sorted hperm (sorted_periods ps) (sorted_periods qs)

theorem sum_single_key {κ M : Type} [DecidableEq κ] [AddCommMonoid M] (k0 : κ) (m : M)
    (keys : List κ) (hnodup : keys.Nodup) (hmem : k0 ∈ keys) :
    (keys.map fun k => if k0 = k then m else 0).sum = m := by
  induction keys with
  | nil => cases hmem
  | cons k ks ih =>
    rw [List.nodup_cons] at hnodup
    by_cases hk : k0 = k
    · subst hk
      have hzero : (ks.map fun k => if k0 = k then m else 0) = ks.map fun _ => (0 : M) := by
        apply List.map_congr_left
        intro x hx
        have : k0 ≠ x := fun h => hnodup.1 (h ▸ hx)
        simp [this]
      simp [hzero]
    · have hmem' : k0 ∈ ks := by
        rcases List.mem_cons.1 hmem with h | h
        · exact absurd h hk
        · exact h
      simp [hk, ih hnodup.2 hmem']

/-- Summing group by group gives the sum over all documents, when the keys
are distinct and cover the documents. -/
theorem sum_over_keys {α κ M : Type} [DecidableEq κ] [AddCommMonoid M] (key : α → κ) (g : α → M)
    (keys : List κ) (hnodup : keys.Nodup) (docs : List α) (hall : ∀ d ∈ docs, key d ∈ keys) :
    (keys.map fun k => ((docs.filter fun d => decide (key d = k)).map g).sum).sum =
      (docs.map g).sum := by
  induction docs with
  | nil => simp
  | cons d ds ih =>
    have hd : key d ∈ keys := hall d (List.mem_cons_self _ _)
    have ih' := ih (fun x hx => hall x (List.mem_cons_of_mem _ hx))
    have hstep : ∀ k, (((d :: ds).filter fun x => decide (key x = k)).map g).sum =
        (if key d = k then g d else 0) +
          ((ds.filter fun x => decide (key x = k)).map g).sum := by
      intro k
      by_cases h : key d = k <;> simp [List.filter_cons, h]
    simp only [hstep]
    rw [List.sum_map_add, ih', sum_single_key (key d) (g d) keys hnodup hd]
    simp

theorem length_eq_sum_ones {α : Type} (xs : List α) :
    xs.length = (xs.map fun _ => 1).sum := by
  induction xs with
  | nil => rfl
  | cons x xs ih =>
    simp only [List.length_cons, List.map_cons, List.sum_cons]
    omega

/-- The groups of one period, summed, give the sum over the documents of
that period. -/
theorem period_total {M : Type} [AddCommMonoid M] (period : OrderDoc → String)
    (docs : List OrderDoc) (g : OrderDoc → M) (p : String) :
    ((((docs.map fun d => (d.status, period d)).dedup.filter fun k => decide (k.2 = p)).map
      fun k => ((docs.filter fun d => decide ((d.status, period d) = k)).map g).sum).sum) =
      ((docs.filter fun o => decide (period o = p)).map g).sum := by
  have hinner : ∀ k ∈ (docs.map fun d => (d.status, period d)).dedup.filter
      (fun k => decide (k.2 = p)),
      ((docs.filter fun d => decide ((d.status, period d) = k)).map g).sum =
      (((docs.filter fun o => decide (period o = p)).filter
        fun d => decide ((d.status, period d) = k)).map g).sum := by
    intro k hk
    have hk2 : k.2 = p := by simpa using (List.mem_filter.1 hk).2
    rw [List.filter_filter]
    congr 2
    apply List.filter_congr
    intro d _
    by_cases h : (d.status, period d) = k
    · have : period d = p := by rw [← hk2, ← h]
      simp [h, this]
    · simp [h]
  rw [List.map_congr_left hinner]
  apply sum_over_keys (fun d : OrderDoc => (d.status, period d)) g
  · exact (List.nodup_dedup _).filter _
  · intro d hd
    rw [List.mem_filter] at hd ⊢
    refine ⟨?_, by simpa using hd.2⟩
    rw [List.mem_dedup]
    exact List.mem_map_of_mem _ hd.1

theorem statusGroups_period (period : OrderDoc → String) (docs : List OrderDoc) :
    (statusGroups period docs).map StatusGroup.period =
      (docs.map fun d => (d.status, period d)).dedup.map Prod.snd := by
  simp [statusGroups, groupStage, List.map_map, Function.comp_def]

theorem mem_periods (period : OrderDoc → String) (docs : List OrderDoc) (p : String) :
    p ∈ ((statusGroups period docs).map StatusGroup.period).dedup ↔
      p ∈ (docs.map period).dedup := by
  rw [statusGroups_period, List.mem_dedup, List.mem_dedup]
  simp only [List.mem_map, List.mem_dedup]
  constructor
  · rintro ⟨k, ⟨d, hd, rfl⟩, rfl⟩
    exact ⟨d, hd, rfl⟩
  · rintro ⟨d, hd, rfl⟩
    exact ⟨_, ⟨d, hd, rfl⟩, rfl⟩

/-- The pipeline as one entry per period of the sorted distinct periods. -/
theorem aggregate_eq (period : OrderDoc → String) (docs : List OrderDoc) :
    aggregate period docs =
      (sortDocs periodLe (docs.map period).dedup).map fun p =>
        { id := p
          orders := ((statusGroups period docs).filter fun s => decide (s.period = p)).map
            fun s => ⟨s.status, s.count, s.totalRevenue, s.averageOrderValue⟩
          totalOrders := (((statusGroups period docs).filter
            fun s => decide (s.period = p)).map StatusGroup.count).sum
          totalRevenue := sumDoubles (((statusGroups period docs).filter
            fun s => decide (s.period = p)).map StatusGroup.totalRevenue) } := by
  have hsort := sortDocs_map
    (fun p : String =>
      ({ id := p
         orders := ((statusGroups period docs).filter fun s => decide (s.period = p)).map
           fun s => ⟨s.status, s.count, s.totalRevenue, s.averageOrderValue⟩
         totalOrders := (((statusGroups period docs).filter
           fun s => decide (s.period = p)).map StatusGroup.count).sum
         totalRevenue := sumDoubles (((statusGroups period docs).filter
           fun s => decide (s.period = p)).map StatusGroup.totalRevenue) } : PeriodGroup))
    (fun a b => periodLe a.id b.id) periodLe (fun _ _ => rfl)
    ((statusGroups period docs).map StatusGroup.period).dedup
  rw [sortDocs_periods_unique _ (docs.map period).dedup (List.nodup_dedup _) (List.nodup_dedup _)
    (mem_periods period docs)] at hsort
  unfold aggregate sortById periodGroups groupStage
  rw [List.map_map]
  exact hsort

theorem period_orders (period : OrderDoc → String) (docs : List OrderDoc) (p : String) :
    (((statusGroups period docs).filter fun s => decide (s.period = p)).map
      StatusGroup.count).sum = (docs.filter fun o => decide (period o = p)).length := by
  rw [length_eq_sum_ones, ← period_total period docs (fun _ => 1) p]
  simp [statusGroups, groupStage, List.filter_map, List.map_map, Function.comp_def,
    ← length_eq_sum_ones]

/-- Additions of amounts that are not negative and stay within 2^53 units
are exact. -/
theorem foldl_addDouble_exact (xs : List Int) (acc : Int) (hacc : 0 ≤ acc)
    (hnonneg : ∀ x ∈ xs, 0 ≤ x) (hsum : acc + xs.sum ≤ 9007199254740992) :
    xs.foldl addDouble acc = acc + xs.sum := by
  induction xs generalizing acc with
  | nil => simp
  | cons x xs ih =>
    have hx : 0 ≤ x := hnonneg x (List.mem_cons_self _ _)
    have hxs : ∀ y ∈ xs, 0 ≤ y := fun y hy => hnonneg y (List.mem_cons_of_mem _ hy)
    have hrest : 0 ≤ xs.sum := List.sum_nonneg hxs
    rw [List.sum_cons] at hsum
    have hstep : addDouble acc x = acc + x :=
      toDouble_of_bounds (acc + x) (by omega) (by omega)
    rw [List.foldl_cons, hstep, ih (acc + x) (by omega) hxs (by omega), List.sum_cons]
    omega

theorem sumDoubles_exact (xs : List Int) (hnonneg : ∀ x ∈ xs, 0 ≤ x)
    (hsum : xs.sum ≤ 9007199254740992) : sumDoubles xs = xs.sum := by
  have h := foldl_addDouble_exact xs 0 (le_refl 0) hnonneg (by omega)
  simpa [sumDoubles] using h

theorem amounts_nonneg (docs : List OrderDoc) (q : OrderDoc → Bool)
    (hnonneg : ∀ o ∈ docs, 0 ≤ o.totalAmount) :
    ∀ x ∈ (docs.filter q).map OrderDoc.totalAmount, 0 ≤ x := by
  intro x hx
  obtain ⟨o, ho, rfl⟩ := List.mem_map.1 hx
  exact hnonneg o (List.mem_filter.1 ho).1

theorem sum_filter_le (docs : List OrderDoc) (q : OrderDoc → Bool)
    (hnonneg : ∀ o ∈ docs, 0 ≤ o.totalAmount) :
    ((docs.filter q).map OrderDoc.totalAmount).sum ≤ (docs.map OrderDoc.totalAmount).sum := by
  induction docs with
  | nil => simp
  | cons d ds ih =>
    have hd : 0 ≤ d.totalAmount := hnonneg d (List.mem_cons_self _ _)
    have ih' := ih (fun o ho => hnonneg o (List.mem_cons_of_mem _ ho))
    by_cases hq : q d = true
    · simp only [List.filter_cons, hq, if_true, List.map_cons, List.sum_cons]
      omega
    · simp only [List.filter_cons, hq, List.map_cons, List.sum_cons]
      simp only [Bool.false_eq_true, if_false]
      omega

/-- With amounts that are not negative and a total within 2^53 units, the
two-stage sum of a period is the exact sum of the amounts of its orders, and
so is the sum of its per-status revenues. -/
theorem period_revenue_exact (period : OrderDoc → String) (docs : List OrderDoc) (p : String)
    (hnonneg : ∀ o ∈ docs, 0 ≤ o.totalAmount)
    (hsum : (docs.map OrderDoc.totalAmount).sum ≤ 9007199254740992) :
    sumDoubles (((statusGroups period docs).filter fun s => decide (s.period = p)).map
      StatusGroup.totalRevenue) =
      ((docs.filter fun o => decide (period o = p)).map OrderDoc.totalAmount).sum ∧
    (((statusGroups period docs).filter fun s => decide (s.period = p)).map
      StatusGroup.totalRevenue).sum =
      ((docs.filter fun o => decide (period o = p)).map OrderDoc.totalAmount).sum := by
  have hexact : ∀ k : String × String,
      sumDoubles ((docs.filter fun d => decide ((d.status, period d) = k)).map
        OrderDoc.totalAmount) =
      ((docs.filter fun d => decide ((d.status, period d) = k)).map OrderDoc.totalAmount).sum :=
    fun k => sumDoubles_exact _ (amounts_nonneg docs _ hnonneg)
      (le_trans (sum_filter_le docs _ hnonneg) hsum)
  have hlist : ((statusGroups period docs).filter fun s => decide (s.period = p)).map
      StatusGroup.totalRevenue =
      ((docs.map fun d => (d.status, period d)).dedup.filter fun k => decide (k.2 = p)).map
        fun k => ((docs.filter fun d => decide ((d.status, period d) = k)).map
          OrderDoc.totalAmount).sum := by
    simp [statusGroups, groupStage, List.filter_map, List.map_map, Function.comp_def, hexact]
  have htotal := period_total period docs OrderDoc.totalAmount p
  rw [hlist, htotal]
  refine ⟨?_, rfl⟩
  rw [← htotal]
  apply sumDoubles_exact
  · intro x hx
    obtain ⟨k, _, rfl⟩ := List.mem_map.1 hx
    exact List.sum_nonneg (amounts_nonneg docs _ hnonneg)
  · rw [htotal]
    exact le_trans (sum_filter_le docs _ hnonneg) hsum

/-- The match stage selects the orders in the date range of the request. -/
theorem orderHolds_matchStage (dateValue : QVal → Int) (query : Query) (o : OrderDoc) :
    orderHolds dateValue (matchStage query) o = inDateRange dateValue query o := by
  unfold orderHolds matchStage dateRange inDateRange
  cases hf : truthyGet query "dateFrom" <;> cases ht : truthyGet query "dateTo" <;>
    simp [setPath]

theorem formatOf_periodFormat (groupBy : Option QVal) :
    formatOf (groupBy.getD (.str "month")) = periodFormat groupBy := by
  cases groupBy with
  | none => decide
  | some g => rfl

/-- Claim C26 as stated fails: for three orders of one month with the amounts
0.3 (pending), 0.2 and 0.1 (completed) the pipeline adds 0.2 and 0.1, rounds,
adds 0.3 and rounds again, which gives 0.6000000000000001 (21617278211378384
units of 2^-55), whereas the sum of the three amounts is 0.6: 21617278211378381
units exactly, 21617278211378380 as the nearest double and also when the
amounts are added one after the other. -/
theorem two_stage_sum_differs :
    ((analyticsHandler tenths twoMonths []).data.map fun analytics =>
      analytics.map fun g => (g.id, g.totalOrders, g.totalRevenue)) =
      some [("2025-01", 3, 21617278211378384)] ∧
    reduceInMemory (fun o => twoMonths (periodFormat none) o.createdAt)
      (tenths.docs.filter (inDateRange sampleInstant [])) =
      [("2025-01", 3, 21617278211378381)] ∧
    toDouble 21617278211378381 = 21617278211378380 ∧
    sumDoubles (tenths.docs.map OrderDoc.totalAmount) = 21617278211378380 := by
  decide

/-- Claim C26. When the aggregation runs on a database that compares the
instants of a date range, the analytics returned have exactly one entry per
distinct period of the orders whose `createdAt` lies in the range of the
request, in strictly ascending order of period, the period being formatted by
day, week or month for `groupBy` `day`, `week`, `month` or absent, and by year
for every other value; `totalOrders` is the number of those orders in the
period and the counts of the per-status entries add up to it; `totalRevenue`
is the rounded sum of the per-status revenues, and when no amount is negative
and the amounts total at most 2^53 units it is the exact sum of the amounts of
the period, as is the sum of the per-status revenues. -/
theorem analytics_equals_reduction (db : Db OrderDoc) (dateValue : QVal → Int)
    (dateToString : String → Int → String) (query : Query)
    (hsem : ∀ f o, db.holds f o = orderHolds dateValue f o)
    (hruns : db.rejects (matchStage query) = false) :
    (analyticsHandler db dateToString query).status = 200 ∧
    ∃ analytics, (analyticsHandler db dateToString query).data = some analytics ∧
      analytics.map (fun g => (g.id, g.totalOrders)) =
        (reduceInMemory
          (fun o => dateToString (periodFormat (query.lookup "groupBy")) o.createdAt)
          (db.docs.filter (inDateRange dateValue query))).map (fun r => (r.1, r.2.1)) ∧
      (analytics.map PeriodGroup.id).Pairwise (fun p q => p.data < q.data) ∧
      (∀ g ∈ analytics, (g.orders.map StatusEntry.count).sum = g.totalOrders ∧
        g.totalRevenue = sumDoubles (g.orders.map StatusEntry.revenue)) ∧
      ((∀ o ∈ db.docs.filter (inDateRange dateValue query), 0 ≤ o.totalAmount) →
        ((db.docs.filter (inDateRange dateValue query)).map OrderDoc.totalAmount).sum ≤
          9007199254740992 →
        analytics.map (fun g => (g.id, g.totalOrders, g.totalRevenue)) =
          reduceInMemory
            (fun o => dateToString (periodFormat (query.lookup "groupBy")) o.createdAt)
            (db.docs.filter (inDateRange dateValue query)) ∧
        ∀ g ∈ analytics, (g.orders.map StatusEntry.revenue).sum = g.totalRevenue) := by
  have hfilter : db.docs.filter (db.holds (matchStage query)) =
      db.docs.filter (inDateRange dateValue query) := by
    apply List.filter_congr
    intro o _
    rw [hsem, orderHolds_matchStage]
  have hdata : (analyticsHandler db dateToString query).data =
      some (aggregate (fun o => dateToString (periodFormat (query.lookup "groupBy")) o.createdAt)
        (db.docs.filter (inDateRange dateValue query))) := by
    simp [analyticsHandler, hruns, hfilter, formatOf_periodFormat]
  refine ⟨by simp [analyticsHandler, hruns], _, hdata, ?_, ?_, ?_, ?_⟩
  · rw [aggregate_eq, List.map_map]
    unfold reduceInMemory
    rw [List.map_map]
    apply List.map_congr_left
    intro p _
    simp only [Function.comp_def, period_orders]
  · rw [aggregate_eq, List.map_map]
    have hid : ∀ (f : String → PeriodGroup), (∀ p, (f p).id = p) →
        ∀ xs : List String, xs.map (PeriodGroup.id ∘ f) = xs := by
      intro f hf xs
      simp [Function.comp_def, hf]
    rw [hid _ (fun _ => rfl)]
    have hsorted := sorted_periods
      ((db.docs.filter (inDateRange dateValue query)).map
        fun o => dateToString (periodFormat (query.lookup "groupBy")) o.createdAt).dedup
    have hnodup : (sortDocs periodLe
        ((db.docs.filter (inDateRange dateValue query)).map
          fun o => dateToString (periodFormat (query.lookup "groupBy")) o.createdAt).dedup).Nodup :=
      (perm_sortDocs _ _).nodup_iff.2 (List.nodup_dedup _)
    refine (hsorted.and hnodup).imp ?_
    intro p q hpq
    exact lt_of_le_of_ne hpq.1 (fun h => hpq.2 (String.ext h))
  · intro g hg
    rw [aggregate_eq, List.mem_map] at hg
    obtain ⟨p, _, rfl⟩ := hg
    simp [List.map_map, Function.comp_def]
  · intro hnonneg hsum
    constructor
    · rw [aggregate_eq, List.map_map]
      unfold reduceInMemory
      apply List.map_congr_left
      intro p _
      simp only [Function.comp_def, period_orders,
        (period_revenue_exact _ _ p hnonneg hsum).1]
    · intro g hg
      rw [aggregate_eq, List.mem_map] at hg
      obtain ⟨p, _, rfl⟩ := hg
      have h := period_revenue_exact
        (fun o => dateToString (periodFormat (query.lookup "groupBy")) o.createdAt)
        (db.docs.filter (inDateRange dateValue query)) p hnonneg hsum
      simp only [List.map_map, Function.comp_def]
      rw [h.1]
      exact h.2

theorem analytics_equals_reduction_witness :
    (analyticsHandler threeOrders twoMonths fromSecondOfJanuary).status = 200 ∧
    ((analyticsHandler threeOrders twoMonths fromSecondOfJanuary).data.map fun analytics =>
      analytics.map fun g => (g.id, g.totalOrders, g.totalRevenue)) =
      some [("2025-01", 1, 300), ("2025-02", 1, 1500)] := by
  obtain ⟨hstatus, analytics, hdata, _, _, _, hexact⟩ :=
    analytics_equals_reduction threeOrders sampleInstant twoMonths fromSecondOfJanuary
      (fun _ _ => rfl) (by decide)
  refine ⟨hstatus, ?_⟩
  rw [hdata, Option.map_some', (hexact (by decide) (by decide)).1]
  decide

end Pixisphere
